import Mathlib

/-!
# terraform-provider-testcroc: callbacks of four resources, embedded in Lean

The file embeds the following source functions and proves properties of them.

* `internal/service/autoscaling/lifecycle_hook.go`:
  `resourceLifecycleHookPutOp`, `resourceLifecycleHookPut`, `resourceLifecycleHookRead`,
  `resourceLifecycleHookDelete`, `getPutLifecycleHookInput`, `getLifecycleHook`,
  `resourceLifecycleHookImport`
* `internal/service/redshift/find.go`: `FindClusterByID`, `FindScheduledActionByName`
* `internal/service/licensemanager/license_configuration.go`:
  `resourceLicenseConfigurationCreate`, `resourceLicenseConfigurationRead`,
  `resourceLicenseConfigurationUpdate`, `resourceLicenseConfigurationDelete`, and the
  validator of the `license_rules` elements
* `internal/service/opsworks/rds_db_instance.go`:
  `resourceRDSDBInstanceRegister`, `resourceRDSDBInstanceRead`,
  `resourceRDSDBInstanceUpdate`, `resourceRDSDBInstanceDeregister`
* `internal/service/connect/status.go`: `statusInstance`
* `internal/service/ec2/vpc_endpoint_test.go`: `testAccCheckVpcEndpointDestroy`, and
  `testAccCheckEc2HostDestroy` of `internal/service/ec2/ec2_host_test.go`
* `skaff/resource/resource.go`: `toSnakeCase`, `Create`, `writeTemplate`

Conventions of the embedding.

* A Go pointer is an `Option`; dereferencing `nil` is the outcome `Run.nilDeref`.
* A Go `error` is an `Option GoError`, `none` being `nil`.
* A remote API is a record of response functions (the connection); every callback
  returns, besides its own results, the list of remote calls it made.
* `log.Printf` has no effect on any value and is left out.
* The update callbacks take the state before the change as `prior`; `d.HasChange` and
  `d.GetChange` compare the resource data with it.
* A Go `string` is a `String`, a text in valid UTF-8. `strings.ToLower` lower-cases the
  ASCII letters by computation and every other character with the case table of the Go
  library, which is an argument (`caseTable`) of the functions that call it.
-/

namespace Provider

/-! ## Go errors -/

/-- The error values that occur in the embedded code. -/
inductive GoError where
  /-- A value implementing `awserr.Error`, with its `Code()` and `Message()`. -/
  | aws (code message : String)
  /-- Any other error value without a cause, given by its text. -/
  | plain (text : String)
  /-- The value of `fmt.Errorf(context ++ ": %w", cause)`. -/
  | wrapf (context : String) (cause : GoError)
  /-- The value of `fmt.Errorf(context ++ ": %s", shown)`: the text of `shown` is part of
  the message, but `shown` is not a cause that `Unwrap` gives back. -/
  | errorf (context : String) (shown : GoError)
  /-- The value `&resource.TimeoutError{LastError: nil}`. -/
  | timeout
  /-- The value `&resource.NotFoundError{LastError: lastError}`. -/
  | notFound (lastError : GoError)
  /-- The value of `tfresource.NewEmptyResultError(input)`; the request it records is
  left out. -/
  | emptyResult
  /-- The value of `tfresource.NewTooManyResultsError(count, input)`; the request it
  records is left out. -/
  | tooManyResults (count : Nat)
  /-- The value of `fmt.Errorf(format, args...)` for arguments that are texts: the format
  and the arguments, as the call has them. -/
  | formatted (format : String) (args : List String)
  deriving DecidableEq, Repr

namespace GoError

/-- The first `awserr.Error` in the `Unwrap` chain, as `errors.As` finds it:
its code and message. -/
def asAWS : GoError → Option (String × String)
  | aws code message => some (code, message)
  | wrapf _ cause => asAWS cause
  | _ => none

/-- One step of `errors.Unwrap`. -/
def unwrap : GoError → Option GoError
  | wrapf _ cause => some cause
  | _ => none

end GoError

/-- The Go call `tfawserr.ErrCodeEquals(err, code)`: `err` has an `awserr.Error` in its
chain and the code of the first one is `code`. -/
def ErrCodeEquals (err : Option GoError) (code : String) : Bool :=
  match err with
  | none => false
  | some e =>
    match e.asAWS with
    | some (c, _) => c == code
    | none => false

/-- Whether the characters `sub` occur as a contiguous block in a list of characters. -/
def containsChars (sub : List Char) : List Char → Bool
  | [] => sub.isPrefixOf []
  | c :: cs => sub.isPrefixOf (c :: cs) || containsChars sub cs

/-- The Go call `strings.Contains(s, substr)`. -/
def stringsContains (s substr : String) : Bool :=
  containsChars substr.data s.data

/-- The Go function `aws.StringValue`: the string pointed to, or `""` for `nil`. -/
def StringValue (p : Option String) : String :=
  p.getD ""

/-- The outcome of running Go code that may dereference a nil pointer. -/
inductive Run (α : Type) where
  /-- The code ran to its `return` with the value `a`. -/
  | done (a : α)
  /-- The code dereferenced a nil pointer and panicked. -/
  | nilDeref
  deriving DecidableEq, Repr

/-! ## The retry helper -/

/-- The type `resource.RetryError`: what a retried closure returns when it fails. -/
inductive RetryError where
  /-- The value of `resource.RetryableError(err)`. -/
  | retryable (err : GoError)
  /-- The value of `resource.NonRetryableError(err)`. -/
  | nonRetryable (err : GoError)
  deriving DecidableEq, Repr

/-- Modelled from the spec: `resource.Retry` of the plugin SDK, which is not part of the
source files. Section 4.1 of the specification: invoke the closure; if it fails and the
failure is retryable, wait and retry; repeat until success, a terminal failure, or the
ceiling elapses. Time is abstracted to `ceiling`, the number of invocations the loop can
start before the ceiling duration has elapsed. The closure acts on a state `σ` (the remote
system). On success the result is `nil`, on a terminal failure the error the closure
gave, and when the ceiling has elapsed a `TimeoutError`. -/
def Retry {σ : Type} (ceiling : Nat) (f : σ → σ × Option RetryError) (s : σ) :
    σ × Option GoError :=
  match ceiling with
  | 0 => (s, some GoError.timeout)
  | c + 1 =>
    match f s with
    | (s1, none) => (s1, none)
    | (s1, some (RetryError.nonRetryable err)) => (s1, some err)
    | (s1, some (RetryError.retryable _)) => Retry c f s1

/-- Modelled from the spec: `tfresource.TimedOut`, which is not part of the source files:
the error is the one that reports the elapsed ceiling of `Retry`. -/
def TimedOut (err : Option GoError) : Bool :=
  match err with
  | some GoError.timeout => true
  | _ => false

/-! ## Auto Scaling lifecycle hooks (`lifecycle_hook.go`) -/

/-- The SDK type `autoscaling.PutLifecycleHookInput`. -/
structure PutLifecycleHookInput where
  AutoScalingGroupName : Option String
  LifecycleHookName : Option String
  DefaultResult : Option String := none
  HeartbeatTimeout : Option Int := none
  LifecycleTransition : Option String := none
  NotificationMetadata : Option String := none
  NotificationTargetARN : Option String := none
  RoleARN : Option String := none
  deriving DecidableEq, Repr

/-- The SDK type `autoscaling.LifecycleHook`. -/
structure LifecycleHook where
  LifecycleHookName : Option String
  DefaultResult : Option String := none
  HeartbeatTimeout : Option Int := none
  LifecycleTransition : Option String := none
  NotificationMetadata : Option String := none
  NotificationTargetARN : Option String := none
  RoleARN : Option String := none
  deriving DecidableEq, Repr

/-- The SDK type `autoscaling.DescribeLifecycleHooksInput`. -/
structure DescribeLifecycleHooksInput where
  AutoScalingGroupName : Option String
  LifecycleHookNames : List (Option String)
  deriving DecidableEq, Repr

/-- The SDK type `autoscaling.DescribeLifecycleHooksOutput`. -/
structure DescribeLifecycleHooksOutput where
  LifecycleHooks : List (Option LifecycleHook)
  deriving DecidableEq, Repr

/-- The SDK type `autoscaling.DeleteLifecycleHookInput`. -/
structure DeleteLifecycleHookInput where
  AutoScalingGroupName : Option String
  LifecycleHookName : Option String
  deriving DecidableEq, Repr

/-- The remote Auto Scaling API as the callbacks see it. `PutLifecycleHook k` answers the
invocation that follows `k` earlier invocations, so that the answer may change from one
attempt to the next. -/
structure AutoScalingConn where
  PutLifecycleHook : Nat → PutLifecycleHookInput → Option GoError
  DescribeLifecycleHooks :
    DescribeLifecycleHooksInput → Option DescribeLifecycleHooksOutput × Option GoError
  DeleteLifecycleHook : DeleteLifecycleHookInput → Option GoError

/-- The remote calls a lifecycle hook callback can make. -/
inductive HookCall where
  | describe (input : DescribeLifecycleHooksInput)
  | delete (input : DeleteLifecycleHookInput)
  deriving DecidableEq, Repr

/-- The `schema.ResourceData` of an `aws_autoscaling_lifecycle_hook`: the ID, the
`IsNewResource` mark and the attributes of the schema. -/
structure HookData where
  id : String
  isNewResource : Bool
  name : String
  autoscaling_group_name : String
  default_result : String := ""
  heartbeat_timeout : Int := 0
  lifecycle_transition : String := ""
  notification_metadata : String := ""
  notification_target_arn : String := ""
  role_arn : String := ""
  deriving DecidableEq, Repr

/-- The classification in the closure of `resourceLifecycleHookPutOp`: the failure is an
`awserr.Error` whose message contains the text of the notification target failure. -/
def retryablePutFailure : GoError → Bool
  | GoError.aws _ message =>
    stringsContains message "Unable to publish test message to notification target"
  | _ => false

/-- The closure that `resourceLifecycleHookPutOp` hands to `resource.Retry`. The state is
the number of `PutLifecycleHook` invocations made so far. -/
def putLifecycleHookAttempt (conn : AutoScalingConn) (params : PutLifecycleHookInput)
    (calls : Nat) : Nat × Option RetryError :=
  match conn.PutLifecycleHook calls params with
  | some err =>
    if retryablePutFailure err then
      (calls + 1, some (RetryError.retryable
        (GoError.wrapf "Retrying AWS AutoScaling Lifecycle Hook" err)))
    else
      (calls + 1, some (RetryError.nonRetryable
        (GoError.wrapf "Error putting lifecycle hook" err)))
  | none => (calls + 1, none)

/-- The source function `resourceLifecycleHookPutOp`. The result is the number of
`PutLifecycleHook` invocations made and the returned error. -/
def resourceLifecycleHookPutOp (conn : AutoScalingConn) (ceiling : Nat)
    (params : PutLifecycleHookInput) : Nat × Option GoError :=
  let r := Retry ceiling (putLifecycleHookAttempt conn params) 0
  let r := if TimedOut r.2 then (r.1 + 1, conn.PutLifecycleHook r.1 params) else r
  match r.2 with
  | some err => (r.1, some (GoError.wrapf "Error putting autoscaling lifecycle hook" err))
  | none => (r.1, none)

/-- The request that `getLifecycleHook` builds from the resource data. -/
def describeLifecycleHooksParams (d : HookData) : DescribeLifecycleHooksInput :=
  { AutoScalingGroupName := some d.autoscaling_group_name
    LifecycleHookNames := [some d.name] }

/-- The loop of `getLifecycleHook` over `resp.LifecycleHooks`: nil entries are skipped and
the first entry whose name is `name` is returned; `none` when the loop runs to its end. -/
def findLifecycleHook (name : String) : List (Option LifecycleHook) → Option LifecycleHook
  | [] => none
  | none :: rest => findLifecycleHook name rest
  | some sp :: rest =>
    if StringValue sp.LifecycleHookName == name then some sp
    else findLifecycleHook name rest

/-- The source function `getLifecycleHook`: the hook found and the error. -/
def getLifecycleHook (d : HookData) (conn : AutoScalingConn) :
    Run (Option LifecycleHook × Option GoError) :=
  match conn.DescribeLifecycleHooks (describeLifecycleHooksParams d) with
  | (_, some err) => Run.done (none, some (GoError.wrapf "Error retrieving lifecycle hooks" err))
  | (none, none) => Run.nilDeref
  | (some resp, none) => Run.done (findLifecycleHook d.name resp.LifecycleHooks, none)

/-- What a lifecycle hook callback leaves behind: the remote calls it made besides
`PutLifecycleHook`, in order, and, unless it panicked, the resource data and the error
returned. -/
structure HookResult where
  calls : List HookCall
  outcome : Run (HookData × Option GoError)
  deriving DecidableEq, Repr

/-- The source function `resourceLifecycleHookRead`. -/
def resourceLifecycleHookRead (d : HookData) (conn : AutoScalingConn) : HookResult :=
  let calls := [HookCall.describe (describeLifecycleHooksParams d)]
  match getLifecycleHook d conn with
  | Run.nilDeref => { calls := calls, outcome := Run.nilDeref }
  | Run.done (_, some err) => { calls := calls, outcome := Run.done (d, some err) }
  | Run.done (p, none) =>
    if p.isNone && !d.isNewResource then
      { calls := calls, outcome := Run.done ({ d with id := "" }, none) }
    else
      match p with
      | none => { calls := calls, outcome := Run.nilDeref }
      | some hook =>
        { calls := calls
          outcome := Run.done
            ({ d with
                default_result := StringValue hook.DefaultResult
                heartbeat_timeout := hook.HeartbeatTimeout.getD 0
                lifecycle_transition := StringValue hook.LifecycleTransition
                notification_metadata := StringValue hook.NotificationMetadata
                notification_target_arn := StringValue hook.NotificationTargetARN
                name := StringValue hook.LifecycleHookName
                role_arn := StringValue hook.RoleARN }, none) }

/-- The source function `resourceLifecycleHookDelete`. -/
def resourceLifecycleHookDelete (d : HookData) (conn : AutoScalingConn) : HookResult :=
  let describe := HookCall.describe (describeLifecycleHooksParams d)
  match getLifecycleHook d conn with
  | Run.nilDeref => { calls := [describe], outcome := Run.nilDeref }
  | Run.done (_, some err) => { calls := [describe], outcome := Run.done (d, some err) }
  | Run.done (none, none) => { calls := [describe], outcome := Run.done (d, none) }
  | Run.done (some _, none) =>
    let params : DeleteLifecycleHookInput :=
      { AutoScalingGroupName := some d.autoscaling_group_name
        LifecycleHookName := some d.name }
    match conn.DeleteLifecycleHook params with
    | some err =>
      { calls := [describe, HookCall.delete params]
        outcome := Run.done (d, some (GoError.wrapf "Autoscaling Lifecycle Hook" err)) }
    | none => { calls := [describe, HookCall.delete params], outcome := Run.done (d, none) }

/-! ## Redshift lookups (`find.go`) -/

/-- The SDK constant `redshift.ErrCodeClusterNotFoundFault`. -/
def ErrCodeClusterNotFoundFault : String := "ClusterNotFound"

/-- The SDK constant `redshift.ErrCodeScheduledActionNotFoundFault`. -/
def ErrCodeScheduledActionNotFoundFault : String := "ScheduledActionNotFound"

/-- The SDK type `redshift.Cluster`, with the fields that identify a cluster. -/
structure Cluster where
  ClusterIdentifier : Option String
  ClusterStatus : Option String := none
  deriving DecidableEq, Repr

/-- The SDK type `redshift.ScheduledAction`, with the fields that identify an action. -/
structure ScheduledAction where
  ScheduledActionName : Option String
  State : Option String := none
  deriving DecidableEq, Repr

/-- The SDK type `redshift.DescribeClustersInput`. -/
structure DescribeClustersInput where
  ClusterIdentifier : Option String
  deriving DecidableEq, Repr

/-- The SDK type `redshift.DescribeClustersOutput`. -/
structure DescribeClustersOutput where
  Clusters : List (Option Cluster)
  deriving DecidableEq, Repr

/-- The SDK type `redshift.DescribeScheduledActionsInput`. -/
structure DescribeScheduledActionsInput where
  ScheduledActionName : Option String
  deriving DecidableEq, Repr

/-- The SDK type `redshift.DescribeScheduledActionsOutput`. -/
structure DescribeScheduledActionsOutput where
  ScheduledActions : List (Option ScheduledAction)
  deriving DecidableEq, Repr

/-- The remote Redshift API as the lookups see it. -/
structure RedshiftConn where
  DescribeClusters : DescribeClustersInput → Option DescribeClustersOutput × Option GoError
  DescribeScheduledActions :
    DescribeScheduledActionsInput → Option DescribeScheduledActionsOutput × Option GoError

/-- The source function `FindClusterByID`. -/
def FindClusterByID (conn : RedshiftConn) (id : String) : Option Cluster × Option GoError :=
  let input : DescribeClustersInput := { ClusterIdentifier := some id }
  match conn.DescribeClusters input with
  | (_, some err) =>
    if ErrCodeEquals (some err) ErrCodeClusterNotFoundFault then
      (none, some (GoError.notFound err))
    else (none, some err)
  | (none, none) => (none, some GoError.emptyResult)
  | (some output, none) =>
    match output.Clusters with
    | [] => (none, some GoError.emptyResult)
    | none :: _ => (none, some GoError.emptyResult)
    | some first :: _ =>
      if output.Clusters.length > 1 then
        (none, some (GoError.tooManyResults output.Clusters.length))
      else (some first, none)

/-- The source function `FindScheduledActionByName`. -/
def FindScheduledActionByName (conn : RedshiftConn) (name : String) :
    Option ScheduledAction × Option GoError :=
  let input : DescribeScheduledActionsInput := { ScheduledActionName := some name }
  match conn.DescribeScheduledActions input with
  | (_, some err) =>
    if ErrCodeEquals (some err) ErrCodeScheduledActionNotFoundFault then
      (none, some (GoError.notFound err))
    else (none, some err)
  | (none, none) => (none, some GoError.emptyResult)
  | (some output, none) =>
    match output.ScheduledActions with
    | [] => (none, some GoError.emptyResult)
    | none :: _ => (none, some GoError.emptyResult)
    | some first :: _ =>
      if output.ScheduledActions.length > 1 then
        (none, some (GoError.tooManyResults output.ScheduledActions.length))
      else (some first, none)

/-! ## License Manager license configurations (`license_configuration.go`) -/

/-- The SDK constant `licensemanager.ErrCodeInvalidParameterValueException`. -/
def ErrCodeInvalidParameterValueException : String := "InvalidParameterValueException"

/-- The type `tftags.KeyValueTags`, a set of tags: keys with their values. -/
abbrev TagMap := List (String × String)

/-- The SDK type `licensemanager.Tag`. -/
structure Tag where
  Key : Option String
  Value : Option String
  deriving DecidableEq, Repr

/-- The SDK type `licensemanager.GetLicenseConfigurationInput`. -/
structure GetLicenseConfigurationInput where
  LicenseConfigurationArn : Option String
  deriving DecidableEq, Repr

/-- The SDK type `licensemanager.GetLicenseConfigurationOutput`, with the fields the
read callback uses. -/
structure GetLicenseConfigurationOutput where
  LicenseConfigurationArn : Option String
  Description : Option String := none
  LicenseCount : Option Int := none
  LicenseCountHardLimit : Option Bool := none
  LicenseCountingType : Option String := none
  LicenseRules : List (Option String) := []
  Name : Option String := none
  OwnerAccountId : Option String := none
  Tags : List (Option Tag) := []
  deriving DecidableEq, Repr

/-- The SDK type `licensemanager.DeleteLicenseConfigurationInput`. -/
structure DeleteLicenseConfigurationInput where
  LicenseConfigurationArn : Option String
  deriving DecidableEq, Repr

/-- The SDK type `licensemanager.CreateLicenseConfigurationInput`. A field that the
callback does not set is `none`. -/
structure CreateLicenseConfigurationInput where
  LicenseCountingType : Option String
  Name : Option String
  Description : Option String := none
  LicenseCount : Option Int := none
  LicenseCountHardLimit : Option Bool := none
  LicenseRules : Option (List (Option String)) := none
  Tags : Option (List (Option Tag)) := none
  deriving DecidableEq, Repr

/-- The SDK type `licensemanager.CreateLicenseConfigurationOutput`. -/
structure CreateLicenseConfigurationOutput where
  LicenseConfigurationArn : Option String
  deriving DecidableEq, Repr

/-- The SDK type `licensemanager.UpdateLicenseConfigurationInput`, with the fields the
update callback sets. -/
structure UpdateLicenseConfigurationInput where
  LicenseConfigurationArn : Option String
  Name : Option String
  Description : Option String
  LicenseCountHardLimit : Option Bool
  LicenseCount : Option Int := none
  deriving DecidableEq, Repr

/-- The remote License Manager API as the callbacks see it. -/
structure LicenseManagerConn where
  GetLicenseConfiguration :
    GetLicenseConfigurationInput → Option GetLicenseConfigurationOutput × Option GoError
  DeleteLicenseConfiguration : DeleteLicenseConfigurationInput → Option GoError
  CreateLicenseConfiguration :
    CreateLicenseConfigurationInput → Option CreateLicenseConfigurationOutput × Option GoError
  UpdateLicenseConfiguration : UpdateLicenseConfigurationInput → Option GoError

/-- The part of `meta.(*conns.AWSClient)` the license configuration callbacks use: the
connection, and the tag helpers of packages that are not among the source files, taken as
they come. `KeyValueTags` converts the tags of a response, `IgnoreAWS` and `IgnoreConfig`
drop the ignored keys (the latter with `IgnoreTagsConfig` applied), `RemoveDefaultConfig`
drops the default tags (with `DefaultTagsConfig` applied), and `FlattenStringList` is
`flex.FlattenStringList`. `MergeTags` is `DefaultTagsConfig.MergeTags` after `tftags.New`,
`Tags` converts a set of tags for a request, `ExpandStringList` is
`flex.ExpandStringList`, and `UpdateTags` is the function of the package that brings the
tags of the resource `id` from `old` to `new` by remote calls of its own. -/
structure LicenseManagerClient where
  LicenseManagerConn : LicenseManagerConn
  KeyValueTags : List (Option Tag) → TagMap
  IgnoreAWS : TagMap → TagMap
  IgnoreConfig : TagMap → TagMap
  RemoveDefaultConfig : TagMap → TagMap
  FlattenStringList : List (Option String) → List String
  MergeTags : TagMap → TagMap
  Tags : TagMap → List (Option Tag)
  ExpandStringList : List String → List (Option String)
  UpdateTags : (id : String) → (old new : TagMap) → Option GoError

/-- The `schema.ResourceData` of an `aws_licensemanager_license_configuration`: the ID and
the attributes of the schema. -/
structure LicenseData where
  id : String
  arn : String := ""
  description : String := ""
  license_count : Int := 0
  license_count_hard_limit : Bool := false
  license_counting_type : String := ""
  license_rules : List String := []
  name : String := ""
  owner_account_id : String := ""
  tags : TagMap := []
  tags_all : TagMap := []
  deriving DecidableEq, Repr

/-- The source function `resourceLicenseConfigurationRead`. The three `d.Set` calls whose
error is checked write values of the type of their attribute and do not fail. -/
def resourceLicenseConfigurationRead (d : LicenseData) (client : LicenseManagerClient) :
    Run (LicenseData × Option GoError) :=
  match client.LicenseManagerConn.GetLicenseConfiguration
      { LicenseConfigurationArn := some d.id } with
  | (_, some err) =>
    if ErrCodeEquals (some err) ErrCodeInvalidParameterValueException then
      Run.done ({ d with id := "" }, none)
    else
      Run.done (d, some
        (GoError.errorf "Error reading License Manager license configuration" err))
  | (none, none) => Run.nilDeref
  | (some resp, none) =>
    let tags := client.IgnoreConfig (client.IgnoreAWS (client.KeyValueTags resp.Tags))
    Run.done
      ({ d with
          arn := StringValue resp.LicenseConfigurationArn
          description := StringValue resp.Description
          license_count := resp.LicenseCount.getD 0
          license_count_hard_limit := resp.LicenseCountHardLimit.getD false
          license_counting_type := StringValue resp.LicenseCountingType
          license_rules := client.FlattenStringList resp.LicenseRules
          name := StringValue resp.Name
          owner_account_id := StringValue resp.OwnerAccountId
          tags := client.RemoveDefaultConfig tags
          tags_all := tags }, none)

/-- The source function `resourceLicenseConfigurationDelete`: the error returned. -/
def resourceLicenseConfigurationDelete (d : LicenseData) (client : LicenseManagerClient) :
    Option GoError :=
  match client.LicenseManagerConn.DeleteLicenseConfiguration
      { LicenseConfigurationArn := some d.id } with
  | some err =>
    if ErrCodeEquals (some err) ErrCodeInvalidParameterValueException then none
    else some (GoError.errorf "Error deleting License Manager license configuration" err)
  | none => none

/-! ## OpsWorks RDS DB instances (`rds_db_instance.go`) -/

/-- The SDK constant `opsworks.ErrCodeResourceNotFoundException`. -/
def ErrCodeResourceNotFoundException : String := "ResourceNotFoundException"

/-- The SDK type `opsworks.RdsDbInstance`, with the fields the callbacks use. -/
structure RdsDbInstance where
  RdsDbInstanceArn : Option String
  StackId : Option String
  DbUser : Option String := none
  deriving DecidableEq, Repr

/-- The SDK type `opsworks.DescribeRdsDbInstancesInput`. -/
structure DescribeRdsDbInstancesInput where
  StackId : Option String
  deriving DecidableEq, Repr

/-- The SDK type `opsworks.DescribeRdsDbInstancesOutput`. -/
structure DescribeRdsDbInstancesOutput where
  RdsDbInstances : List (Option RdsDbInstance)
  deriving DecidableEq, Repr

/-- The SDK type `opsworks.DeregisterRdsDbInstanceInput`. -/
structure DeregisterRdsDbInstanceInput where
  RdsDbInstanceArn : Option String
  deriving DecidableEq, Repr

/-- The SDK type `opsworks.RegisterRdsDbInstanceInput`. -/
structure RegisterRdsDbInstanceInput where
  StackId : Option String
  RdsDbInstanceArn : Option String
  DbUser : Option String
  DbPassword : Option String
  deriving DecidableEq, Repr

/-- The SDK type `opsworks.UpdateRdsDbInstanceInput`. A field that the callback does not
set is `none`. -/
structure UpdateRdsDbInstanceInput where
  RdsDbInstanceArn : Option String
  DbUser : Option String := none
  DbPassword : Option String := none
  deriving DecidableEq, Repr

/-- The remote OpsWorks API as the callbacks see it. -/
structure OpsWorksConn where
  DescribeRdsDbInstances :
    DescribeRdsDbInstancesInput → Option DescribeRdsDbInstancesOutput × Option GoError
  DeregisterRdsDbInstance : DeregisterRdsDbInstanceInput → Option GoError
  RegisterRdsDbInstance : RegisterRdsDbInstanceInput → Option GoError
  UpdateRdsDbInstance : UpdateRdsDbInstanceInput → Option GoError

/-- The `schema.ResourceData` of an `aws_opsworks_rds_db_instance`: the ID and the
attributes of the schema. -/
structure RDSData where
  id : String
  stack_id : String
  rds_db_instance_arn : String
  db_password : String
  db_user : String
  deriving DecidableEq, Repr

/-- The loop of `resourceRDSDBInstanceRead` over `resp.RdsDbInstances`, on the pair of the
variable `found` and the resource data. Each instance, its `RdsDbInstanceArn` and its
`StackId` are dereferenced. -/
def readRdsDbInstances :
    List (Option RdsDbInstance) → Bool × RDSData → Run (Bool × RDSData)
  | [], st => Run.done st
  | none :: _, _ => Run.nilDeref
  | some inst :: rest, (found, d) =>
    match inst.RdsDbInstanceArn, inst.StackId with
    | some arn, some stack =>
      let id := arn ++ stack
      if d.rds_db_instance_arn ++ d.stack_id == id then
        readRdsDbInstances rest
          (true, { d with
                    id := id
                    stack_id := StringValue inst.StackId
                    rds_db_instance_arn := StringValue inst.RdsDbInstanceArn
                    db_user := StringValue inst.DbUser })
      else readRdsDbInstances rest (found, d)
    | _, _ => Run.nilDeref

/-- The source function `resourceRDSDBInstanceRead`. -/
def resourceRDSDBInstanceRead (d : RDSData) (client : OpsWorksConn) :
    Run (RDSData × Option GoError) :=
  match client.DescribeRdsDbInstances { StackId := some d.stack_id } with
  | (_, some err) =>
    if ErrCodeEquals (some err) ErrCodeResourceNotFoundException then
      Run.done ({ d with id := "" }, none)
    else
      Run.done (d, some (GoError.wrapf
        ("while describing OpsWorks RDS DB Instance (" ++ d.stack_id ++ ")") err))
  | (none, none) => Run.nilDeref
  | (some resp, none) =>
    match readRdsDbInstances resp.RdsDbInstances (false, d) with
    | Run.nilDeref => Run.nilDeref
    | Run.done (found, d1) =>
      if !found then Run.done ({ d1 with id := "" }, none)
      else Run.done (d1, none)

/-- The source function `resourceRDSDBInstanceDeregister`: the error returned. -/
def resourceRDSDBInstanceDeregister (d : RDSData) (client : OpsWorksConn) :
    Option GoError :=
  let err := client.DeregisterRdsDbInstance { RdsDbInstanceArn := some d.rds_db_instance_arn }
  if ErrCodeEquals err ErrCodeResourceNotFoundException then none
  else
    match err with
    | some e => some (GoError.errorf "deregistering Opsworks RDS DB instance" e)
    | none => none

/-! ## Import and put of lifecycle hooks (`lifecycle_hook.go`) -/

/-- The text before the first `sep` of a list of characters and the text after it; `none`
when `sep` does not occur. -/
def cutAtFirst (sep : Char) : List Char → Option (List Char × List Char)
  | [] => none
  | c :: cs =>
    if c = sep then some ([], cs)
    else
      match cutAtFirst sep cs with
      | some (before, after) => some (c :: before, after)
      | none => none

/-- The Go call `strings.SplitN(s, sep, 2)` for a separator of one character: the text cut
at the first separator, or the text alone when it has no separator. -/
def stringsSplitN2 (s : String) (sep : Char) : List String :=
  match cutAtFirst sep s.data with
  | some (before, after) => [String.mk before, String.mk after]
  | none => [s]

/-- The source function `resourceLifecycleHookImport`: the resource data afterwards, the
slice returned (`none` for nil) and the error. -/
def resourceLifecycleHookImport (d : HookData) :
    HookData × Option (List HookData) × Option GoError :=
  let idParts := stringsSplitN2 d.id '/'
  if idParts.length != 2 || idParts.getD 0 "" == "" || idParts.getD 1 "" == "" then
    (d, none, some (GoError.formatted
      "unexpected format (%q), expected <asg-name>/<lifecycle-hook-name>" [d.id]))
  else
    let asgName := idParts.getD 0 ""
    let lifecycleHookName := idParts.getD 1 ""
    let d1 : HookData :=
      { d with
          name := lifecycleHookName
          autoscaling_group_name := asgName
          id := lifecycleHookName }
    (d1, some [d1], none)

/-- The source function `getPutLifecycleHookInput`. `d.GetOk` reports an attribute as set
when its value is not the zero value of its type. -/
def getPutLifecycleHookInput (d : HookData) : PutLifecycleHookInput :=
  { AutoScalingGroupName := some d.autoscaling_group_name
    LifecycleHookName := some d.name
    DefaultResult := if d.default_result ≠ "" then some d.default_result else none
    HeartbeatTimeout := if d.heartbeat_timeout ≠ 0 then some d.heartbeat_timeout else none
    LifecycleTransition :=
      if d.lifecycle_transition ≠ "" then some d.lifecycle_transition else none
    NotificationMetadata :=
      if d.notification_metadata ≠ "" then some d.notification_metadata else none
    NotificationTargetARN :=
      if d.notification_target_arn ≠ "" then some d.notification_target_arn else none
    RoleARN := if d.role_arn ≠ "" then some d.role_arn else none }

/-- The source function `resourceLifecycleHookPut`, the create and the update callback:
the number of `PutLifecycleHook` invocations and what the callback leaves behind. -/
def resourceLifecycleHookPut (d : HookData) (conn : AutoScalingConn) (ceiling : Nat) :
    Nat × HookResult :=
  match resourceLifecycleHookPutOp conn ceiling (getPutLifecycleHookInput d) with
  | (puts, some err) => (puts, { calls := [], outcome := Run.done (d, some err) })
  | (puts, none) => (puts, resourceLifecycleHookRead { d with id := d.name } conn)

/-! ## Create and update of license configurations (`license_configuration.go`) -/

/-- The remote calls a license configuration callback can make. -/
inductive LicenseCall where
  | create (input : CreateLicenseConfigurationInput)
  | get (input : GetLicenseConfigurationInput)
  | updateTags (id : String) (old new : TagMap)
  | update (input : UpdateLicenseConfigurationInput)
  | delete (input : DeleteLicenseConfigurationInput)
  deriving DecidableEq, Repr

/-- What the create or the update callback of a license configuration leaves behind: the
remote calls made, in order, and, unless it panicked, the resource data and the error. -/
structure LicenseResult where
  calls : List LicenseCall
  outcome : Run (LicenseData × Option GoError)
  deriving DecidableEq, Repr

/-- The remote call that `resourceLicenseConfigurationRead` makes for the data `d`. -/
def licenseReadCall (d : LicenseData) : LicenseCall :=
  LicenseCall.get { LicenseConfigurationArn := some d.id }

/-- The request that `resourceLicenseConfigurationCreate` builds. `d.GetOk` reports an
attribute as set when its value is not the zero value of its type. -/
def createLicenseConfigurationOpts (d : LicenseData) (client : LicenseManagerClient) :
    CreateLicenseConfigurationInput :=
  let tags := client.MergeTags d.tags
  { LicenseCountingType := some d.license_counting_type
    Name := some d.name
    Description := if d.description ≠ "" then some d.description else none
    LicenseCount := if d.license_count ≠ 0 then some d.license_count else none
    LicenseCountHardLimit :=
      if d.license_count_hard_limit ≠ false then some d.license_count_hard_limit else none
    LicenseRules :=
      if d.license_rules ≠ [] then some (client.ExpandStringList d.license_rules) else none
    Tags := if tags.length > 0 then some (client.Tags (client.IgnoreAWS tags)) else none }

/-- The source function `resourceLicenseConfigurationCreate`. -/
def resourceLicenseConfigurationCreate (d : LicenseData) (client : LicenseManagerClient) :
    LicenseResult :=
  let opts := createLicenseConfigurationOpts d client
  match client.LicenseManagerConn.CreateLicenseConfiguration opts with
  | (_, some err) =>
    { calls := [LicenseCall.create opts]
      outcome := Run.done (d, some
        (GoError.errorf "Error creating License Manager license configuration" err)) }
  | (none, none) => { calls := [LicenseCall.create opts], outcome := Run.nilDeref }
  | (some resp, none) =>
    let d1 := { d with id := StringValue resp.LicenseConfigurationArn }
    { calls := [LicenseCall.create opts, licenseReadCall d1]
      outcome := resourceLicenseConfigurationRead d1 client }

/-- The request that `resourceLicenseConfigurationUpdate` builds. -/
def updateLicenseConfigurationOpts (d : LicenseData) : UpdateLicenseConfigurationInput :=
  { LicenseConfigurationArn := some d.id
    Name := some d.name
    Description := some d.description
    LicenseCountHardLimit := some d.license_count_hard_limit
    LicenseCount := if d.license_count ≠ 0 then some d.license_count else none }

/-- The source function `resourceLicenseConfigurationUpdate`. The data `prior` is the
state before the change, against which `d.HasChange` and `d.GetChange` compare. -/
def resourceLicenseConfigurationUpdate (prior d : LicenseData)
    (client : LicenseManagerClient) : LicenseResult :=
  let tagCalls :=
    if prior.tags_all ≠ d.tags_all then
      [LicenseCall.updateTags d.id prior.tags_all d.tags_all]
    else []
  let tagErr :=
    if prior.tags_all ≠ d.tags_all then client.UpdateTags d.id prior.tags_all d.tags_all
    else none
  match tagErr with
  | some err =>
    { calls := tagCalls
      outcome := Run.done (d, some (GoError.errorf
        ("error updating License Manager License Configuration (" ++ d.id ++ ") tags") err)) }
  | none =>
    let opts := updateLicenseConfigurationOpts d
    match client.LicenseManagerConn.UpdateLicenseConfiguration opts with
    | some err =>
      { calls := tagCalls ++ [LicenseCall.update opts]
        outcome := Run.done (d, some
          (GoError.errorf "Error updating License Manager license configuration" err)) }
    | none =>
      { calls := tagCalls ++ [LicenseCall.update opts, licenseReadCall d]
        outcome := resourceLicenseConfigurationRead d client }

/-! ## Register and update of OpsWorks RDS DB instances (`rds_db_instance.go`) -/

/-- The remote calls a callback of the RDS DB instance resource can make. -/
inductive RDSCall where
  | register (input : RegisterRdsDbInstanceInput)
  | update (input : UpdateRdsDbInstanceInput)
  | describe (input : DescribeRdsDbInstancesInput)
  | deregister (input : DeregisterRdsDbInstanceInput)
  deriving DecidableEq, Repr

/-- What the register or the update callback leaves behind: the remote calls made, in
order, and, unless it panicked, the resource data and the error. -/
structure RDSResult where
  calls : List RDSCall
  outcome : Run (RDSData × Option GoError)
  deriving DecidableEq, Repr

/-- The remote call that `resourceRDSDBInstanceRead` makes for the data `d`. -/
def rdsReadCall (d : RDSData) : RDSCall :=
  RDSCall.describe { StackId := some d.stack_id }

/-- The request that `resourceRDSDBInstanceUpdate` builds. The data `prior` is the state
before the change, against which `d.HasChange` compares. -/
def updateRdsDbInstanceReq (prior d : RDSData) : UpdateRdsDbInstanceInput :=
  { RdsDbInstanceArn := some d.rds_db_instance_arn
    DbUser := if prior.db_user ≠ d.db_user then some d.db_user else none
    DbPassword := if prior.db_password ≠ d.db_password then some d.db_password else none }

/-- The source function `resourceRDSDBInstanceUpdate`. -/
def resourceRDSDBInstanceUpdate (prior d : RDSData) (client : OpsWorksConn) : RDSResult :=
  let req := updateRdsDbInstanceReq prior d
  let requestUpdate :=
    decide (prior.db_user ≠ d.db_user) || decide (prior.db_password ≠ d.db_password)
  if requestUpdate then
    match client.UpdateRdsDbInstance req with
    | some err =>
      { calls := [RDSCall.update req]
        outcome := Run.done (d, some
          (GoError.errorf "Error updating Opsworks RDS DB instance" err)) }
    | none =>
      { calls := [RDSCall.update req, rdsReadCall d]
        outcome := resourceRDSDBInstanceRead d client }
  else
    { calls := [rdsReadCall d], outcome := resourceRDSDBInstanceRead d client }

/-- The source function `resourceRDSDBInstanceRegister`. -/
def resourceRDSDBInstanceRegister (d : RDSData) (client : OpsWorksConn) : RDSResult :=
  let req : RegisterRdsDbInstanceInput :=
    { StackId := some d.stack_id
      RdsDbInstanceArn := some d.rds_db_instance_arn
      DbUser := some d.db_user
      DbPassword := some d.db_password }
  match client.RegisterRdsDbInstance req with
  | some err =>
    { calls := [RDSCall.register req]
      outcome := Run.done (d, some
        (GoError.errorf "Error registering Opsworks RDS DB instance" err)) }
  | none =>
    { calls := [RDSCall.register req, rdsReadCall d]
      outcome := resourceRDSDBInstanceRead d client }

/-! ## The validator of `license_rules` (`license_configuration.go`) -/

/-- A test of one character in a Go regular expression. -/
inductive Atom where
  /-- The character `c` itself. -/
  | lit (c : Char)
  /-- The class `[^c]`: every character but `c`, the newline included. -/
  | notChar (c : Char)
  /-- The dot: every character but the newline. -/
  | dot
  deriving DecidableEq, Repr

/-- Whether a character passes the test. -/
def Atom.test : Atom → Char → Bool
  | Atom.lit c, x => x == c
  | Atom.notChar c, x => x != c
  | Atom.dot, x => x != '\n'

/-- A piece of a regular expression: an atom once, or an atom repeated once or more
(`+`). A capture group around a piece does not change what matches. -/
inductive Piece where
  | one (a : Atom)
  | plus (a : Atom)
  deriving DecidableEq, Repr

/-- Whether a whole text matches a sequence of pieces: the meaning of `^...$` around the
pieces, where `$` stands for the end of the text. -/
def matchPieces : List Piece → List Char → Bool
  | [], [] => true
  | [], _ :: _ => false
  | _ :: _, [] => false
  | Piece.one a :: ps, c :: w => a.test c && matchPieces ps w
  | Piece.plus a :: ps, c :: w =>
    a.test c && (matchPieces ps w || matchPieces (Piece.plus a :: ps) w)

/-- A compiled regular expression `^...$`: its source text and its pieces. -/
structure Regexp where
  source : String
  pieces : List Piece
  deriving DecidableEq, Repr

/-- The Go method `MatchString` of a regular expression `^...$`. -/
def Regexp.MatchString (r : Regexp) (s : String) : Bool :=
  matchPieces r.pieces s.data

/-- The SDK function `validation.StringMatch`, applied to a value `v` that is a string
and the attribute key `k`: the errors of the validation. -/
def StringMatch (r : Regexp) (message : String) (v k : String) : List GoError :=
  if !r.MatchString v then
    if message ≠ "" then [GoError.formatted "invalid value for %s (%s)" [k, message]]
    else
      [GoError.formatted "expected value of %s to match regular expression %q, got %v"
        [k, r.source, v]]
  else []

/-- The regular expression of the `license_rules` elements,
`regexp.MustCompile("^#([^=]+)=(.+)$")`. -/
def licenseRuleRegexp : Regexp :=
  { source := "^#([^=]+)=(.+)$"
    pieces := [Piece.one (Atom.lit '#'), Piece.plus (Atom.notChar '='),
      Piece.one (Atom.lit '='), Piece.plus Atom.dot] }

/-- The `ValidateFunc` of the elements of `license_rules`. -/
def validateLicenseRule (v k : String) : List GoError :=
  StringMatch licenseRuleRegexp "Expected format is #RuleType=RuleValue" v k

/-! ## The scaffolding of a resource (`skaff/resource/resource.go`) -/

/-- The Go function `unicode.ToLower`. Up to `unicode.MaxASCII` it is computed: the
letters `A` to `Z` become `a` to `z` and every other character is kept. Above it Go looks
the character up in the case tables of its package `unicode`, which are not part of these
sources: `caseTable` gives the lower-case form that they hold for a character. -/
def unicodeToLower (caseTable : Char → Char) (c : Char) : Char :=
  if c.toNat < 128 then c.toLower else caseTable c

/-- The Go function `strings.ToLower` on a text in valid UTF-8: every character is mapped
with `unicode.ToLower`. -/
def stringsToLower (caseTable : Char → Char) (s : String) : String :=
  String.mk (s.data.map (unicodeToLower caseTable))

/-- The Go call `strings.TrimPrefix(s, "_")`: the text without one leading `_`. -/
def trimUnderscorePrefix : List Char → List Char
  | '_' :: rest => rest
  | l => l

/-- The Go method `ReplaceAllString` of a regular expression whose matches are not empty.
The function `m` gives, for a text, the match that starts at its first character, if
there is one: the expansion of the replacement template for it and the number of
characters matched. The text is read from left to right; at a match the expansion is
written and the characters matched are skipped (`skip` counts those still to skip), so
that matches do not overlap; any other character is copied. -/
def replaceAllFrom (m : List Char → Option (List Char × Nat)) : Nat → List Char → List Char
  | _, [] => []
  | skip + 1, _ :: w => replaceAllFrom m skip w
  | 0, c :: w =>
    match m (c :: w) with
    | some (out, len) => out ++ replaceAllFrom m (len - 1) w
    | none => c :: replaceAllFrom m 0 w

/-- The match of `([a-z])([A-Z]{2,})` at the start of a text, expanded with the template
`${1}_${2}`: a lower-case letter and the whole run of upper-case letters after it, which
has two letters or more, with `_` put between them. -/
def matchLowerThenUppers : List Char → Option (List Char × Nat)
  | [] => none
  | c :: w =>
    if c.isLower && decide (2 ≤ (w.takeWhile Char.isUpper).length) then
      some (c :: '_' :: w.takeWhile Char.isUpper, 1 + (w.takeWhile Char.isUpper).length)
    else none

/-- The match of `([A-Z][a-z])` at the start of a text, expanded with the template `_$1`:
an upper-case letter and a lower-case letter, with `_` put before them. -/
def matchUpperThenLower : List Char → Option (List Char × Nat)
  | c :: d :: _ => if c.isUpper && d.isLower then some (['_', c, d], 2) else none
  | _ => none

/-- The source function `toSnakeCase`; `caseTable` is the case table that
`strings.ToLower` reads. -/
def toSnakeCase (caseTable : Char → Char) (upper snakeName : String) : String :=
  if snakeName ≠ "" then snakeName
  else
    let upper1 := replaceAllFrom matchLowerThenUppers 0 upper.data
    let upper2 := replaceAllFrom matchUpperThenLower 0 upper1
    String.mk (trimUnderscorePrefix (stringsToLower caseTable (String.mk upper2)).data)

/-- The Go function `filepath.Base` for the separator `/`: the last element of a path,
trailing separators removed; `.` for the empty path and `/` for a path of separators. -/
def filepathBase (path : String) : String :=
  if path = "" then "."
  else
    let stripped := (path.data.reverse.dropWhile (· == '/')).reverse
    let last := (stripped.reverse.takeWhile (· != '/')).reverse
    if last = [] then "/" else String.mk last

/-- The source type `TemplateData`. -/
structure TemplateData where
  Resource : String
  ResourceLower : String
  IncludeComments : Bool
  ServicePackage : String
  Service : String
  ServiceLower : String
  AWSServiceName : String
  deriving DecidableEq, Repr

/-- The calls to the operating system that `writeTemplate` makes on files. -/
inductive FileCall where
  | stat (filename : String)
  | openFile (filename : String)
  | write (filename contents : String)
  | close (filename : String)
  deriving DecidableEq, Repr

/-- What `Create` finds around it: the working directory (`os.Getwd`), the case table
that `strings.ToLower` reads, the functions of the package `names`, the three embedded
template texts, `filepath.Clean`, and for every
file name the answers of the operating system and of the package `text/template`:
whether the error of `os.Stat` says that the file does not exist, the error of
`os.OpenFile`, of parsing the template, the text and the error of executing it, and the
errors of writing and of closing. -/
structure SkaffEnv where
  Getwd : String × Option GoError
  caseTable : Char → Char
  ProviderNameUpper : String → String × Option GoError
  FullHumanFriendly : String → String × Option GoError
  resourceTmpl : String
  resourceTestTmpl : String
  websiteTmpl : String
  Clean : String → String
  StatIsNotExist : String → Bool
  OpenFile : String → Option GoError
  Parse : (templateName tmpl : String) → Option GoError
  Execute : (templateName tmpl : String) → TemplateData → String × Option GoError
  Write : (filename contents : String) → Option GoError
  Close : String → Option GoError

/-- The source function `writeTemplate`: the calls on files it makes and its error. -/
def writeTemplate (env : SkaffEnv) (templateName filename tmpl : String) (force : Bool)
    (td : TemplateData) : List FileCall × Option GoError :=
  if !env.StatIsNotExist filename && !force then
    ([FileCall.stat filename], some (GoError.formatted
      "file (%s) already exists and force is not set" [filename]))
  else
    match env.OpenFile filename with
    | some err =>
      ([FileCall.stat filename, FileCall.openFile filename], some
        (GoError.errorf ("error opening file (" ++ filename ++ ")") err))
    | none =>
      match env.Parse templateName tmpl with
      | some err =>
        ([FileCall.stat filename, FileCall.openFile filename], some
          (GoError.errorf "error parsing template" err))
      | none =>
        match env.Execute templateName tmpl td with
        | (_, some err) =>
          ([FileCall.stat filename, FileCall.openFile filename], some
            (GoError.errorf "error executing template" err))
        | (contents, none) =>
          match env.Write filename contents with
          | some err =>
            ([FileCall.stat filename, FileCall.openFile filename,
              FileCall.write filename contents, FileCall.close filename], some
              (GoError.errorf ("error writing to file (" ++ filename ++ ")") err))
          | none =>
            match env.Close filename with
            | some err =>
              ([FileCall.stat filename, FileCall.openFile filename,
                FileCall.write filename contents, FileCall.close filename], some
                (GoError.errorf ("error closing file (" ++ filename ++ ")") err))
            | none =>
              ([FileCall.stat filename, FileCall.openFile filename,
                FileCall.write filename contents, FileCall.close filename], none)

/-- The error of `Create` for an empty resource name. -/
def errNoNameGiven : GoError :=
  GoError.formatted "error checking: no name given" []

/-- The error of `Create` for a resource name without an upper-case letter. -/
def errNotCapitalized : GoError :=
  GoError.formatted
    "error checking: name should be properly capitalized (e.g., DBInstance)" []

/-- The error of `Create` for a snake name with an upper-case letter. -/
def errSnakeNotLower : GoError :=
  GoError.formatted
    "error checking: snake name should be all lower case with underscores, if needed (e.g., db_instance)"
    []

/-- The source function `Create`: the calls on files it makes and its error. -/
def Create (env : SkaffEnv) (resName snakeName : String) (comments force : Bool) :
    List FileCall × Option GoError :=
  match env.Getwd with
  | (_, some err) => ([], some (GoError.errorf "error reading working directory" err))
  | (wd, none) =>
    let servicePackage := filepathBase wd
    if resName = "" then ([], some errNoNameGiven)
    else if resName = stringsToLower env.caseTable resName then
      ([], some errNotCapitalized)
    else if snakeName ≠ "" ∧ snakeName ≠ stringsToLower env.caseTable snakeName then
      ([], some errSnakeNotLower)
    else
      match env.ProviderNameUpper servicePackage with
      | (_, some err) =>
        ([], some (GoError.wrapf "error getting service connection name" err))
      | (s, none) =>
        match env.FullHumanFriendly servicePackage with
        | (_, some err) => ([], some (GoError.wrapf "error getting AWS service name" err))
        | (sn, none) =>
          let templateData : TemplateData :=
            { Resource := resName
              ResourceLower := stringsToLower env.caseTable resName
              IncludeComments := comments
              ServicePackage := servicePackage
              Service := s
              ServiceLower := stringsToLower env.caseTable s
              AWSServiceName := sn }
          let f := toSnakeCase env.caseTable resName snakeName ++ ".go"
          match writeTemplate env "newres" f env.resourceTmpl force templateData with
          | (calls1, some err) =>
            (calls1, some (GoError.wrapf "writing resource template" err))
          | (calls1, none) =>
            let tf := toSnakeCase env.caseTable resName snakeName ++ "_test.go"
            match writeTemplate env "restest" tf env.resourceTestTmpl force templateData with
            | (calls2, some err) =>
              (calls1 ++ calls2, some (GoError.wrapf "writing resource test template" err))
            | (calls2, none) =>
              let wf := servicePackage ++ "_" ++ toSnakeCase env.caseTable resName snakeName
                ++ ".html.markdown"
              let wf := env.Clean ("../../../website/docs/r/" ++ wf)
              match writeTemplate env "webdoc" wf env.websiteTmpl force templateData with
              | (calls3, some err) =>
                (calls1 ++ calls2 ++ calls3, some
                  (GoError.wrapf "writing resource website doc template" err))
              | (calls3, none) => (calls1 ++ calls2 ++ calls3, none)

/-! ## The status of a Connect instance (`connect/status.go`) -/

/-- The SDK type `connect.Instance`, with the fields that identify an instance and give
its status. -/
structure ConnectInstance where
  InstanceStatus : Option String
  Id : Option String := none
  deriving DecidableEq, Repr

/-- The SDK type `connect.DescribeInstanceInput`. -/
structure DescribeInstanceInput where
  InstanceId : Option String
  deriving DecidableEq, Repr

/-- The SDK type `connect.DescribeInstanceOutput`. -/
structure DescribeInstanceOutput where
  Instance : Option ConnectInstance
  deriving DecidableEq, Repr

/-- The remote Connect API as the status function sees it. -/
structure ConnectConn where
  DescribeInstanceWithContext :
    DescribeInstanceInput → Option DescribeInstanceOutput × Option GoError

/-- The refresh function that the source function `statusInstance` returns, run once: the
three values it returns. The constant `InstanceStatusStatusNotFound` of the package is
not among the source files and is taken as it comes. -/
def statusInstance (InstanceStatusStatusNotFound : String) (conn : ConnectConn)
    (instanceId : String) : Run (Option DescribeInstanceOutput × String × Option GoError) :=
  match conn.DescribeInstanceWithContext { InstanceId := some instanceId } with
  | (output, err) =>
    if ErrCodeEquals err InstanceStatusStatusNotFound then
      Run.done (output, InstanceStatusStatusNotFound, none)
    else
      match err with
      | some e => Run.done (none, "", some e)
      | none =>
        match output with
        | none => Run.nilDeref
        | some out =>
          match out.Instance with
          | none => Run.nilDeref
          | some inst => Run.done (some out, StringValue inst.InstanceStatus, none)

/-! ## Destroy checks of the acceptance tests (`vpc_endpoint_test.go`, `ec2_host_test.go`) -/

/-- The type `terraform.InstanceState`, with its ID. -/
structure InstanceState where
  ID : String
  deriving DecidableEq, Repr

/-- The type `terraform.ResourceState`, with the type of the resource and its primary
instance. -/
structure ResourceState where
  type : String
  Primary : Option InstanceState
  deriving DecidableEq, Repr

/-- The SDK type `ec2.VpcEndpoint`, with its ID and state. -/
structure VpcEndpoint where
  VpcEndpointId : Option String
  State : Option String := none
  deriving DecidableEq, Repr

/-- The SDK type `ec2.Host`, with its ID and state. -/
structure Host where
  HostId : Option String
  State : Option String := none
  deriving DecidableEq, Repr

/-- The lookups of the package `ec2` that the destroy checks call; they are not among the
source files and are taken as they come. -/
structure EC2Conn where
  FindVPCEndpointByID : String → Option VpcEndpoint × Option GoError
  FindHostByID : String → Option Host × Option GoError

/-- Whether an error is, or wraps, a `resource.NotFoundError`. -/
def isNotFoundError : GoError → Bool
  | GoError.notFound _ => true
  | GoError.wrapf _ cause => isNotFoundError cause
  | _ => false

/-- Modelled from the spec: `tfresource.NotFound`, which is not among the source files:
the error reports that the remote object no longer exists. A nil error does not. -/
def NotFound (err : Option GoError) : Bool :=
  match err with
  | some e => isNotFoundError e
  | none => false

/-- The source function `testAccCheckVpcEndpointDestroy`, on the resources of the root
module in the order in which the loop meets them. -/
def testAccCheckVpcEndpointDestroy (conn : EC2Conn) :
    List (Option ResourceState) → Run (Option GoError)
  | [] => Run.done none
  | none :: _ => Run.nilDeref
  | some rs :: rest =>
    if rs.type != "aws_vpc_endpoint" then testAccCheckVpcEndpointDestroy conn rest
    else
      match rs.Primary with
      | none => Run.nilDeref
      | some primary =>
        match conn.FindVPCEndpointByID primary.ID with
        | (_, err) =>
          if NotFound err then testAccCheckVpcEndpointDestroy conn rest
          else
            match err with
            | some e => Run.done (some e)
            | none => testAccCheckVpcEndpointDestroy conn rest

/-- The source function `testAccCheckEc2HostDestroy`, the same check for EC2 hosts. -/
def testAccCheckEc2HostDestroy (conn : EC2Conn) :
    List (Option ResourceState) → Run (Option GoError)
  | [] => Run.done none
  | none :: _ => Run.nilDeref
  | some rs :: rest =>
    if rs.type != "aws_ec2_host" then testAccCheckEc2HostDestroy conn rest
    else
      match rs.Primary with
      | none => Run.nilDeref
      | some primary =>
        match conn.FindHostByID primary.ID with
        | (_, err) =>
          if NotFound err then testAccCheckEc2HostDestroy conn rest
          else
            match err with
            | some e => Run.done (some e)
            | none =>
              Run.done (some (GoError.formatted "EC2 Host %s still exists" [primary.ID]))

/-! ## Vocabulary of the statements and sample inputs -/

/-- An answer of `PutLifecycleHook` that is a failure classified retryable. -/
def failsRetryable (answer : Option GoError) : Bool :=
  match answer with
  | some err => retryablePutFailure err
  | none => false

/-- An answer of `PutLifecycleHook` that is a failure classified terminal. -/
def failsTerminal (answer : Option GoError) : Bool :=
  match answer with
  | some err => !retryablePutFailure err
  | none => false

/-- The failure the service reports while the notification target cannot be reached. -/
def sampleTargetFailure : GoError :=
  GoError.aws "ValidationError"
    "Unable to publish test message to notification target arn:aws:sqs:queue"

/-- A failure that no retry can mend. -/
def sampleDenied : GoError :=
  GoError.aws "AccessDenied" "User is not authorized to perform PutLifecycleHook"

/-- A request for the hook `hook` of the group `asg`. -/
def samplePutParams : PutLifecycleHookInput :=
  { AutoScalingGroupName := some "asg", LifecycleHookName := some "hook" }

/-- A connection whose `PutLifecycleHook` fails `failures` times with the notification
target failure, then answers `final` for good; its other calls succeed and find nothing. -/
def sampleConn (failures : Nat) (final : Option GoError) : AutoScalingConn :=
  { PutLifecycleHook := fun k _ => if k < failures then some sampleTargetFailure else final
    DescribeLifecycleHooks := fun _ => (some { LifecycleHooks := [] }, none)
    DeleteLifecycleHook := fun _ => none }

/-- The hooks of a response whose name is `name`, in the order of the response. -/
def matchingHooks (name : String) (hooks : List (Option LifecycleHook)) : List LifecycleHook :=
  hooks.filterMap fun sp => sp.filter fun hook => StringValue hook.LifecycleHookName == name

/-- Resource data of the hook `hook` of the group `asg`. -/
def sampleHookData (isNewResource : Bool) : HookData :=
  { id := "hook", isNewResource := isNewResource, name := "hook",
    autoscaling_group_name := "asg" }

/-- A connection whose `DescribeLifecycleHooks` succeeds with the hooks `hooks`. -/
def sampleDescribeConn (hooks : List (Option LifecycleHook)) : AutoScalingConn :=
  { PutLifecycleHook := fun _ _ => none
    DescribeLifecycleHooks := fun _ => (some { LifecycleHooks := hooks }, none)
    DeleteLifecycleHook := fun _ => none }

/-- A hook named `hook` whose default result is `result`. -/
def sampleHook (result : String) : LifecycleHook :=
  { LifecycleHookName := some "hook", DefaultResult := some result }

/-- A Redshift connection whose calls succeed with the records given. -/
def sampleRedshiftConn (clusters : List (Option Cluster))
    (actions : List (Option ScheduledAction)) : RedshiftConn :=
  { DescribeClusters := fun _ => (some { Clusters := clusters }, none)
    DescribeScheduledActions := fun _ => (some { ScheduledActions := actions }, none) }

/-- A cluster with the identifier `id`. -/
def sampleCluster (id : String) : Cluster :=
  { ClusterIdentifier := some id }

/-- A scheduled action with the name `name`. -/
def sampleAction (name : String) : ScheduledAction :=
  { ScheduledActionName := some name }

/-- A License Manager client whose two calls answer with the error given (`none` for a
success, the read then giving `output`), and whose tag helpers keep every tag. -/
def sampleLicenseClient (output : Option GetLicenseConfigurationOutput)
    (answer : Option GoError) : LicenseManagerClient :=
  { LicenseManagerConn :=
      { GetLicenseConfiguration := fun _ => (output, answer)
        DeleteLicenseConfiguration := fun _ => answer
        CreateLicenseConfiguration := fun _ => (none, answer)
        UpdateLicenseConfiguration := fun _ => answer }
    KeyValueTags := fun tags =>
      tags.filterMap fun tag => tag.map fun t => (StringValue t.Key, StringValue t.Value)
    IgnoreAWS := fun tags => tags
    IgnoreConfig := fun tags => tags
    RemoveDefaultConfig := fun tags => tags
    FlattenStringList := fun rules => rules.filterMap fun rule => rule
    MergeTags := fun tags => tags
    Tags := fun tags => tags.map fun kv => some { Key := some kv.1, Value := some kv.2 }
    ExpandStringList := fun rules => rules.map some
    UpdateTags := fun _ _ _ => none }

/-- A License Manager client whose create call gives `created`, whose update call gives
`updated` and whose read gives `got`; the tag helpers keep every tag. -/
def sampleLicenseService
    (created : Option CreateLicenseConfigurationOutput × Option GoError)
    (updated : Option GoError)
    (got : Option GetLicenseConfigurationOutput × Option GoError) : LicenseManagerClient :=
  { sampleLicenseClient none none with
    LicenseManagerConn :=
      { GetLicenseConfiguration := fun _ => got
        DeleteLicenseConfiguration := fun _ => none
        CreateLicenseConfiguration := fun _ => created
        UpdateLicenseConfiguration := fun _ => updated } }

/-- Resource data of a license configuration with two rules and a count. -/
def sampleLicenseData : LicenseData :=
  { id := "arn:aws:license-manager:eu-west-1:123456789012:license-configuration:lic-1"
    name := "Example", license_counting_type := "Socket", license_count := 10,
    license_rules := ["#minimumSockets=2"] }

/-- The answer of License Manager for a configuration that does not exist. -/
def sampleInvalidParameter : GoError :=
  GoError.aws "InvalidParameterValueException" "Invalid license configuration ARN"

/-- The answer of a service that is throttling. -/
def sampleThrottled : GoError :=
  GoError.aws "ThrottlingException" "Rate exceeded"

/-- The answer of OpsWorks for a stack or an instance that does not exist. -/
def sampleResourceNotFound : GoError :=
  GoError.aws "ResourceNotFoundException" "Unable to find stack with ID stack-1"

/-- An OpsWorks connection whose describe call gives `output` and `answer` and whose
deregister call gives `answer`. -/
def sampleOpsWorksConn (output : Option DescribeRdsDbInstancesOutput)
    (answer : Option GoError) : OpsWorksConn :=
  { DescribeRdsDbInstances := fun _ => (output, answer)
    DeregisterRdsDbInstance := fun _ => answer
    RegisterRdsDbInstance := fun _ => none
    UpdateRdsDbInstance := fun _ => none }

/-- Resource data of the RDS instance `arn:db-1` registered with the stack `stack-1`. -/
def sampleRDSData : RDSData :=
  { id := "arn:db-1stack-1", stack_id := "stack-1", rds_db_instance_arn := "arn:db-1",
    db_password := "secret", db_user := "admin" }

/-- The text `RdsDbInstanceArn ++ StackId` of an entry of a describe response, when the
entry and both fields are not nil. -/
def instanceKey (entry : Option RdsDbInstance) : Option String :=
  match entry with
  | some inst =>
    match inst.RdsDbInstanceArn, inst.StackId with
    | some arn, some stack => some (arn ++ stack)
    | _, _ => none
  | none => none

/-- The error of `resourceLifecycleHookImport` for the import ID `id`. -/
def importFormatError (id : String) : GoError :=
  GoError.formatted "unexpected format (%q), expected <asg-name>/<lifecycle-hook-name>" [id]

/-- An import ID is well formed: it is `g ++ "/" ++ h` where `g`, the text before its
first `/`, and `h`, the text after its first `/`, are not empty. -/
def wellFormedImportID (id : String) : Prop :=
  ∃ g h : String, id = g ++ "/" ++ h ∧ '/' ∉ g.data ∧ g ≠ "" ∧ h ≠ ""

/-- The describe call for the resource data `d` succeeds and its response holds a hook
with the name of `d`: a read of `d` finds the hook. -/
def readFindsHook (d : HookData) (conn : AutoScalingConn) : Prop :=
  ∃ resp hook, conn.DescribeLifecycleHooks (describeLifecycleHooksParams d) = (some resp, none)
    ∧ some hook ∈ resp.LifecycleHooks ∧ StringValue hook.LifecycleHookName = d.name

/-- The error `target` is reachable from an error by zero or more steps of `Unwrap`. -/
def unwrapsTo (target : GoError) : GoError → Bool
  | GoError.wrapf context cause =>
    (GoError.wrapf context cause == target) || unwrapsTo target cause
  | err => err == target

/-- The refresh of the license configuration `d` finds it: `GetLicenseConfiguration`
succeeds with a response. -/
def readFindsLicense (d : LicenseData) (client : LicenseManagerClient) : Prop :=
  ∃ resp, client.LicenseManagerConn.GetLicenseConfiguration
    { LicenseConfigurationArn := some d.id } = (some resp, none)

/-- The refresh of the license configuration `d` is answered with the not-found code. -/
def readMissesLicense (d : LicenseData) (client : LicenseManagerClient) : Prop :=
  ∃ output err, client.LicenseManagerConn.GetLicenseConfiguration
      { LicenseConfigurationArn := some d.id } = (output, some err)
    ∧ ErrCodeEquals (some err) ErrCodeInvalidParameterValueException = true

/-- The answer of a create call for the new configuration `lic-2`. -/
def sampleCreated : CreateLicenseConfigurationOutput :=
  { LicenseConfigurationArn :=
      some "arn:aws:license-manager:eu-west-1:123456789012:license-configuration:lic-2" }

/-- Resource data of a configuration that is planned and has no ID yet. -/
def sampleNewLicenseData : LicenseData :=
  { sampleLicenseData with id := "" }

/-- The describe call for the resource data `d` succeeds, every entry of its response has
an ARN and a stack ID, and one of them has ARN ++ StackId equal to the
`rds_db_instance_arn ++ stack_id` of `d`: a read of `d` finds the instance. -/
def readFindsInstance (d : RDSData) (client : OpsWorksConn) : Prop :=
  ∃ resp, client.DescribeRdsDbInstances { StackId := some d.stack_id } = (some resp, none)
    ∧ (∀ entry, entry ∈ resp.RdsDbInstances → (instanceKey entry).isSome = true)
    ∧ ∃ entry, entry ∈ resp.RdsDbInstances
        ∧ instanceKey entry = some (d.rds_db_instance_arn ++ d.stack_id)

/-- The instance `arn:db-1` as the stack `stack-1` lists it. -/
def sampleInstance : RdsDbInstance :=
  { RdsDbInstanceArn := some "arn:db-1", StackId := some "stack-1", DbUser := some "admin" }

/-- A text has the form of a license rule: `"#" ++ t ++ "=" ++ v` where `t` is not empty
and has no `=`, and `v` is not empty and has no newline. -/
def licenseRuleForm (s : String) : Prop :=
  ∃ t v : String, s = "#" ++ t ++ "=" ++ v ∧ t ≠ "" ∧ '=' ∉ t.data ∧ v ≠ "" ∧ '\n' ∉ v.data

/-- One of the three checks of `Create` on the names refuses them: the resource name is
empty, or equals its lower-cased form, or the snake name is not empty and differs from its
lower-cased form. -/
def namesRefused (caseTable : Char → Char) (resName snakeName : String) : Prop :=
  resName = "" ∨ resName = stringsToLower caseTable resName
    ∨ (snakeName ≠ "" ∧ snakeName ≠ stringsToLower caseTable snakeName)

/-- A part of the case tables of Go: the lower-case form of `É` is `é`; the other
characters are kept. -/
def sampleCaseTable (c : Char) : Char :=
  if c = 'É' then 'é' else c

/-- An environment of `Create` in the directory of the service package `rds`, where no
file exists yet and every call succeeds. -/
def sampleSkaffEnv : SkaffEnv :=
  { Getwd := ("/src/internal/service/rds", none)
    caseTable := sampleCaseTable
    ProviderNameUpper := fun _ => ("RDS", none)
    FullHumanFriendly := fun _ => ("Amazon Relational Database Service", none)
    resourceTmpl := "package x"
    resourceTestTmpl := "package x_test"
    websiteTmpl := "# Resource"
    Clean := fun path => path
    StatIsNotExist := fun _ => true
    OpenFile := fun _ => none
    Parse := fun _ _ => none
    Execute := fun _ tmpl _ => (tmpl, none)
    Write := fun _ _ => none
    Close := fun _ => none }

/-- A text starts with two upper-case letters. -/
def startsWithTwoUppers : List Char → Bool
  | a :: b :: _ => a.isUpper && b.isUpper
  | _ => false

/-- A text starts with a lower-case letter. -/
def startsWithLower : List Char → Bool
  | d :: _ => d.isLower
  | [] => false

/-- A text starts with an upper-case letter. -/
def startsWithUpper : List Char → Bool
  | d :: _ => d.isUpper
  | [] => false

/-- A text starts with a character that is not `_`. -/
def startsWithoutUnderscore : List Char → Bool
  | d :: _ => d != '_'
  | [] => false

/-- The text with `_` put after every lower-case letter that two upper-case letters
follow: what the first replacement of `toSnakeCase` makes of a text. -/
def underscoreAfterLower : List Char → List Char
  | [] => []
  | c :: rest =>
    if c.isLower && startsWithTwoUppers rest then c :: '_' :: underscoreAfterLower rest
    else c :: underscoreAfterLower rest

/-- The text with `_` put before every upper-case letter that a lower-case letter
follows: what the second replacement of `toSnakeCase` makes of a text. -/
def underscoreBeforeUpper : List Char → List Char
  | [] => []
  | c :: rest =>
    if c.isUpper && startsWithLower rest then '_' :: c :: underscoreBeforeUpper rest
    else c :: underscoreBeforeUpper rest

/-- Every `_` of the text is followed by a text that passes the test `next`. -/
def underscoresFollowedBy (next : List Char → Bool) : List Char → Bool
  | [] => true
  | c :: rest => (c != '_' || next rest) && underscoresFollowedBy next rest

/-- A text is "all lower case with underscores": it has no upper-case letter, only
lower-case letters, digits and `_`, and no leading, trailing or doubled `_`. -/
def isSnakeCase (r : List Char) : Prop :=
  (∀ c, c ∈ r → c.isUpper = false)
    ∧ (∀ c, c ∈ r → c.isLower = true ∨ c.isDigit = true ∨ c = '_')
    ∧ r.head? ≠ some '_' ∧ r.getLast? ≠ some '_' ∧ ¬ ['_', '_'] <:+: r

/-- The text of the failure of `PutLifecycleHook` that is worth a retry. -/
def retryableMessage : String :=
  "Unable to publish test message to notification target"

/-- The ARN of an entry of a describe response, when the entry and the ARN are not nil. -/
def entryArn (entry : Option RdsDbInstance) : Option String :=
  match entry with
  | some inst => inst.RdsDbInstanceArn
  | none => none

/-- Every entry of the response is an instance with an ARN and with the stack ID of the
resource data `d`, the stack the describe request asks for. -/
def allOfStack (d : RDSData) (resp : DescribeRdsDbInstancesOutput) : Prop :=
  ∀ entry, entry ∈ resp.RdsDbInstances →
    ∃ inst arn, entry = some inst ∧ inst.RdsDbInstanceArn = some arn
      ∧ inst.StackId = some d.stack_id

/-- An OpsWorks connection that lists the instance `arn:db-1` for the stack `stack-1` and
refuses every update as throttled. -/
def sampleOpsWorksUpdateRefused : OpsWorksConn :=
  { DescribeRdsDbInstances := fun _ => (some { RdsDbInstances := [some sampleInstance] }, none)
    DeregisterRdsDbInstance := fun _ => none
    RegisterRdsDbInstance := fun _ => none
    UpdateRdsDbInstance := fun _ => some sampleThrottled }

/-- The text without its underscores. -/
def withoutUnderscores (l : List Char) : List Char :=
  l.filter (· != '_')

/-- A Connect connection whose describe call gives `output` and `err`. -/
def sampleConnectConn (output : Option DescribeInstanceOutput) (err : Option GoError) :
    ConnectConn :=
  { DescribeInstanceWithContext := fun _ => (output, err) }

/-- EC2 lookups that still find every VPC endpoint and every host asked for. -/
def sampleEC2StillThere : EC2Conn :=
  { FindVPCEndpointByID := fun id => (some { VpcEndpointId := some id }, none)
    FindHostByID := fun id => (some { HostId := some id }, none) }

/-- A resource of the state with the type `type` and the ID `id`. -/
def sampleResource (type id : String) : Option ResourceState :=
  some { type := type, Primary := some { ID := id } }

/-! ## The retry wrapper -/

/-- While the answers are retryable failures the loop of `Retry` goes on: `n` such answers
use up `n` of the ceiling and `n` invocations. -/
theorem Retry_skip_retryable (conn : AutoScalingConn) (params : PutLifecycleHookInput)
    (n : Nat) : ∀ (c k : Nat),
    (∀ i, i < n → failsRetryable (conn.PutLifecycleHook (k + i) params) = true) →
    Retry (n + c) (putLifecycleHookAttempt conn params) k
      = Retry c (putLifecycleHookAttempt conn params) (k + n) := by
  induction n with
  | zero => intro c k _; simp
  | succ n ih =>
    intro c k h
    have h0 : failsRetryable (conn.PutLifecycleHook k params) = true := by
      simpa using h 0 (Nat.succ_pos n)
    have hstep : Retry (n + 1 + c) (putLifecycleHookAttempt conn params) k
        = Retry (n + c) (putLifecycleHookAttempt conn params) (k + 1) := by
      have hc : n + 1 + c = (n + c) + 1 := by omega
      rw [hc, Retry]
      cases hput : conn.PutLifecycleHook k params with
      | none => simp [failsRetryable, hput] at h0
      | some err =>
        have hr : retryablePutFailure err = true := by
          simpa [failsRetryable, hput] using h0
        simp [putLifecycleHookAttempt, hput, hr]
    rw [hstep, ih c (k + 1)]
    · congr 1; omega
    · intro i hi
      have := h (i + 1) (by omega)
      have e : k + (i + 1) = k + 1 + i := by omega
      rwa [e] at this

/-- The loop of `Retry` that meets only retryable failures ends with the timeout error
after as many invocations as the ceiling allows. -/
theorem Retry_all_retryable (conn : AutoScalingConn) (params : PutLifecycleHookInput)
    (ceiling : Nat)
    (h : ∀ i, i < ceiling → failsRetryable (conn.PutLifecycleHook i params) = true) :
    Retry ceiling (putLifecycleHookAttempt conn params) 0 = (ceiling, some GoError.timeout) := by
  have := Retry_skip_retryable conn params ceiling 0 0 (by simpa using h)
  simpa [Retry] using this

/-- The loop of `Retry` that meets `n` retryable failures and then, within the ceiling,
another answer, ends with that answer: `nil` for a success, the error of the closure for
a terminal failure. -/
theorem Retry_settles (conn : AutoScalingConn) (params : PutLifecycleHookInput)
    (ceiling n : Nat) (hc : n < ceiling)
    (h : ∀ i, i < n → failsRetryable (conn.PutLifecycleHook i params) = true)
    (hn : failsRetryable (conn.PutLifecycleHook n params) = false) :
    Retry ceiling (putLifecycleHookAttempt conn params) 0
      = (n + 1, (conn.PutLifecycleHook n params).map
          (GoError.wrapf "Error putting lifecycle hook")) := by
  obtain ⟨c, rfl⟩ : ∃ c, ceiling = n + (c + 1) := ⟨ceiling - n - 1, by omega⟩
  rw [Retry_skip_retryable conn params n (c + 1) 0 (by simpa using h)]
  rw [Retry]
  simp only [Nat.zero_add]
  cases hput : conn.PutLifecycleHook n params with
  | none => simp [putLifecycleHookAttempt, hput]
  | some err =>
    have hr : retryablePutFailure err = false := by
      simpa [failsRetryable, hput] using hn
    simp [putLifecycleHookAttempt, hput, hr]

/-- C1: when the first answer of `PutLifecycleHook` is a failure classified terminal,
`resourceLifecycleHookPutOp` invokes it exactly once, whatever the ceiling, and returns a
non-nil error: there is no retry. -/
theorem putOp_terminal_first_attempt (conn : AutoScalingConn) (ceiling : Nat)
    (params : PutLifecycleHookInput)
    (h : failsTerminal (conn.PutLifecycleHook 0 params) = true) :
    (resourceLifecycleHookPutOp conn ceiling params).1 = 1
      ∧ (resourceLifecycleHookPutOp conn ceiling params).2 ≠ none := by
  cases hput : conn.PutLifecycleHook 0 params with
  | none => simp [failsTerminal, hput] at h
  | some err =>
    have hr : retryablePutFailure err = false := by
      simpa [failsTerminal, hput] using h
    cases ceiling with
    | zero => simp [resourceLifecycleHookPutOp, Retry, TimedOut, hput]
    | succ c =>
      have hs := Retry_settles conn params (c + 1) 0 (Nat.succ_pos c)
        (fun i hi => absurd hi (Nat.not_lt_zero i)) (by simp [failsRetryable, hput, hr])
      simp [resourceLifecycleHookPutOp, hs, hput, TimedOut]

/-- C1, at an input: an access denial on the first attempt, ceiling of five attempts. -/
theorem putOp_terminal_first_attempt_witness :
    failsTerminal ((sampleConn 0 (some sampleDenied)).PutLifecycleHook 0 samplePutParams) = true
      ∧ (resourceLifecycleHookPutOp (sampleConn 0 (some sampleDenied)) 5 samplePutParams).1 = 1
      ∧ (resourceLifecycleHookPutOp (sampleConn 0 (some sampleDenied)) 5 samplePutParams).2
          ≠ none :=
  ⟨by decide,
   putOp_terminal_first_attempt (sampleConn 0 (some sampleDenied)) 5 samplePutParams
     (by decide)⟩

/-- C2: for `n ≥ 1`, when the first `n` answers of `PutLifecycleHook` are retryable
failures and answer `n + 1` comes within the ceiling and is a success or a terminal
failure, `resourceLifecycleHookPutOp` makes exactly `n + 1` invocations, at least two, and
returns nil exactly when answer `n + 1` is the success. -/
theorem putOp_retries_until_settled (conn : AutoScalingConn) (ceiling : Nat)
    (params : PutLifecycleHookInput) (n : Nat) (hn : 1 ≤ n) (hc : n < ceiling)
    (hretry : ∀ i, i < n → failsRetryable (conn.PutLifecycleHook i params) = true)
    (hlast : conn.PutLifecycleHook n params = none
      ∨ failsTerminal (conn.PutLifecycleHook n params) = true) :
    (resourceLifecycleHookPutOp conn ceiling params).1 = n + 1
      ∧ 2 ≤ (resourceLifecycleHookPutOp conn ceiling params).1
      ∧ (conn.PutLifecycleHook n params = none →
          (resourceLifecycleHookPutOp conn ceiling params).2 = none)
      ∧ (failsTerminal (conn.PutLifecycleHook n params) = true →
          (resourceLifecycleHookPutOp conn ceiling params).2 ≠ none) := by
  have hnr : failsRetryable (conn.PutLifecycleHook n params) = false := by
    rcases hlast with h | h
    · simp [failsRetryable, h]
    · cases hput : conn.PutLifecycleHook n params with
      | none => simp [failsRetryable]
      | some err => simpa [failsTerminal, failsRetryable, hput] using h
  have hs := Retry_settles conn params ceiling n hc hretry hnr
  cases hput : conn.PutLifecycleHook n params with
  | none =>
    simp [resourceLifecycleHookPutOp, hs, hput, TimedOut, failsTerminal]
    omega
  | some err =>
    simp [resourceLifecycleHookPutOp, hs, hput, TimedOut]
    omega

/-- C2, at the input of the specification: two retryable failures, then a success, with a
ceiling of five attempts, give success after exactly three invocations. -/
theorem putOp_retries_until_settled_witness :
    resourceLifecycleHookPutOp (sampleConn 2 none) 5 samplePutParams = (3, none) :=
  have h := putOp_retries_until_settled (sampleConn 2 none) 5 samplePutParams 2
    (by decide) (by decide) (by decide) (Or.inl (by decide))
  Prod.ext h.1 (h.2.2.1 (by decide))

/-- C3: when every answer of `PutLifecycleHook` inside the retry loop, up to the ceiling,
is a retryable failure, `resourceLifecycleHookPutOp` makes exactly one invocation more
than the loop could make, and returns nil exactly when that last invocation succeeds. -/
theorem putOp_one_more_after_ceiling (conn : AutoScalingConn) (ceiling : Nat)
    (params : PutLifecycleHookInput)
    (h : ∀ i, i < ceiling → failsRetryable (conn.PutLifecycleHook i params) = true) :
    (resourceLifecycleHookPutOp conn ceiling params).1 = ceiling + 1
      ∧ ((resourceLifecycleHookPutOp conn ceiling params).2 = none
          ↔ conn.PutLifecycleHook ceiling params = none) := by
  have hs := Retry_all_retryable conn params ceiling h
  cases hput : conn.PutLifecycleHook ceiling params <;>
    simp [resourceLifecycleHookPutOp, hs, hput, TimedOut]

/-- C3, at an input: three retryable failures fill a ceiling of three attempts and the
fourth invocation succeeds. -/
theorem putOp_one_more_after_ceiling_witness :
    (∀ i, i < 3 → failsRetryable ((sampleConn 3 none).PutLifecycleHook i samplePutParams) = true)
      ∧ (resourceLifecycleHookPutOp (sampleConn 3 none) 3 samplePutParams).1 = 3 + 1
      ∧ ((resourceLifecycleHookPutOp (sampleConn 3 none) 3 samplePutParams).2 = none
          ↔ (sampleConn 3 none).PutLifecycleHook 3 samplePutParams = none) :=
  ⟨by decide,
   putOp_one_more_after_ceiling (sampleConn 3 none) 3 samplePutParams (by decide)⟩

/-- C4, as stated, fails: with a ceiling of two attempts filled by retryable failures and
a last invocation that fails too, the error returned is not the error of that invocation
but a new error around it. -/
theorem putOp_last_error_not_verbatim :
    (∀ i, i < 2 → failsRetryable
        ((sampleConn 2 (some sampleDenied)).PutLifecycleHook i samplePutParams) = true)
      ∧ (resourceLifecycleHookPutOp (sampleConn 2 (some sampleDenied)) 2 samplePutParams).2
          ≠ (sampleConn 2 (some sampleDenied)).PutLifecycleHook 2 samplePutParams := by
  decide

/-- C4, amended: when the ceiling has elapsed with only retryable failures, the result of
`resourceLifecycleHookPutOp` is nil if the last invocation succeeded, and otherwise the
error of that invocation wrapped once with the context "Error putting autoscaling
lifecycle hook"; it is never the timeout error of the retry loop, and unwrapping it once
gives back exactly the error of the last invocation. -/
theorem putOp_last_outcome_wrapped (conn : AutoScalingConn) (ceiling : Nat)
    (params : PutLifecycleHookInput)
    (h : ∀ i, i < ceiling → failsRetryable (conn.PutLifecycleHook i params) = true) :
    (resourceLifecycleHookPutOp conn ceiling params).2
        = (conn.PutLifecycleHook ceiling params).map
            (GoError.wrapf "Error putting autoscaling lifecycle hook")
      ∧ (resourceLifecycleHookPutOp conn ceiling params).2 ≠ some GoError.timeout
      ∧ (resourceLifecycleHookPutOp conn ceiling params).2.bind GoError.unwrap
          = conn.PutLifecycleHook ceiling params := by
  have hs := Retry_all_retryable conn params ceiling h
  cases hput : conn.PutLifecycleHook ceiling params <;>
    simp [resourceLifecycleHookPutOp, hs, hput, TimedOut, GoError.unwrap]

/-- C4, amended, at an input: two retryable failures fill the ceiling and the last
invocation is denied. -/
theorem putOp_last_outcome_wrapped_witness :
    (∀ i, i < 2 → failsRetryable
        ((sampleConn 2 (some sampleDenied)).PutLifecycleHook i samplePutParams) = true)
      ∧ (resourceLifecycleHookPutOp (sampleConn 2 (some sampleDenied)) 2 samplePutParams).2
          = ((sampleConn 2 (some sampleDenied)).PutLifecycleHook 2 samplePutParams).map
              (GoError.wrapf "Error putting autoscaling lifecycle hook")
      ∧ (resourceLifecycleHookPutOp (sampleConn 2 (some sampleDenied)) 2 samplePutParams).2
          ≠ some GoError.timeout
      ∧ (resourceLifecycleHookPutOp (sampleConn 2 (some sampleDenied)) 2
            samplePutParams).2.bind GoError.unwrap
          = (sampleConn 2 (some sampleDenied)).PutLifecycleHook 2 samplePutParams :=
  ⟨by decide,
   putOp_last_outcome_wrapped (sampleConn 2 (some sampleDenied)) 2 samplePutParams
     (by decide)⟩

/-! ## Lookups -/

/-- The hooks named `name` of a response that starts with a nil entry. -/
theorem matchingHooks_cons_none (name : String) (rest : List (Option LifecycleHook)) :
    matchingHooks name (none :: rest) = matchingHooks name rest := by
  simp [matchingHooks, List.filterMap_cons, Option.filter]

/-- The hooks named `name` of a response that starts with a hook of that name. -/
theorem matchingHooks_cons_match (name : String) (hook : LifecycleHook)
    (rest : List (Option LifecycleHook))
    (h : (StringValue hook.LifecycleHookName == name) = true) :
    matchingHooks name (some hook :: rest) = hook :: matchingHooks name rest := by
  simp only [matchingHooks, List.filterMap_cons, Option.filter, h, if_true]

/-- The hooks named `name` of a response that starts with a hook of another name. -/
theorem matchingHooks_cons_other (name : String) (hook : LifecycleHook)
    (rest : List (Option LifecycleHook))
    (h : (StringValue hook.LifecycleHookName == name) = false) :
    matchingHooks name (some hook :: rest) = matchingHooks name rest := by
  simp only [matchingHooks, List.filterMap_cons, Option.filter, h]
  rfl

/-- The loop of `getLifecycleHook` returns the first hook of the response that has the
name asked for. -/
theorem findLifecycleHook_eq_head (name : String) (hooks : List (Option LifecycleHook)) :
    findLifecycleHook name hooks = (matchingHooks name hooks).head? := by
  induction hooks with
  | nil => rfl
  | cons sp rest ih =>
    cases sp with
    | none => rw [matchingHooks_cons_none, findLifecycleHook, ih]
    | some hook =>
      cases hname : (StringValue hook.LifecycleHookName == name) with
      | true =>
        rw [matchingHooks_cons_match name hook rest hname, findLifecycleHook]
        simp [hname]
      | false =>
        rw [matchingHooks_cons_other name hook rest hname, findLifecycleHook]
        simp [hname, ih]

/-- The loop of `getLifecycleHook` finds nothing exactly when no hook of the response has
the name asked for. -/
theorem findLifecycleHook_eq_none (name : String) (hooks : List (Option LifecycleHook)) :
    findLifecycleHook name hooks = none
      ↔ ∀ hook, some hook ∈ hooks → StringValue hook.LifecycleHookName ≠ name := by
  induction hooks with
  | nil => simp [findLifecycleHook]
  | cons sp rest ih =>
    cases sp with
    | none => simpa [findLifecycleHook] using ih
    | some hook =>
      by_cases hname : StringValue hook.LifecycleHookName = name
      · simp [findLifecycleHook, hname]
      · simp [findLifecycleHook, hname, ih]

/-- C5, as stated, fails: a successful `DescribeClusters` response with two records of
which the first is nil makes `FindClusterByID` return the empty-result error, not the
too-many-results error for two records. -/
theorem FindClusterByID_nil_first_record :
    (sampleRedshiftConn [none, some (sampleCluster "c")] []).DescribeClusters
        { ClusterIdentifier := some "c" }
        = (some { Clusters := [none, some (sampleCluster "c")] }, none)
      ∧ FindClusterByID (sampleRedshiftConn [none, some (sampleCluster "c")] []) "c"
        = (none, some GoError.emptyResult)
      ∧ FindClusterByID (sampleRedshiftConn [none, some (sampleCluster "c")] []) "c"
        ≠ (none, some (GoError.tooManyResults 2)) := by
  decide

/-- C5, amended: for every successful response that holds more than one record,
`FindClusterByID` and `FindScheduledActionByName` return no record, so never the first
one; the error is the too-many-results error with the number of records of the response
when the first record is not nil, and the empty-result error when the first record is
nil. -/
theorem Find_more_than_one_record (conn : RedshiftConn) :
    (∀ id output, conn.DescribeClusters { ClusterIdentifier := some id } = (some output, none) →
        1 < output.Clusters.length →
        (FindClusterByID conn id).1 = none
          ∧ (∀ first, output.Clusters.head? = some (some first) →
              (FindClusterByID conn id).2
                = some (GoError.tooManyResults output.Clusters.length))
          ∧ (output.Clusters.head? = some none →
              (FindClusterByID conn id).2 = some GoError.emptyResult))
      ∧ (∀ name output,
        conn.DescribeScheduledActions { ScheduledActionName := some name } = (some output, none) →
        1 < output.ScheduledActions.length →
        (FindScheduledActionByName conn name).1 = none
          ∧ (∀ first, output.ScheduledActions.head? = some (some first) →
              (FindScheduledActionByName conn name).2
                = some (GoError.tooManyResults output.ScheduledActions.length))
          ∧ (output.ScheduledActions.head? = some none →
              (FindScheduledActionByName conn name).2 = some GoError.emptyResult)) := by
  constructor
  · intro id output hcall hlen
    obtain ⟨records⟩ := output
    cases records with
    | nil => simp at hlen
    | cons first rest =>
      cases first with
      | none => simp [FindClusterByID, hcall]
      | some c =>
        have hlen1 : 1 < rest.length + 1 := by simpa using hlen
        simp [FindClusterByID, hcall, hlen1]
  · intro name output hcall hlen
    obtain ⟨records⟩ := output
    cases records with
    | nil => simp at hlen
    | cons first rest =>
      cases first with
      | none => simp [FindScheduledActionByName, hcall]
      | some c =>
        have hlen1 : 1 < rest.length + 1 := by simpa using hlen
        simp [FindScheduledActionByName, hcall, hlen1]

/-- C5, amended, at the input of the specification: a response with two records yields
the too-many-results error that names 2, for clusters and for scheduled actions. -/
theorem Find_more_than_one_record_witness :
    FindClusterByID (sampleRedshiftConn [some (sampleCluster "c"), some (sampleCluster "c")]
        [some (sampleAction "a"), some (sampleAction "a")]) "c"
        = (none, some (GoError.tooManyResults 2))
      ∧ FindScheduledActionByName
          (sampleRedshiftConn [some (sampleCluster "c"), some (sampleCluster "c")]
            [some (sampleAction "a"), some (sampleAction "a")]) "a"
        = (none, some (GoError.tooManyResults 2)) :=
  have h := Find_more_than_one_record
    (sampleRedshiftConn [some (sampleCluster "c"), some (sampleCluster "c")]
      [some (sampleAction "a"), some (sampleAction "a")])
  have hc := h.1 "c" { Clusters := [some (sampleCluster "c"), some (sampleCluster "c")] }
    rfl (by decide)
  have ha := h.2 "a" { ScheduledActions := [some (sampleAction "a"), some (sampleAction "a")] }
    rfl (by decide)
  ⟨Prod.ext hc.1 (hc.2.1 (sampleCluster "c") rfl), Prod.ext ha.1 (ha.2.1 (sampleAction "a") rfl)⟩

/-- C6, as stated, fails: on a response with two hooks of the requested name
`getLifecycleHook` returns the first of them and no error. -/
theorem getLifecycleHook_two_matches :
    (matchingHooks (sampleHookData false).name
        [some (sampleHook "CONTINUE"), some (sampleHook "ABANDON")]).length = 2
      ∧ getLifecycleHook (sampleHookData false)
          (sampleDescribeConn [some (sampleHook "CONTINUE"), some (sampleHook "ABANDON")])
        = Run.done (some (sampleHook "CONTINUE"), none) := by
  decide

/-- C6, amended: for every successful `DescribeLifecycleHooks` response that holds more
than one hook whose name equals the requested name, `getLifecycleHook` returns no error,
and the hook it returns is the first of these hooks in the order of the response. -/
theorem getLifecycleHook_first_of_many (d : HookData) (conn : AutoScalingConn)
    (resp : DescribeLifecycleHooksOutput)
    (hcall : conn.DescribeLifecycleHooks (describeLifecycleHooksParams d) = (some resp, none))
    (hmany : 1 < (matchingHooks d.name resp.LifecycleHooks).length) :
    ∃ hook others, matchingHooks d.name resp.LifecycleHooks = hook :: others
      ∧ getLifecycleHook d conn = Run.done (some hook, none) := by
  cases hm : matchingHooks d.name resp.LifecycleHooks with
  | nil => simp [hm] at hmany
  | cons hook others =>
    refine ⟨hook, others, rfl, ?_⟩
    simp [getLifecycleHook, hcall, findLifecycleHook_eq_head, hm]

/-- C6, amended, at an input: two hooks of the requested name. -/
theorem getLifecycleHook_first_of_many_witness :
    ∃ hook others,
      matchingHooks (sampleHookData false).name
          [some (sampleHook "CONTINUE"), some (sampleHook "ABANDON")] = hook :: others
      ∧ getLifecycleHook (sampleHookData false)
          (sampleDescribeConn [some (sampleHook "CONTINUE"), some (sampleHook "ABANDON")])
        = Run.done (some hook, none) :=
  getLifecycleHook_first_of_many (sampleHookData false)
    (sampleDescribeConn [some (sampleHook "CONTINUE"), some (sampleHook "ABANDON")])
    { LifecycleHooks := [some (sampleHook "CONTINUE"), some (sampleHook "ABANDON")] }
    rfl (by decide)

/-! ## Absent remote objects on read -/

/-- C7: when `GetLicenseConfiguration` fails, `resourceLicenseConfigurationRead` returns
nil with the ID emptied and every attribute as it was if the error code is
`InvalidParameterValueException`, and otherwise returns a non-nil error and leaves the ID
(and the attributes) as they were. -/
theorem licenseRead_on_failure (d : LicenseData) (client : LicenseManagerClient)
    (output : Option GetLicenseConfigurationOutput) (err : GoError)
    (hcall : client.LicenseManagerConn.GetLicenseConfiguration
      { LicenseConfigurationArn := some d.id } = (output, some err)) :
    (ErrCodeEquals (some err) ErrCodeInvalidParameterValueException = true →
        resourceLicenseConfigurationRead d client = Run.done ({ d with id := "" }, none))
      ∧ (ErrCodeEquals (some err) ErrCodeInvalidParameterValueException = false →
        resourceLicenseConfigurationRead d client = Run.done (d, some
          (GoError.errorf "Error reading License Manager license configuration" err))) := by
  constructor
  · intro hcode
    simp [resourceLicenseConfigurationRead, hcall, hcode]
  · intro hcode
    simp [resourceLicenseConfigurationRead, hcall, hcode]

/-- C7, at an input: the configuration is reported as not found, and the read empties the
ID only. -/
theorem licenseRead_on_failure_witness :
    resourceLicenseConfigurationRead sampleLicenseData
        (sampleLicenseClient none (some sampleInvalidParameter))
      = Run.done ({ sampleLicenseData with id := "" }, none) :=
  (licenseRead_on_failure sampleLicenseData
    (sampleLicenseClient none (some sampleInvalidParameter)) none sampleInvalidParameter
    rfl).1 (by decide)

/-- C8, as stated, fails: for a newly created resource and a successful describe call
that holds no hook, `resourceLifecycleHookRead` does not return: it reads the field
`DefaultResult` of the nil hook. -/
theorem hookRead_new_resource_missing_hook :
    (sampleHookData true).isNewResource = true
      ∧ (sampleDescribeConn []).DescribeLifecycleHooks
          (describeLifecycleHooksParams (sampleHookData true))
        = (some { LifecycleHooks := [] }, none)
      ∧ (resourceLifecycleHookRead (sampleHookData true) (sampleDescribeConn [])).outcome
        = Run.nilDeref := by
  decide

/-- C8, amended: for every resource state that is not newly created, when the describe
call succeeds but holds no hook with the requested name, `resourceLifecycleHookRead`
returns normally with no error, the ID emptied and every attribute as it was, so without
reading any field of a hook. -/
theorem hookRead_missing_hook (d : HookData) (conn : AutoScalingConn)
    (resp : DescribeLifecycleHooksOutput) (hold : d.isNewResource = false)
    (hcall : conn.DescribeLifecycleHooks (describeLifecycleHooksParams d) = (some resp, none))
    (hnone : ∀ hook, some hook ∈ resp.LifecycleHooks →
      StringValue hook.LifecycleHookName ≠ d.name) :
    (resourceLifecycleHookRead d conn).outcome = Run.done ({ d with id := "" }, none) := by
  have hfind := (findLifecycleHook_eq_none d.name resp.LifecycleHooks).2 hnone
  simp [resourceLifecycleHookRead, getLifecycleHook, hcall, hfind, hold]

/-- C8, amended, at an input: an existing resource whose group holds only a hook of
another name. -/
theorem hookRead_missing_hook_witness :
    (resourceLifecycleHookRead (sampleHookData false)
        (sampleDescribeConn [some { LifecycleHookName := some "other" }])).outcome
      = Run.done ({ sampleHookData false with id := "" }, none) :=
  hookRead_missing_hook (sampleHookData false)
    (sampleDescribeConn [some { LifecycleHookName := some "other" }])
    { LifecycleHooks := [some { LifecycleHookName := some "other" }] } rfl rfl
    (by
      intro hook hmem
      have hhook : hook = { LifecycleHookName := some "other" } := by simpa using hmem
      subst hhook
      decide)

/-- The loop of `resourceRDSDBInstanceRead` over instances that all have an ARN and a
stack ID, none with the text the resource data asks for, changes nothing. -/
theorem readRdsDbInstances_no_match (instances : List (Option RdsDbInstance)) (found : Bool)
    (d : RDSData)
    (h : ∀ entry, entry ∈ instances →
      ∃ key, instanceKey entry = some key ∧ key ≠ d.rds_db_instance_arn ++ d.stack_id) :
    readRdsDbInstances instances (found, d) = Run.done (found, d) := by
  induction instances with
  | nil => rfl
  | cons entry rest ih =>
    obtain ⟨key, hkey, hne⟩ := h entry (List.mem_cons_self entry rest)
    have hrest := ih (fun e he => h e (List.mem_cons_of_mem entry he))
    cases entry with
    | none => simp [instanceKey] at hkey
    | some inst =>
      cases harn : inst.RdsDbInstanceArn with
      | none => simp [instanceKey, harn] at hkey
      | some arn =>
        cases hstack : inst.StackId with
        | none => simp [instanceKey, harn, hstack] at hkey
        | some stack =>
          have hk : arn ++ stack = key := by simpa [instanceKey, harn, hstack] using hkey
          have hneq : ¬ (d.rds_db_instance_arn ++ d.stack_id = arn ++ stack) := by
            rw [hk]; exact fun e => hne e.symm
          rw [readRdsDbInstances]
          simp [harn, hstack, hneq, hrest]

/-- C9, as stated, fails: on a successful describe response whose only instance has no
ARN, so that no returned instance has the text of the resource data,
`resourceRDSDBInstanceRead` does not return nil: it dereferences the nil field. -/
theorem rdsRead_nil_arn :
    instanceKey (some { RdsDbInstanceArn := none, StackId := some "stack-1" }) = none
      ∧ resourceRDSDBInstanceRead sampleRDSData
          (sampleOpsWorksConn
            (some { RdsDbInstances := [some { RdsDbInstanceArn := none, StackId := some "stack-1" }] })
            none)
        = Run.nilDeref := by
  decide

/-- C9, amended: `resourceRDSDBInstanceRead` returns nil with the ID emptied and the
attributes as they were both when `DescribeRdsDbInstances` fails with
`ResourceNotFoundException` and when it succeeds with instances that are not nil, have an
ARN and a stack ID that are not nil, and of which none has ARN ++ StackId equal to the
`rds_db_instance_arn ++ stack_id` of the state; any other describe error is returned,
wrapped, with the ID (and the attributes) as they were. -/
theorem rdsRead_absent_or_error (d : RDSData) (client : OpsWorksConn) :
    (∀ output err, client.DescribeRdsDbInstances { StackId := some d.stack_id }
          = (output, some err) →
        ErrCodeEquals (some err) ErrCodeResourceNotFoundException = true →
        resourceRDSDBInstanceRead d client = Run.done ({ d with id := "" }, none))
      ∧ (∀ resp, client.DescribeRdsDbInstances { StackId := some d.stack_id }
          = (some resp, none) →
        (∀ entry, entry ∈ resp.RdsDbInstances →
          ∃ key, instanceKey entry = some key ∧ key ≠ d.rds_db_instance_arn ++ d.stack_id) →
        resourceRDSDBInstanceRead d client = Run.done ({ d with id := "" }, none))
      ∧ (∀ output err, client.DescribeRdsDbInstances { StackId := some d.stack_id }
          = (output, some err) →
        ErrCodeEquals (some err) ErrCodeResourceNotFoundException = false →
        resourceRDSDBInstanceRead d client = Run.done (d, some (GoError.wrapf
          ("while describing OpsWorks RDS DB Instance (" ++ d.stack_id ++ ")") err))) := by
  refine ⟨?_, ?_, ?_⟩
  · intro output err hcall hcode
    simp [resourceRDSDBInstanceRead, hcall, hcode]
  · intro resp hcall hnone
    have hloop := readRdsDbInstances_no_match resp.RdsDbInstances false d hnone
    simp [resourceRDSDBInstanceRead, hcall, hloop]
  · intro output err hcall hcode
    simp [resourceRDSDBInstanceRead, hcall, hcode]

/-- C9, amended, at inputs: the stack is reported as not found; the stack holds only
another instance; the service is throttling. -/
theorem rdsRead_absent_or_error_witness :
    resourceRDSDBInstanceRead sampleRDSData (sampleOpsWorksConn none (some sampleResourceNotFound))
        = Run.done ({ sampleRDSData with id := "" }, none)
      ∧ resourceRDSDBInstanceRead sampleRDSData
          (sampleOpsWorksConn
            (some { RdsDbInstances :=
              [some { RdsDbInstanceArn := some "arn:db-2", StackId := some "stack-1" }] })
            none)
        = Run.done ({ sampleRDSData with id := "" }, none)
      ∧ resourceRDSDBInstanceRead sampleRDSData (sampleOpsWorksConn none (some sampleThrottled))
        = Run.done (sampleRDSData, some (GoError.wrapf
            ("while describing OpsWorks RDS DB Instance (" ++ sampleRDSData.stack_id ++ ")")
            sampleThrottled)) :=
  ⟨(rdsRead_absent_or_error sampleRDSData
      (sampleOpsWorksConn none (some sampleResourceNotFound))).1
      none sampleResourceNotFound rfl (by decide),
   (rdsRead_absent_or_error sampleRDSData
      (sampleOpsWorksConn
        (some { RdsDbInstances :=
          [some { RdsDbInstanceArn := some "arn:db-2", StackId := some "stack-1" }] })
        none)).2.1
      { RdsDbInstances :=
          [some { RdsDbInstanceArn := some "arn:db-2", StackId := some "stack-1" }] }
      rfl
      (by
        intro entry hmem
        have hentry : entry
            = some { RdsDbInstanceArn := some "arn:db-2", StackId := some "stack-1" } := by
          simpa using hmem
        subst hentry
        exact ⟨"arn:db-2stack-1", by decide, by decide⟩),
   (rdsRead_absent_or_error sampleRDSData
      (sampleOpsWorksConn none (some sampleThrottled))).2.2
      none sampleThrottled rfl (by decide)⟩

/-! ## Absent remote objects on delete -/

/-- C10: each delete callback returns nil when the remote object is already absent:
`resourceLicenseConfigurationDelete` when `DeleteLicenseConfiguration` fails with
`InvalidParameterValueException`, `resourceRDSDBInstanceDeregister` when
`DeregisterRdsDbInstance` fails with `ResourceNotFoundException`, and
`resourceLifecycleHookDelete` when the lookup finds no hook, in which case the only remote
call made is the describe call and `DeleteLifecycleHook` is not invoked. Every other
remote error (of the delete calls and of the describe call) makes the callback return a
non-nil error. -/
theorem delete_absent_returns_nil :
    (∀ (d : LicenseData) (client : LicenseManagerClient) (err : GoError),
        client.LicenseManagerConn.DeleteLicenseConfiguration
          { LicenseConfigurationArn := some d.id } = some err →
        (ErrCodeEquals (some err) ErrCodeInvalidParameterValueException = true →
            resourceLicenseConfigurationDelete d client = none)
          ∧ (ErrCodeEquals (some err) ErrCodeInvalidParameterValueException = false →
            resourceLicenseConfigurationDelete d client ≠ none))
      ∧ (∀ (d : RDSData) (client : OpsWorksConn) (err : GoError),
        client.DeregisterRdsDbInstance { RdsDbInstanceArn := some d.rds_db_instance_arn }
          = some err →
        (ErrCodeEquals (some err) ErrCodeResourceNotFoundException = true →
            resourceRDSDBInstanceDeregister d client = none)
          ∧ (ErrCodeEquals (some err) ErrCodeResourceNotFoundException = false →
            resourceRDSDBInstanceDeregister d client ≠ none))
      ∧ (∀ (d : HookData) (conn : AutoScalingConn) (resp : DescribeLifecycleHooksOutput),
        conn.DescribeLifecycleHooks (describeLifecycleHooksParams d) = (some resp, none) →
        (∀ hook, some hook ∈ resp.LifecycleHooks →
          StringValue hook.LifecycleHookName ≠ d.name) →
        resourceLifecycleHookDelete d conn
            = { calls := [HookCall.describe (describeLifecycleHooksParams d)]
                outcome := Run.done (d, none) }
          ∧ ∀ input, HookCall.delete input ∉ (resourceLifecycleHookDelete d conn).calls)
      ∧ (∀ (d : HookData) (conn : AutoScalingConn)
          (output : Option DescribeLifecycleHooksOutput) (err : GoError),
        conn.DescribeLifecycleHooks (describeLifecycleHooksParams d) = (output, some err) →
        (resourceLifecycleHookDelete d conn).outcome
          = Run.done (d, some (GoError.wrapf "Error retrieving lifecycle hooks" err)))
      ∧ (∀ (d : HookData) (conn : AutoScalingConn) (resp : DescribeLifecycleHooksOutput)
          (hook : LifecycleHook) (err : GoError),
        conn.DescribeLifecycleHooks (describeLifecycleHooksParams d) = (some resp, none) →
        findLifecycleHook d.name resp.LifecycleHooks = some hook →
        conn.DeleteLifecycleHook
          { AutoScalingGroupName := some d.autoscaling_group_name
            LifecycleHookName := some d.name } = some err →
        (resourceLifecycleHookDelete d conn).outcome
          = Run.done (d, some (GoError.wrapf "Autoscaling Lifecycle Hook" err))) := by
  refine ⟨?_, ?_, ?_, ?_, ?_⟩
  · intro d client err hcall
    constructor <;> intro hcode <;>
      simp [resourceLicenseConfigurationDelete, hcall, hcode]
  · intro d client err hcall
    constructor <;> intro hcode <;>
      simp [resourceRDSDBInstanceDeregister, hcall, hcode]
  · intro d conn resp hcall hnone
    have hfind := (findLifecycleHook_eq_none d.name resp.LifecycleHooks).2 hnone
    have hres : resourceLifecycleHookDelete d conn
        = { calls := [HookCall.describe (describeLifecycleHooksParams d)]
            outcome := Run.done (d, none) } := by
      simp [resourceLifecycleHookDelete, getLifecycleHook, hcall, hfind]
    refine ⟨hres, ?_⟩
    intro input hmem
    rw [hres] at hmem
    simp at hmem
  · intro d conn output err hcall
    simp [resourceLifecycleHookDelete, getLifecycleHook, hcall]
  · intro d conn resp hook err hcall hfind hdel
    simp [resourceLifecycleHookDelete, getLifecycleHook, hcall, hfind, hdel]

/-- C10, at inputs: a license configuration and an RDS instance that the service reports
as not found, and a lifecycle hook that the describe call does not list. -/
theorem delete_absent_returns_nil_witness :
    resourceLicenseConfigurationDelete sampleLicenseData
        (sampleLicenseClient none (some sampleInvalidParameter)) = none
      ∧ resourceRDSDBInstanceDeregister sampleRDSData
          (sampleOpsWorksConn none (some sampleResourceNotFound)) = none
      ∧ resourceLifecycleHookDelete (sampleHookData false) (sampleDescribeConn [])
        = { calls := [HookCall.describe (describeLifecycleHooksParams (sampleHookData false))]
            outcome := Run.done (sampleHookData false, none) } :=
  ⟨(delete_absent_returns_nil.1 sampleLicenseData
      (sampleLicenseClient none (some sampleInvalidParameter)) sampleInvalidParameter rfl).1
      (by decide),
   (delete_absent_returns_nil.2.1 sampleRDSData
      (sampleOpsWorksConn none (some sampleResourceNotFound)) sampleResourceNotFound rfl).1
      (by decide),
   (delete_absent_returns_nil.2.2.1 (sampleHookData false) (sampleDescribeConn [])
      { LifecycleHooks := [] } rfl (by intro hook hmem; simp at hmem)).1⟩

/-! ## Import of lifecycle hooks -/

/-- A cut at the first separator gives back the text around that separator, and the text
before it is free of the separator. -/
theorem cutAtFirst_eq_some (sep : Char) (l before after : List Char) :
    cutAtFirst sep l = some (before, after)
      ↔ l = before ++ sep :: after ∧ sep ∉ before := by
  induction l generalizing before with
  | nil => simp [cutAtFirst]
  | cons c cs ih =>
    by_cases hc : c = sep
    · rw [cutAtFirst, if_pos hc]
      constructor
      · intro h
        simp only [Option.some.injEq, Prod.mk.injEq] at h
        obtain ⟨hb, ha⟩ := h
        subst hb ha hc
        simp
      · rintro ⟨heq, hnot⟩
        cases before with
        | nil =>
          simp only [List.nil_append, List.cons.injEq] at heq
          rw [heq.2]
        | cons b bs =>
          simp only [List.cons_append, List.cons.injEq] at heq
          exact absurd (List.mem_cons.2 (Or.inl (hc.symm.trans heq.1))) hnot
    · rw [cutAtFirst, if_neg hc]
      cases hcut : cutAtFirst sep cs with
      | none =>
        constructor
        · intro h; exact Option.noConfusion h
        · rintro ⟨heq, hnot⟩
          cases before with
          | nil =>
            simp only [List.nil_append, List.cons.injEq] at heq
            exact absurd heq.1 hc
          | cons b bs =>
            simp only [List.cons_append, List.cons.injEq] at heq
            have h2 := (ih bs).2 ⟨heq.2, fun hm => hnot (List.mem_cons_of_mem b hm)⟩
            rw [hcut] at h2
            exact Option.noConfusion h2
      | some p =>
        obtain ⟨b1, a1⟩ := p
        constructor
        · intro h
          simp only [Option.some.injEq, Prod.mk.injEq] at h
          obtain ⟨hb, ha⟩ := h
          subst hb ha
          have h2 := (ih b1).1 hcut
          refine ⟨by rw [List.cons_append, ← h2.1], ?_⟩
          intro hm
          rcases List.mem_cons.1 hm with h3 | h3
          · exact hc h3.symm
          · exact h2.2 h3
        · rintro ⟨heq, hnot⟩
          cases before with
          | nil =>
            simp only [List.nil_append, List.cons.injEq] at heq
            exact absurd heq.1 hc
          | cons b bs =>
            simp only [List.cons_append, List.cons.injEq] at heq
            have h2 := (ih bs).2 ⟨heq.2, fun hm => hnot (List.mem_cons_of_mem b hm)⟩
            rw [hcut] at h2
            simp only [Option.some.injEq, Prod.mk.injEq] at h2
            rw [heq.1, h2.1, h2.2]

/-- A text has no cut exactly when the separator does not occur in it. -/
theorem cutAtFirst_eq_none (sep : Char) (l : List Char) :
    cutAtFirst sep l = none ↔ sep ∉ l := by
  induction l with
  | nil => simp [cutAtFirst]
  | cons c cs ih =>
    by_cases hc : c = sep
    · simp [cutAtFirst, hc]
    · cases hcut : cutAtFirst sep cs with
      | none =>
        have := ih.1 hcut
        simp [cutAtFirst, hc, hcut, this, Ne.symm hc]
      | some p =>
        have hmem : ¬ sep ∉ cs := fun h => by rw [ih.2 h] at hcut; exact Option.noConfusion hcut
        simp only [not_not] at hmem
        simp [cutAtFirst, hc, hcut, hmem]

/-- A text made of characters is the empty text exactly when it has no character. -/
theorem String_mk_eq_empty (a : List Char) : String.mk a = "" ↔ a = [] := by
  constructor
  · intro h; exact congrArg String.data h
  · intro h; subst h; rfl

/-- The import of an ID without `/`, or with nothing before or after its first `/`, fails
and changes nothing. -/
theorem import_fails (d : HookData)
    (h : ∀ before after, cutAtFirst '/' d.id.data = some (before, after) →
      before = [] ∨ after = []) :
    resourceLifecycleHookImport d = (d, none, some (importFormatError d.id)) := by
  cases hcut : cutAtFirst '/' d.id.data with
  | none => simp [resourceLifecycleHookImport, stringsSplitN2, hcut, importFormatError]
  | some p =>
    obtain ⟨before, after⟩ := p
    rcases h before after hcut with hb | ha
    · subst hb
      simp [resourceLifecycleHookImport, stringsSplitN2, hcut, importFormatError,
        String_mk_eq_empty]
    · subst ha
      simp [resourceLifecycleHookImport, stringsSplitN2, hcut, importFormatError,
        String_mk_eq_empty]

/-- The import of an ID with texts before and after its first `/` succeeds: the texts
become the group name and the hook name, and the hook name becomes the ID. -/
theorem import_succeeds (d : HookData) (before after : List Char)
    (hcut : cutAtFirst '/' d.id.data = some (before, after))
    (hb : before ≠ []) (ha : after ≠ []) :
    resourceLifecycleHookImport d
      = ({ d with name := String.mk after, autoscaling_group_name := String.mk before,
                  id := String.mk after },
         some [{ d with name := String.mk after, autoscaling_group_name := String.mk before,
                        id := String.mk after }], none) := by
  simp [resourceLifecycleHookImport, stringsSplitN2, hcut, String_mk_eq_empty, hb, ha]

/-- The cut of `g ++ "/" ++ h` at its first `/`, for `g` without `/`. -/
theorem cutAtFirst_join (g h : String) (hg : '/' ∉ g.data) :
    cutAtFirst '/' (g ++ "/" ++ h).data = some (g.data, h.data) := by
  rw [cutAtFirst_eq_some]
  exact ⟨by simp [String.data_append], hg⟩

/-- C11: `resourceLifecycleHookImport` returns no error if and only if the import ID
contains a `/` and the texts before and after its first `/` are both non-empty; in every
other case it returns the error with the ID and the expected format
`<asg-name>/<lifecycle-hook-name>`, returns no resource data, and leaves the ID and all
attributes as they were. -/
theorem import_succeeds_iff_well_formed (d : HookData) :
    ((resourceLifecycleHookImport d).2.2 = none ↔ wellFormedImportID d.id)
      ∧ (¬ wellFormedImportID d.id →
          resourceLifecycleHookImport d = (d, none, some (importFormatError d.id))) := by
  have key : ¬ wellFormedImportID d.id →
      resourceLifecycleHookImport d = (d, none, some (importFormatError d.id)) := by
    intro hnot
    apply import_fails
    intro before after hcut
    by_contra hne
    simp only [not_or] at hne
    apply hnot
    have hsplit := (cutAtFirst_eq_some '/' d.id.data before after).1 hcut
    refine ⟨String.mk before, String.mk after, ?_, hsplit.2, ?_, ?_⟩
    · apply String.ext
      simp [String.data_append, hsplit.1]
    · exact fun e => hne.1 ((String_mk_eq_empty before).1 e)
    · exact fun e => hne.2 ((String_mk_eq_empty after).1 e)
  refine ⟨⟨?_, ?_⟩, key⟩
  · intro hok
    by_contra hnot
    rw [key hnot] at hok
    exact Option.noConfusion hok
  · rintro ⟨g, h, hid, hg, hgne, hhne⟩
    have hcut : cutAtFirst '/' d.id.data = some (g.data, h.data) := by
      rw [hid]; exact cutAtFirst_join g h hg
    rw [import_succeeds d g.data h.data hcut
      (fun e => hgne (String.ext e)) (fun e => hhne (String.ext e))]

/-- C11, at inputs: the ID `asg/hook` is imported, the ID `asg` (no `/`) and the ID
`/hook` (nothing before the `/`) are refused and the state stays as it was. -/
theorem import_succeeds_iff_well_formed_witness :
    (resourceLifecycleHookImport { sampleHookData false with id := "asg/hook" }).2.2 = none
      ∧ resourceLifecycleHookImport { sampleHookData false with id := "asg" }
        = ({ sampleHookData false with id := "asg" }, none, some (importFormatError "asg"))
      ∧ resourceLifecycleHookImport { sampleHookData false with id := "/hook" }
        = ({ sampleHookData false with id := "/hook" }, none,
            some (importFormatError "/hook")) :=
  ⟨(import_succeeds_iff_well_formed { sampleHookData false with id := "asg/hook" }).1.2
      ⟨"asg", "hook", by decide, by decide, by decide, by decide⟩,
   (import_succeeds_iff_well_formed { sampleHookData false with id := "asg" }).2
      (fun hwf =>
        absurd ((import_succeeds_iff_well_formed
          { sampleHookData false with id := "asg" }).1.2 hwf) (by decide)),
   (import_succeeds_iff_well_formed { sampleHookData false with id := "/hook" }).2
      (fun hwf =>
        absurd ((import_succeeds_iff_well_formed
          { sampleHookData false with id := "/hook" }).1.2 hwf) (by decide))⟩

/-- C12: for every non-empty group name `g` without `/` and every non-empty hook name `h`,
which may contain `/`, the import of the ID `g ++ "/" ++ h` succeeds, sets
`autoscaling_group_name` to `g`, `name` to `h` and the ID to `h`, and returns exactly one
resource, the resource data itself. -/
theorem import_round_trip (d : HookData) (g h : String) (hg : g ≠ "") (hslash : '/' ∉ g.data)
    (hh : h ≠ "") (hid : d.id = g ++ "/" ++ h) :
    resourceLifecycleHookImport d
      = ({ d with name := h, autoscaling_group_name := g, id := h },
         some [{ d with name := h, autoscaling_group_name := g, id := h }], none) := by
  have hcut : cutAtFirst '/' d.id.data = some (g.data, h.data) := by
    rw [hid]; exact cutAtFirst_join g h hslash
  exact import_succeeds d g.data h.data hcut
    (fun e => hg (String.ext e)) (fun e => hh (String.ext e))

/-- C12, at an input: the group `asg` and the hook name `hooks/launch`, which has a `/` of
its own. -/
theorem import_round_trip_witness :
    resourceLifecycleHookImport { sampleHookData false with id := "asg/hooks/launch" }
      = ({ sampleHookData false with
            name := "hooks/launch", autoscaling_group_name := "asg", id := "hooks/launch" },
         some [{ sampleHookData false with
            name := "hooks/launch", autoscaling_group_name := "asg", id := "hooks/launch" }],
         none) :=
  import_round_trip { sampleHookData false with id := "asg/hooks/launch" } "asg"
    "hooks/launch" (by decide) (by decide) (by decide) (by decide)

/-! ## The ID of a lifecycle hook is its name -/

/-- The hook that the loop of `getLifecycleHook` returns has the name asked for. -/
theorem findLifecycleHook_some_name (name : String) (hooks : List (Option LifecycleHook))
    (hook : LifecycleHook) (h : findLifecycleHook name hooks = some hook) :
    StringValue hook.LifecycleHookName = name := by
  induction hooks with
  | nil => simp [findLifecycleHook] at h
  | cons sp rest ih =>
    cases sp with
    | none => exact ih (by simpa [findLifecycleHook] using h)
    | some first =>
      by_cases hname : StringValue first.LifecycleHookName = name
      · have : first = hook := by simpa [findLifecycleHook, hname] using h
        rw [← this]; exact hname
      · exact ih (by simpa [findLifecycleHook, hname] using h)

/-- A read that finds the hook returns no error, keeps the ID and the name, and takes the
other attributes from the hook found. -/
theorem hookRead_found (d : HookData) (conn : AutoScalingConn) (h : readFindsHook d conn) :
    ∃ d1, (resourceLifecycleHookRead d conn).outcome = Run.done (d1, none)
      ∧ d1.id = d.id ∧ d1.name = d.name := by
  obtain ⟨resp, hook, hcall, hmem, hname⟩ := h
  cases hfind : findLifecycleHook d.name resp.LifecycleHooks with
  | none =>
    exact absurd hname ((findLifecycleHook_eq_none d.name resp.LifecycleHooks).1 hfind hook hmem)
  | some found =>
    have hfound := findLifecycleHook_some_name d.name resp.LifecycleHooks found hfind
    refine ⟨{ d with
        default_result := StringValue found.DefaultResult
        heartbeat_timeout := found.HeartbeatTimeout.getD 0
        lifecycle_transition := StringValue found.LifecycleTransition
        notification_metadata := StringValue found.NotificationMetadata
        notification_target_arn := StringValue found.NotificationTargetARN
        name := StringValue found.LifecycleHookName
        role_arn := StringValue found.RoleARN }, ?_, rfl, hfound⟩
    simp [resourceLifecycleHookRead, getLifecycleHook, hcall, hfind]

/-- When the loop of `getLifecycleHook` finds nothing, no hook of the response has the
name asked for, so that no read finds the hook. -/
theorem not_readFindsHook (d : HookData) (conn : AutoScalingConn)
    (resp : DescribeLifecycleHooksOutput)
    (hcall : conn.DescribeLifecycleHooks (describeLifecycleHooksParams d) = (some resp, none))
    (hfind : findLifecycleHook d.name resp.LifecycleHooks = none) :
    ¬ readFindsHook d conn := by
  rintro ⟨resp2, hook, hcall2, hmem, hname⟩
  rw [hcall] at hcall2
  have hresp : resp = resp2 := by simpa using hcall2
  subst hresp
  exact (findLifecycleHook_eq_none d.name resp.LifecycleHooks).1 hfind hook hmem hname

/-- A read that returns leaves the ID as it was, unless it found no hook and emptied the
ID. -/
theorem hookRead_returns (d : HookData) (conn : AutoScalingConn) (d1 : HookData)
    (err : Option GoError)
    (hout : (resourceLifecycleHookRead d conn).outcome = Run.done (d1, err)) :
    d1.id = d.id ∨ (d1.id = "" ∧ ¬ readFindsHook d conn) := by
  cases hcall : conn.DescribeLifecycleHooks (describeLifecycleHooksParams d) with
  | mk output derr =>
    cases derr with
    | some e2 =>
      simp [resourceLifecycleHookRead, getLifecycleHook, hcall] at hout
      left; rw [← hout.1]
    | none =>
      cases output with
      | none => simp [resourceLifecycleHookRead, getLifecycleHook, hcall] at hout
      | some resp =>
        cases hfind : findLifecycleHook d.name resp.LifecycleHooks with
        | some hook =>
          simp [resourceLifecycleHookRead, getLifecycleHook, hcall, hfind] at hout
          left; rw [← hout.1]
        | none =>
          cases hnew : d.isNewResource with
          | true =>
            simp [resourceLifecycleHookRead, getLifecycleHook, hcall, hfind, hnew] at hout
          | false =>
            simp [resourceLifecycleHookRead, getLifecycleHook, hcall, hfind, hnew] at hout
            right
            exact ⟨by rw [← hout.1], not_readFindsHook d conn resp hcall hfind⟩

/-- C15, as stated, fails in its last part: the put of the hook `hook`, used as an update
on a state whose ID is its name, puts the hook, finds no hook in its refresh, and returns
no error with the ID emptied. -/
theorem hookPut_update_empties_id :
    (sampleHookData false).id = (sampleHookData false).name
      ∧ (resourceLifecycleHookPutOp (sampleDescribeConn []) 3
          (getPutLifecycleHookInput (sampleHookData false))).2 = none
      ∧ (resourceLifecycleHookPut (sampleHookData false) (sampleDescribeConn []) 3).2.outcome
        = Run.done ({ sampleHookData false with id := "" }, none)
      ∧ (sampleHookData false).id ≠ "" := by
  decide

/-- C15, amended: for the lifecycle hook resource "the ID equals the `name` attribute" holds
after every successful `resourceLifecycleHookImport`, holds after every successful
`resourceLifecycleHookPut` whose refresh finds the hook, and is kept by every
`resourceLifecycleHookRead` that finds the hook; and `resourceLifecycleHookPut` on a state
with this property leaves the ID as it was, both when it succeeds with a refresh that finds
the hook and when its `PutLifecycleHook` fails; in every run of it that returns, the ID is
as it was, unless the refresh found no hook and emptied the ID. -/
theorem hook_id_is_name :
    (∀ d : HookData, (resourceLifecycleHookImport d).2.2 = none →
        (resourceLifecycleHookImport d).1.id = (resourceLifecycleHookImport d).1.name)
      ∧ (∀ (d : HookData) (conn : AutoScalingConn) (ceiling : Nat),
        (resourceLifecycleHookPutOp conn ceiling (getPutLifecycleHookInput d)).2 = none →
        readFindsHook { d with id := d.name } conn →
        ∃ d1, (resourceLifecycleHookPut d conn ceiling).2.outcome = Run.done (d1, none)
          ∧ d1.id = d1.name)
      ∧ (∀ (d : HookData) (conn : AutoScalingConn), d.id = d.name → readFindsHook d conn →
        ∃ d1, (resourceLifecycleHookRead d conn).outcome = Run.done (d1, none)
          ∧ d1.id = d1.name ∧ d1.id = d.id)
      ∧ (∀ (d : HookData) (conn : AutoScalingConn) (ceiling : Nat), d.id = d.name →
        ((resourceLifecycleHookPutOp conn ceiling (getPutLifecycleHookInput d)).2 = none →
          readFindsHook { d with id := d.name } conn →
          ∃ d1, (resourceLifecycleHookPut d conn ceiling).2.outcome = Run.done (d1, none)
            ∧ d1.id = d.id)
        ∧ (∀ err, (resourceLifecycleHookPutOp conn ceiling (getPutLifecycleHookInput d)).2
            = some err →
          (resourceLifecycleHookPut d conn ceiling).2.outcome = Run.done (d, some err))
        ∧ (∀ d1 err, (resourceLifecycleHookPut d conn ceiling).2.outcome = Run.done (d1, err) →
          d1.id = d.id ∨ (d1.id = "" ∧ ¬ readFindsHook { d with id := d.name } conn))) := by
  have hput : ∀ (d : HookData) (conn : AutoScalingConn) (ceiling : Nat),
      (resourceLifecycleHookPutOp conn ceiling (getPutLifecycleHookInput d)).2 = none →
      readFindsHook { d with id := d.name } conn →
      ∃ d1, (resourceLifecycleHookPut d conn ceiling).2.outcome = Run.done (d1, none)
        ∧ d1.id = d.name ∧ d1.name = d.name := by
    intro d conn ceiling hop hfinds
    obtain ⟨d1, hout, hid, hname⟩ := hookRead_found { d with id := d.name } conn hfinds
    refine ⟨d1, ?_, hid, hname⟩
    cases hres : resourceLifecycleHookPutOp conn ceiling (getPutLifecycleHookInput d) with
    | mk puts err =>
      rw [hres] at hop
      simp only at hop
      subst hop
      simp [resourceLifecycleHookPut, hres, hout]
  refine ⟨?_, ?_, ?_, ?_⟩
  · intro d hok
    by_cases hwf : ∀ before after, cutAtFirst '/' d.id.data = some (before, after) →
        before = [] ∨ after = []
    · rw [import_fails d hwf] at hok
      exact Option.noConfusion hok
    · simp only [not_forall, not_or] at hwf
      obtain ⟨before, after, hcut, hb, ha⟩ := hwf
      rw [import_succeeds d before after hcut hb ha]
  · intro d conn ceiling hop hfinds
    obtain ⟨d1, hout, hid, hname⟩ := hput d conn ceiling hop hfinds
    exact ⟨d1, hout, hid.trans hname.symm⟩
  · intro d conn hinv hfinds
    obtain ⟨d1, hout, hid, hname⟩ := hookRead_found d conn hfinds
    exact ⟨d1, hout, by rw [hid, hname, hinv], hid⟩
  · intro d conn ceiling hinv
    refine ⟨?_, ?_, ?_⟩
    · intro hop hfinds
      obtain ⟨d1, hout, hid, _⟩ := hput d conn ceiling hop hfinds
      exact ⟨d1, hout, hid.trans hinv.symm⟩
    · intro err hop
      cases hres : resourceLifecycleHookPutOp conn ceiling (getPutLifecycleHookInput d) with
      | mk puts e =>
        rw [hres] at hop
        simp only at hop
        subst hop
        simp [resourceLifecycleHookPut, hres]
    · intro d1 err hout
      cases hres : resourceLifecycleHookPutOp conn ceiling (getPutLifecycleHookInput d) with
      | mk puts e =>
        cases e with
        | some e1 =>
          have h2 : d = d1 ∧ some e1 = err := by
            simpa [resourceLifecycleHookPut, hres] using hout
          left; rw [← h2.1]
        | none =>
          have hread : (resourceLifecycleHookRead { d with id := d.name } conn).outcome
              = Run.done (d1, err) := by
            simpa [resourceLifecycleHookPut, hres] using hout
          rcases hookRead_returns { d with id := d.name } conn d1 err hread with h3 | h3
          · left; rw [h3, hinv]
          · right; exact h3

/-- C15, at an input: the put of the hook `hook`, used as an update on a state whose ID is
its name, with a refresh that finds the hook, leaves the ID as it was. -/
theorem hook_id_is_name_witness :
    ∃ d1, (resourceLifecycleHookPut (sampleHookData false)
          (sampleDescribeConn [some (sampleHook "CONTINUE")]) 3).2.outcome = Run.done (d1, none)
      ∧ d1.id = (sampleHookData false).id :=
  (hook_id_is_name.2.2.2 (sampleHookData false)
      (sampleDescribeConn [some (sampleHook "CONTINUE")]) 3 rfl).1
    (by decide)
    ⟨{ LifecycleHooks := [some (sampleHook "CONTINUE")] }, sampleHook "CONTINUE", rfl,
      List.mem_singleton.2 rfl, by decide⟩

/-! ## License configurations: errors and identity -/

/-- An error made with `%s` is not the error it shows. -/
theorem errorf_ne_shown (context : String) (err : GoError) :
    GoError.errorf context err ≠ err := by
  intro h
  have := congrArg sizeOf h
  simp at this

/-- An error made with `%s` does not wrap the error it shows: `Unwrap` gives nothing, no
`awserr.Error` is found in it, and the error shown is not reachable from it. -/
theorem errorf_hides_shown (context : String) (err : GoError) :
    (GoError.errorf context err).unwrap = none
      ∧ (GoError.errorf context err).asAWS = none
      ∧ unwrapsTo err (GoError.errorf context err) = false := by
  refine ⟨rfl, rfl, ?_⟩
  simp [unwrapsTo, errorf_ne_shown]

/-- A read of a license configuration that returns leaves the ID as it was, unless the
answer had the not-found code: then the ID is emptied and no error is returned. -/
theorem licenseRead_returns (d : LicenseData) (client : LicenseManagerClient)
    (d1 : LicenseData) (err : Option GoError)
    (hout : resourceLicenseConfigurationRead d client = Run.done (d1, err)) :
    d1.id = d.id ∨ (d1.id = "" ∧ err = none ∧ readMissesLicense d client) := by
  cases hcall : client.LicenseManagerConn.GetLicenseConfiguration
      { LicenseConfigurationArn := some d.id } with
  | mk output gerr =>
    cases gerr with
    | some e =>
      cases hcode : ErrCodeEquals (some e) ErrCodeInvalidParameterValueException with
      | true =>
        simp [resourceLicenseConfigurationRead, hcall, hcode] at hout
        right
        exact ⟨by rw [← hout.1], hout.2.symm, output, e, hcall, hcode⟩
      | false =>
        simp [resourceLicenseConfigurationRead, hcall, hcode] at hout
        left; rw [← hout.1]
    | none =>
      cases output with
      | none => simp [resourceLicenseConfigurationRead, hcall] at hout
      | some resp =>
        simp [resourceLicenseConfigurationRead, hcall] at hout
        left; rw [← hout.1]

/-- A read of a license configuration that returns an error, or that finds the
configuration, leaves the ID as it was. -/
theorem licenseRead_keeps_id (d : LicenseData) (client : LicenseManagerClient)
    (d1 : LicenseData) (err : Option GoError)
    (hout : resourceLicenseConfigurationRead d client = Run.done (d1, err))
    (hor : err ≠ none ∨ readFindsLicense d client) : d1.id = d.id := by
  rcases licenseRead_returns d client d1 err hout with h | ⟨_, herr, hmiss⟩
  · exact h
  · rcases hor with h | ⟨resp, hfind⟩
    · exact absurd herr h
    · obtain ⟨output, e, hcall, _⟩ := hmiss
      rw [hfind] at hcall
      simp at hcall

/-- C13, as stated, fails: when the remote call of each of the four callbacks is refused
as throttled, the error returned is made with `%s`; unwrapping it gives nothing and the
remote error is not reachable from it. -/
theorem license_errors_not_wrapped :
    (∀ r, r ∈ [(resourceLicenseConfigurationCreate sampleNewLicenseData
                  (sampleLicenseService (none, some sampleThrottled) none (none, none))).outcome,
               resourceLicenseConfigurationRead sampleLicenseData
                  (sampleLicenseClient none (some sampleThrottled)),
               (resourceLicenseConfigurationUpdate sampleLicenseData sampleLicenseData
                  (sampleLicenseService (none, none) (some sampleThrottled) (none, none))).outcome]
        → ∃ d e, r = Run.done (d, some e) ∧ e.unwrap = none
            ∧ unwrapsTo sampleThrottled e = false)
      ∧ ∃ e, resourceLicenseConfigurationDelete sampleLicenseData
            (sampleLicenseClient none (some sampleThrottled)) = some e
          ∧ e.unwrap = none ∧ unwrapsTo sampleThrottled e = false := by
  constructor
  · intro r hr
    simp only [List.mem_cons, List.mem_singleton, List.not_mem_nil, or_false] at hr
    rcases hr with h | h | h
    · exact ⟨sampleNewLicenseData, GoError.errorf
        "Error creating License Manager license configuration" sampleThrottled,
        by rw [h]; decide, rfl, by decide⟩
    · exact ⟨sampleLicenseData, GoError.errorf
        "Error reading License Manager license configuration" sampleThrottled,
        by rw [h]; decide, rfl, by decide⟩
    · exact ⟨sampleLicenseData, GoError.errorf
        "Error updating License Manager license configuration" sampleThrottled,
        by rw [h]; decide, rfl, by decide⟩
  · exact ⟨GoError.errorf "Error deleting License Manager license configuration"
      sampleThrottled, by decide, rfl, by decide⟩

/-- C13, amended: for every remote error other than the not-found code returned to
`resourceLicenseConfigurationCreate`, `Read`, `Update` or `Delete`, the callback returns a
new error that adds context and shows the text of the remote error (`fmt.Errorf` with
`%s`), with the resource data as it was; the new error does not wrap the remote error:
`Unwrap` gives nothing and the remote error is not reachable from it. -/
theorem license_errors_show_text (d : LicenseData) (client : LicenseManagerClient)
    (err : GoError) :
    (∀ output, client.LicenseManagerConn.CreateLicenseConfiguration
          (createLicenseConfigurationOpts d client) = (output, some err) →
        (resourceLicenseConfigurationCreate d client).outcome = Run.done (d, some
          (GoError.errorf "Error creating License Manager license configuration" err)))
      ∧ (∀ output, client.LicenseManagerConn.GetLicenseConfiguration
          { LicenseConfigurationArn := some d.id } = (output, some err) →
        ErrCodeEquals (some err) ErrCodeInvalidParameterValueException = false →
        resourceLicenseConfigurationRead d client = Run.done (d, some
          (GoError.errorf "Error reading License Manager license configuration" err)))
      ∧ (∀ prior : LicenseData,
        (prior.tags_all ≠ d.tags_all →
          client.UpdateTags d.id prior.tags_all d.tags_all = none) →
        client.LicenseManagerConn.UpdateLicenseConfiguration
          (updateLicenseConfigurationOpts d) = some err →
        (resourceLicenseConfigurationUpdate prior d client).outcome = Run.done (d, some
          (GoError.errorf "Error updating License Manager license configuration" err)))
      ∧ (∀ prior : LicenseData, prior.tags_all ≠ d.tags_all →
        client.UpdateTags d.id prior.tags_all d.tags_all = some err →
        (resourceLicenseConfigurationUpdate prior d client).outcome = Run.done (d, some
          (GoError.errorf
            ("error updating License Manager License Configuration (" ++ d.id ++ ") tags")
            err)))
      ∧ (client.LicenseManagerConn.DeleteLicenseConfiguration
          { LicenseConfigurationArn := some d.id } = some err →
        ErrCodeEquals (some err) ErrCodeInvalidParameterValueException = false →
        resourceLicenseConfigurationDelete d client = some
          (GoError.errorf "Error deleting License Manager license configuration" err))
      ∧ ∀ context, (GoError.errorf context err).unwrap = none
          ∧ unwrapsTo err (GoError.errorf context err) = false := by
  refine ⟨?_, ?_, ?_, ?_, ?_, ?_⟩
  · intro output hcall
    simp [resourceLicenseConfigurationCreate, hcall]
  · intro output hcall hcode
    simp [resourceLicenseConfigurationRead, hcall, hcode]
  · intro prior htags hcall
    by_cases hchange : prior.tags_all = d.tags_all
    · simp [resourceLicenseConfigurationUpdate, hchange, hcall]
    · simp [resourceLicenseConfigurationUpdate, hchange, htags hchange, hcall]
  · intro prior hchange htags
    simp [resourceLicenseConfigurationUpdate, hchange, htags]
  · intro hcall hcode
    simp [resourceLicenseConfigurationDelete, hcall, hcode]
  · intro context
    exact ⟨rfl, (errorf_hides_shown context err).2.2⟩

/-- C13, amended, at an input: a read that is refused as throttled. -/
theorem license_errors_show_text_witness :
    resourceLicenseConfigurationRead sampleLicenseData
        (sampleLicenseClient none (some sampleThrottled))
      = Run.done (sampleLicenseData, some
          (GoError.errorf "Error reading License Manager license configuration"
            sampleThrottled)) :=
  (license_errors_show_text sampleLicenseData
    (sampleLicenseClient none (some sampleThrottled)) sampleThrottled).2.1 none rfl
    (by decide)

/-- C14: `resourceLicenseConfigurationUpdate` works on the same identity: every
`UpdateLicenseConfiguration` request it sends carries the current ID as
`LicenseConfigurationArn`, the request is sent whenever the update of the tags does not
fail, and in every run that returns with an error, or whose refresh finds the
configuration, the ID afterwards is the ID before. -/
theorem licenseUpdate_same_identity (prior d : LicenseData) (client : LicenseManagerClient) :
    (∀ input, LicenseCall.update input
          ∈ (resourceLicenseConfigurationUpdate prior d client).calls →
        input.LicenseConfigurationArn = some d.id)
      ∧ ((prior.tags_all ≠ d.tags_all →
          client.UpdateTags d.id prior.tags_all d.tags_all = none) →
        LicenseCall.update (updateLicenseConfigurationOpts d)
          ∈ (resourceLicenseConfigurationUpdate prior d client).calls)
      ∧ (∀ d1 err, (resourceLicenseConfigurationUpdate prior d client).outcome
          = Run.done (d1, err) →
        err ≠ none ∨ readFindsLicense d client → d1.id = d.id) := by
  by_cases hchange : prior.tags_all = d.tags_all
  · cases hupd : client.LicenseManagerConn.UpdateLicenseConfiguration
        (updateLicenseConfigurationOpts d) with
    | some e =>
      refine ⟨?_, ?_, ?_⟩
      · intro input hmem
        simp [resourceLicenseConfigurationUpdate, hchange, hupd] at hmem
        rw [hmem]; rfl
      · intro _
        simp [resourceLicenseConfigurationUpdate, hchange, hupd]
      · intro d1 err hout _
        simp [resourceLicenseConfigurationUpdate, hchange, hupd] at hout
        rw [← hout.1]
    | none =>
      refine ⟨?_, ?_, ?_⟩
      · intro input hmem
        simp [resourceLicenseConfigurationUpdate, hchange, hupd, licenseReadCall] at hmem
        rw [hmem]; rfl
      · intro _
        simp [resourceLicenseConfigurationUpdate, hchange, hupd]
      · intro d1 err hout hor
        exact licenseRead_keeps_id d client d1 err
          (by simpa [resourceLicenseConfigurationUpdate, hchange, hupd] using hout) hor
  · cases htag : client.UpdateTags d.id prior.tags_all d.tags_all with
    | some e =>
      refine ⟨?_, ?_, ?_⟩
      · intro input hmem
        simp [resourceLicenseConfigurationUpdate, hchange, htag] at hmem
      · intro h
        exact absurd (h hchange) (by simp [htag])
      · intro d1 err hout _
        simp [resourceLicenseConfigurationUpdate, hchange, htag] at hout
        rw [← hout.1]
    | none =>
      cases hupd : client.LicenseManagerConn.UpdateLicenseConfiguration
          (updateLicenseConfigurationOpts d) with
      | some e =>
        refine ⟨?_, ?_, ?_⟩
        · intro input hmem
          simp [resourceLicenseConfigurationUpdate, hchange, htag, hupd] at hmem
          rw [hmem]; rfl
        · intro _
          simp [resourceLicenseConfigurationUpdate, hchange, htag, hupd]
        · intro d1 err hout _
          simp [resourceLicenseConfigurationUpdate, hchange, htag, hupd] at hout
          rw [← hout.1]
      | none =>
        refine ⟨?_, ?_, ?_⟩
        · intro input hmem
          simp [resourceLicenseConfigurationUpdate, hchange, htag, hupd,
            licenseReadCall] at hmem
          rw [hmem]; rfl
        · intro _
          simp [resourceLicenseConfigurationUpdate, hchange, htag, hupd]
        · intro d1 err hout hor
          exact licenseRead_keeps_id d client d1 err
            (by simpa [resourceLicenseConfigurationUpdate, hchange, htag, hupd] using hout) hor

/-- C14, at an input: an update without a change of the tags sends its request, and the
request carries the ID of the state. -/
theorem licenseUpdate_same_identity_witness :
    LicenseCall.update (updateLicenseConfigurationOpts sampleLicenseData)
        ∈ (resourceLicenseConfigurationUpdate sampleLicenseData sampleLicenseData
            (sampleLicenseService (none, none) none (none, some sampleThrottled))).calls
      ∧ (updateLicenseConfigurationOpts sampleLicenseData).LicenseConfigurationArn
        = some sampleLicenseData.id :=
  have h := licenseUpdate_same_identity sampleLicenseData sampleLicenseData
    (sampleLicenseService (none, none) none (none, some sampleThrottled))
  have hsent := h.2.1 (fun hne => absurd rfl hne)
  ⟨hsent, h.1 _ hsent⟩

/-- C17, as stated, fails: the create call succeeds and returns the ARN of `lic-2`, the
refresh is answered with the not-found code, and the callback returns nil with an empty
ID, not with the ARN returned. -/
theorem licenseCreate_nil_without_id :
    (sampleLicenseService (some sampleCreated, none) none
          (none, some sampleInvalidParameter)).LicenseManagerConn.CreateLicenseConfiguration
        (createLicenseConfigurationOpts sampleNewLicenseData
          (sampleLicenseService (some sampleCreated, none) none
            (none, some sampleInvalidParameter)))
        = (some sampleCreated, none)
      ∧ (resourceLicenseConfigurationCreate sampleNewLicenseData
          (sampleLicenseService (some sampleCreated, none) none
            (none, some sampleInvalidParameter))).outcome
        = Run.done ({ sampleNewLicenseData with id := "" }, none)
      ∧ StringValue sampleCreated.LicenseConfigurationArn ≠ "" := by
  decide

/-- C17, amended: whenever `CreateLicenseConfiguration` fails,
`resourceLicenseConfigurationCreate` returns an error, makes no other remote call, so no
read, and leaves the resource data with its ID as they were; whenever it succeeds and the
callback returns nil, the ID is the `LicenseConfigurationArn` returned by the create call,
unless the refresh was answered with the not-found code: then the ID is empty. -/
theorem licenseCreate_sets_id (d : LicenseData) (client : LicenseManagerClient) :
    (∀ output err, client.LicenseManagerConn.CreateLicenseConfiguration
          (createLicenseConfigurationOpts d client) = (output, some err) →
        resourceLicenseConfigurationCreate d client
          = { calls := [LicenseCall.create (createLicenseConfigurationOpts d client)]
              outcome := Run.done (d, some
                (GoError.errorf "Error creating License Manager license configuration"
                  err)) })
      ∧ (∀ resp d1, client.LicenseManagerConn.CreateLicenseConfiguration
          (createLicenseConfigurationOpts d client) = (some resp, none) →
        (resourceLicenseConfigurationCreate d client).outcome = Run.done (d1, none) →
        (¬ readMissesLicense { d with id := StringValue resp.LicenseConfigurationArn } client →
            d1.id = StringValue resp.LicenseConfigurationArn)
          ∧ (readMissesLicense { d with id := StringValue resp.LicenseConfigurationArn } client →
            d1.id = "")) := by
  constructor
  · intro output err hcall
    simp [resourceLicenseConfigurationCreate, hcall]
  · intro resp d1 hcall hout
    have hread : resourceLicenseConfigurationRead
        { d with id := StringValue resp.LicenseConfigurationArn } client
          = Run.done (d1, none) := by
      simpa [resourceLicenseConfigurationCreate, hcall] using hout
    constructor
    · intro hfound
      rcases licenseRead_returns _ client d1 none hread with h | ⟨_, _, hmiss⟩
      · exact h
      · exact absurd hmiss hfound
    · rintro ⟨output, e, hget, hcode⟩
      simp [resourceLicenseConfigurationRead, hget, hcode] at hread
      rw [← hread]

/-- C17, amended, at inputs: a create call that is refused as throttled, and a create call
that succeeds and whose refresh finds the new configuration. -/
theorem licenseCreate_sets_id_witness :
    resourceLicenseConfigurationCreate sampleNewLicenseData
        (sampleLicenseService (none, some sampleThrottled) none (none, none))
      = { calls := [LicenseCall.create (createLicenseConfigurationOpts sampleNewLicenseData
            (sampleLicenseService (none, some sampleThrottled) none (none, none)))]
          outcome := Run.done (sampleNewLicenseData, some
            (GoError.errorf "Error creating License Manager license configuration"
              sampleThrottled)) }
      ∧ ∃ d1, (resourceLicenseConfigurationCreate sampleNewLicenseData
            (sampleLicenseService (some sampleCreated, none) none
              (some { LicenseConfigurationArn := sampleCreated.LicenseConfigurationArn },
                none))).outcome = Run.done (d1, none)
          ∧ d1.id = StringValue sampleCreated.LicenseConfigurationArn :=
  ⟨(licenseCreate_sets_id sampleNewLicenseData
      (sampleLicenseService (none, some sampleThrottled) none (none, none))).1
      none sampleThrottled rfl,
   { id := StringValue sampleCreated.LicenseConfigurationArn
     arn := StringValue sampleCreated.LicenseConfigurationArn },
   by decide,
   ((licenseCreate_sets_id sampleNewLicenseData
      (sampleLicenseService (some sampleCreated, none) none
        (some { LicenseConfigurationArn := sampleCreated.LicenseConfigurationArn },
          none))).2 sampleCreated
      { id := StringValue sampleCreated.LicenseConfigurationArn
        arn := StringValue sampleCreated.LicenseConfigurationArn }
      rfl (by decide)).1
      (by
        rintro ⟨output, e, hget, _⟩
        exact Option.noConfusion (congrArg Prod.snd hget))⟩

/-! ## The ID of an OpsWorks RDS DB instance -/

/-- The loop of `resourceRDSDBInstanceRead` over entries that all have an ARN and a stack
ID runs to its end; it keeps the text `rds_db_instance_arn ++ stack_id` and the password;
`found` becomes true exactly when an entry has that text, and then the ID is that text;
without such an entry the resource data stay as they were. -/
theorem readRdsDbInstances_runs (instances : List (Option RdsDbInstance)) :
    ∀ (found : Bool) (d : RDSData),
    (∀ entry, entry ∈ instances → (instanceKey entry).isSome = true) →
    ∃ d1, readRdsDbInstances instances (found, d)
        = Run.done (found || instances.any
            (fun entry => instanceKey entry == some (d.rds_db_instance_arn ++ d.stack_id)), d1)
      ∧ d1.rds_db_instance_arn ++ d1.stack_id = d.rds_db_instance_arn ++ d.stack_id
      ∧ d1.db_password = d.db_password
      ∧ (instances.any
            (fun entry => instanceKey entry == some (d.rds_db_instance_arn ++ d.stack_id))
          = true → d1.id = d.rds_db_instance_arn ++ d.stack_id)
      ∧ (instances.any
            (fun entry => instanceKey entry == some (d.rds_db_instance_arn ++ d.stack_id))
          = false → d1 = d) := by
  induction instances with
  | nil =>
    intro found d _
    exact ⟨d, by simp [readRdsDbInstances], rfl, rfl, by simp, fun _ => rfl⟩
  | cons entry rest ih =>
    intro found d hwf
    have hrest : ∀ e, e ∈ rest → (instanceKey e).isSome = true :=
      fun e he => hwf e (List.mem_cons_of_mem entry he)
    have hentry := hwf entry (List.mem_cons_self entry rest)
    cases entry with
    | none => simp [instanceKey] at hentry
    | some inst =>
      cases harn : inst.RdsDbInstanceArn with
      | none => simp [instanceKey, harn] at hentry
      | some arn =>
        cases hstack : inst.StackId with
        | none => simp [instanceKey, harn, hstack] at hentry
        | some stack =>
          have hkey : instanceKey (some inst) = some (arn ++ stack) := by
            simp [instanceKey, harn, hstack]
          by_cases hmatch : d.rds_db_instance_arn ++ d.stack_id = arn ++ stack
          · obtain ⟨d1, hrun, hk, hpw, hany, hnone⟩ := ih true
              { d with
                  id := arn ++ stack
                  stack_id := StringValue inst.StackId
                  rds_db_instance_arn := StringValue inst.RdsDbInstanceArn
                  db_user := StringValue inst.DbUser } hrest
            have hk2 : StringValue inst.RdsDbInstanceArn ++ StringValue inst.StackId
                = arn ++ stack := by simp [StringValue, harn, hstack]
            simp only [hk2] at hrun hk hany hnone
            refine ⟨d1, ?_, ?_, hpw, ?_, ?_⟩
            · rw [readRdsDbInstances]
              simp only [harn, hstack, hmatch, beq_self_eq_true, if_true]
              simp only [harn, hstack] at hrun
              rw [hrun]
              simp [List.any_cons, hkey]
            · rw [hk, hmatch]
            · intro _
              rw [hmatch]
              cases hr : rest.any (fun e => instanceKey e == some (arn ++ stack)) with
              | true => exact hany hr
              | false => rw [hnone hr]
            · intro hfalse
              simp [hkey, hmatch] at hfalse
          · obtain ⟨d1, hrun, hk, hpw, hany, hnone⟩ := ih found d hrest
            have hkne : (instanceKey (some inst)
                == some (d.rds_db_instance_arn ++ d.stack_id)) = false := by
              rw [hkey]
              simp only [beq_eq_false_iff_ne, ne_eq, Option.some.injEq]
              exact fun e => hmatch e.symm
            refine ⟨d1, ?_, hk, hpw, ?_, ?_⟩
            · rw [readRdsDbInstances]
              simp only [harn, hstack]
              rw [if_neg (by simpa using hmatch), hrun]
              simp [List.any_cons, hkne]
            · intro h
              rw [List.any_cons, hkne, Bool.false_or] at h
              exact hany h
            · intro h
              rw [List.any_cons, hkne, Bool.false_or] at h
              exact hnone h

/-- A read that finds the instance returns no error; afterwards the ID is the text
`rds_db_instance_arn ++ stack_id`, of the state before and of the state after alike. -/
theorem rdsRead_found (d : RDSData) (client : OpsWorksConn)
    (h : readFindsInstance d client) :
    ∃ d1, resourceRDSDBInstanceRead d client = Run.done (d1, none)
      ∧ d1.id = d.rds_db_instance_arn ++ d.stack_id
      ∧ d1.id = d1.rds_db_instance_arn ++ d1.stack_id := by
  obtain ⟨resp, hcall, hwf, entry, hmem, hkey⟩ := h
  obtain ⟨d1, hrun, hk, _, hany, _⟩ := readRdsDbInstances_runs resp.RdsDbInstances false d hwf
  have htrue : resp.RdsDbInstances.any
      (fun e => instanceKey e == some (d.rds_db_instance_arn ++ d.stack_id)) = true := by
    rw [List.any_eq_true]
    exact ⟨entry, hmem, by simp [hkey]⟩
  refine ⟨d1, ?_, hany htrue, by rw [hany htrue, hk]⟩
  simp [resourceRDSDBInstanceRead, hcall, hrun, htrue]

/-- C16: a successful `resourceRDSDBInstanceRegister` whose refresh finds the instance
sets the ID to `rds_db_instance_arn ++ stack_id`; every `resourceRDSDBInstanceRead` and
every `resourceRDSDBInstanceUpdate` that finds the instance ends with the ID equal to the
`rds_db_instance_arn ++ stack_id` of the state, and leaves unchanged an ID that had this
value before. -/
theorem rds_id_is_arn_with_stack (d : RDSData) (client : OpsWorksConn) :
    (client.RegisterRdsDbInstance
          { StackId := some d.stack_id, RdsDbInstanceArn := some d.rds_db_instance_arn,
            DbUser := some d.db_user, DbPassword := some d.db_password } = none →
        readFindsInstance d client →
        ∃ d1, (resourceRDSDBInstanceRegister d client).outcome = Run.done (d1, none)
          ∧ d1.id = d.rds_db_instance_arn ++ d.stack_id
          ∧ d1.id = d1.rds_db_instance_arn ++ d1.stack_id)
      ∧ (readFindsInstance d client →
        ∃ d1, resourceRDSDBInstanceRead d client = Run.done (d1, none)
          ∧ d1.id = d1.rds_db_instance_arn ++ d1.stack_id
          ∧ (d.id = d.rds_db_instance_arn ++ d.stack_id → d1.id = d.id))
      ∧ (∀ prior : RDSData,
        (prior.db_user ≠ d.db_user ∨ prior.db_password ≠ d.db_password →
          client.UpdateRdsDbInstance (updateRdsDbInstanceReq prior d) = none) →
        readFindsInstance d client →
        ∃ d1, (resourceRDSDBInstanceUpdate prior d client).outcome = Run.done (d1, none)
          ∧ d1.id = d1.rds_db_instance_arn ++ d1.stack_id
          ∧ (d.id = d.rds_db_instance_arn ++ d.stack_id → d1.id = d.id)) := by
  refine ⟨?_, ?_, ?_⟩
  · intro hreg hfinds
    obtain ⟨d1, hread, h1, h2⟩ := rdsRead_found d client hfinds
    exact ⟨d1, by simp [resourceRDSDBInstanceRegister, hreg, hread], h1, h2⟩
  · intro hfinds
    obtain ⟨d1, hread, h1, h2⟩ := rdsRead_found d client hfinds
    exact ⟨d1, hread, h2, fun hid => by rw [h1, hid]⟩
  · intro prior hupd hfinds
    obtain ⟨d1, hread, h1, h2⟩ := rdsRead_found d client hfinds
    refine ⟨d1, ?_, h2, fun hid => by rw [h1, hid]⟩
    by_cases hreq : prior.db_user ≠ d.db_user ∨ prior.db_password ≠ d.db_password
    · have hor : (decide (prior.db_user ≠ d.db_user)
          || decide (prior.db_password ≠ d.db_password)) = true := by
        simpa using hreq
      simp only [resourceRDSDBInstanceUpdate, hor, if_true, hupd hreq, hread]
    · have hor : (decide (prior.db_user ≠ d.db_user)
          || decide (prior.db_password ≠ d.db_password)) = false := by
        simp only [not_or, not_not, ne_eq] at hreq
        simp [hreq.1, hreq.2]
      simp only [resourceRDSDBInstanceUpdate, hor, hread]
      rfl

/-- C16, at an input: the instance `arn:db-1` is registered with the stack `stack-1`, the
refresh finds it, and the ID becomes `arn:db-1stack-1`. -/
theorem rds_id_is_arn_with_stack_witness :
    ∃ d1, (resourceRDSDBInstanceRegister { sampleRDSData with id := "" }
          (sampleOpsWorksConn (some { RdsDbInstances := [some sampleInstance] }) none)).outcome
        = Run.done (d1, none)
      ∧ d1.id = "arn:db-1" ++ "stack-1"
      ∧ d1.id = d1.rds_db_instance_arn ++ d1.stack_id :=
  (rds_id_is_arn_with_stack { sampleRDSData with id := "" }
    (sampleOpsWorksConn (some { RdsDbInstances := [some sampleInstance] }) none)).1 rfl
    ⟨{ RdsDbInstances := [some sampleInstance] }, rfl,
      fun entry hmem => by
        have hentry : entry = some sampleInstance := by simpa using hmem
        subst hentry
        decide,
      some sampleInstance, List.mem_singleton.2 rfl, by decide⟩

/-! ## The validator of `license_rules` -/

/-- A text matches an atom repeated once or more exactly when it is not empty and all its
characters pass the test of the atom. -/
theorem matchPieces_plus (a : Atom) (w : List Char) :
    matchPieces [Piece.plus a] w = true ↔ w ≠ [] ∧ ∀ c, c ∈ w → a.test c = true := by
  induction w with
  | nil => simp [matchPieces]
  | cons c w ih =>
    rw [matchPieces, Bool.and_eq_true, Bool.or_eq_true, ih]
    constructor
    · rintro ⟨hc, h | ⟨_, hall⟩⟩
      · have hw : w = [] := by
          cases w with
          | nil => rfl
          | cons x w => simp [matchPieces] at h
        subst hw
        refine ⟨List.cons_ne_nil _ _, ?_⟩
        intro y hy
        rw [List.mem_singleton.1 hy]; exact hc
      · refine ⟨List.cons_ne_nil _ _, ?_⟩
        intro y hy
        rcases List.mem_cons.1 hy with h | h
        · rw [h]; exact hc
        · exact hall y h
    · rintro ⟨_, hall⟩
      refine ⟨hall c (List.mem_cons_self _ _), ?_⟩
      cases w with
      | nil => left; rfl
      | cons x w =>
        right
        exact ⟨List.cons_ne_nil _ _, fun y hy => hall y (List.mem_cons_of_mem _ hy)⟩

/-- A text matches `[^s]+` followed by `s` and further pieces exactly when it is a
non-empty text without `s`, then `s`, then a text that matches the further pieces. -/
theorem matchPieces_until (s : Char) (ps : List Piece) (w : List Char) :
    matchPieces (Piece.plus (Atom.notChar s) :: Piece.one (Atom.lit s) :: ps) w = true
      ↔ ∃ t rest, w = t ++ s :: rest ∧ t ≠ [] ∧ s ∉ t ∧ matchPieces ps rest = true := by
  induction w with
  | nil => simp [matchPieces]
  | cons c w ih =>
    rw [matchPieces]
    simp only [Bool.and_eq_true, Bool.or_eq_true, ih, Atom.test, bne_iff_ne, ne_eq]
    constructor
    · rintro ⟨hc, h | ⟨t, rest, hw, _, hs, hm⟩⟩
      · cases w with
        | nil => simp [matchPieces] at h
        | cons x w =>
          simp only [matchPieces, Bool.and_eq_true, Atom.test, beq_iff_eq] at h
          refine ⟨[c], w, by rw [h.1]; rfl, List.cons_ne_nil _ _, ?_, h.2⟩
          simpa using fun e : s = c => hc e.symm
      · refine ⟨c :: t, rest, by rw [hw]; rfl, List.cons_ne_nil _ _, ?_, hm⟩
        intro hmem
        rcases List.mem_cons.1 hmem with h | h
        · exact hc h.symm
        · exact hs h
    · rintro ⟨t, rest, hw, ht, hs, hm⟩
      cases t with
      | nil => exact absurd rfl ht
      | cons y t =>
        simp only [List.cons_append, List.cons.injEq] at hw
        obtain ⟨hy, hw⟩ := hw
        subst hy
        have hcs : ¬ c = s := fun e => hs (by rw [e]; exact List.mem_cons_self _ _)
        refine ⟨hcs, ?_⟩
        cases t with
        | nil =>
          left
          rw [hw]
          simp [matchPieces, Atom.test, hm]
        | cons z t =>
          right
          exact ⟨z :: t, rest, hw, List.cons_ne_nil _ _,
            fun h => hs (List.mem_cons_of_mem _ h), hm⟩

/-- The characters that match the expression of the license rules. -/
theorem matchPieces_licenseRule (w : List Char) :
    matchPieces licenseRuleRegexp.pieces w = true
      ↔ ∃ t v, w = '#' :: (t ++ '=' :: v) ∧ t ≠ [] ∧ '=' ∉ t ∧ v ≠ [] ∧ '\n' ∉ v := by
  cases w with
  | nil => simp [licenseRuleRegexp, matchPieces]
  | cons c w =>
    simp only [licenseRuleRegexp, matchPieces, Bool.and_eq_true, Atom.test, beq_iff_eq,
      matchPieces_until, matchPieces_plus, bne_iff_ne, ne_eq, List.cons.injEq]
    constructor
    · rintro ⟨hc, t, v, hw, ht, hs, hv, hall⟩
      exact ⟨t, v, ⟨hc, hw⟩, ht, hs, hv, fun hmem => hall _ hmem rfl⟩
    · rintro ⟨t, v, ⟨hc, hw⟩, ht, hs, hv, hnl⟩
      exact ⟨hc, t, v, hw, ht, hs, hv, fun x hx e => hnl (e ▸ hx)⟩

/-- C18: the validator of the `license_rules` elements (pattern `^#([^=]+)=(.+)$`, message
"Expected format is #RuleType=RuleValue") accepts a text if and only if it is
`"#" ++ t ++ "=" ++ v` with `t` non-empty and free of `=` and `v` non-empty and free of the
newline character; every other text gets the one error with the message. So `v` may hold
further `=`, and texts without the leading `#`, without `=`, with empty `t` or with empty
`v` are refused. -/
theorem validateLicenseRule_accepts_iff (s k : String) :
    (validateLicenseRule s k = [] ↔ licenseRuleForm s)
      ∧ (¬ licenseRuleForm s → validateLicenseRule s k
          = [GoError.formatted "invalid value for %s (%s)"
              [k, "Expected format is #RuleType=RuleValue"]])
      ∧ validateLicenseRule "#allowedTenancy=EC2-Default=x" "license_rules.0" = []
      ∧ validateLicenseRule "allowedTenancy=EC2-Default" "license_rules.0" ≠ []
      ∧ validateLicenseRule "#allowedTenancy" "license_rules.0" ≠ []
      ∧ validateLicenseRule "#=EC2-Default" "license_rules.0" ≠ []
      ∧ validateLicenseRule "#allowedTenancy=" "license_rules.0" ≠ [] := by
  have hmatch : licenseRuleRegexp.MatchString s = true ↔ licenseRuleForm s := by
    rw [Regexp.MatchString, matchPieces_licenseRule]
    constructor
    · rintro ⟨t, v, hs, ht, heq, hv, hnl⟩
      refine ⟨String.mk t, String.mk v, ?_, ?_, heq, ?_, hnl⟩
      · apply String.ext
        simp [String.data_append, hs]
      · exact fun e => ht ((String_mk_eq_empty t).1 e)
      · exact fun e => hv ((String_mk_eq_empty v).1 e)
    · rintro ⟨t, v, hs, ht, heq, hv, hnl⟩
      refine ⟨t.data, v.data, ?_, fun e => ht (String.ext e), heq,
        fun e => hv (String.ext e), hnl⟩
      rw [hs]
      simp [String.data_append]
  refine ⟨?_, ?_, by decide, by decide, by decide, by decide, by decide⟩
  · rw [← hmatch]
    cases hm : licenseRuleRegexp.MatchString s <;>
      simp [validateLicenseRule, StringMatch, hm]
  · intro hnot
    have hm : licenseRuleRegexp.MatchString s = false := by
      cases h : licenseRuleRegexp.MatchString s with
      | true => exact absurd (hmatch.1 h) hnot
      | false => rfl
    simp [validateLicenseRule, StringMatch, hm]

/-! ## The scaffolding of a resource -/

/-- The error of `writeTemplate`, wrapped by `Create`, is none of the three errors of the
checks on the names. -/
theorem wrapf_ne_check_errors (context : String) (err : GoError) :
    GoError.wrapf context err ≠ errNoNameGiven
      ∧ GoError.wrapf context err ≠ errNotCapitalized
      ∧ GoError.wrapf context err ≠ errSnakeNotLower := by
  refine ⟨?_, ?_, ?_⟩ <;> intro h <;> cases h

/-- C19: with a readable working directory, `Create` returns an error without any call on
a file whenever the resource name is empty (error "no name given"), the resource name is
not empty and equals its lower-cased form (error "name should be properly capitalized"),
or, the resource name passing both checks, the snake name is not empty and differs from
its lower-cased form (error "snake name should be all lower case"); the checks are made in
this order, and when none of the three refuses the names, the error returned, if any, is
none of these three. The lower-cased form is that of `strings.ToLower`, for every case
table it may read and so for names with letters outside ASCII as well. -/
theorem Create_checks_names (env : SkaffEnv) (resName snakeName : String)
    (comments force : Bool) (wd : String) (hwd : env.Getwd = (wd, none)) :
    (resName = "" → Create env resName snakeName comments force = ([], some errNoNameGiven))
      ∧ (resName ≠ "" → resName = stringsToLower env.caseTable resName →
          Create env resName snakeName comments force = ([], some errNotCapitalized))
      ∧ (resName ≠ "" → resName ≠ stringsToLower env.caseTable resName →
          snakeName ≠ "" → snakeName ≠ stringsToLower env.caseTable snakeName →
          Create env resName snakeName comments force = ([], some errSnakeNotLower))
      ∧ (namesRefused env.caseTable resName snakeName →
          (Create env resName snakeName comments force).1 = []
            ∧ (Create env resName snakeName comments force).2
              ∈ [some errNoNameGiven, some errNotCapitalized, some errSnakeNotLower])
      ∧ (¬ namesRefused env.caseTable resName snakeName →
          (Create env resName snakeName comments force).2
            ∉ [some errNoNameGiven, some errNotCapitalized, some errSnakeNotLower]) := by
  have h1 : resName = "" →
      Create env resName snakeName comments force = ([], some errNoNameGiven) := by
    intro h
    simp [Create, hwd, h]
  have h2 : resName ≠ "" → resName = stringsToLower env.caseTable resName →
      Create env resName snakeName comments force = ([], some errNotCapitalized) := by
    intro hne h
    simp only [Create, hwd, if_neg hne, if_pos h]
  have h3 : resName ≠ "" → resName ≠ stringsToLower env.caseTable resName →
      snakeName ≠ "" → snakeName ≠ stringsToLower env.caseTable snakeName →
      Create env resName snakeName comments force = ([], some errSnakeNotLower) := by
    intro hne hcap hs hsl
    simp only [Create, hwd, if_neg hne, if_neg hcap, if_pos (And.intro hs hsl)]
  refine ⟨h1, h2, h3, ?_, ?_⟩
  · intro href
    by_cases hne : resName = ""
    · rw [h1 hne]; simp
    · by_cases hcap : resName = stringsToLower env.caseTable resName
      · rw [h2 hne hcap]; simp
      · rcases href with h | h | ⟨hs, hsl⟩
        · exact absurd h hne
        · exact absurd h hcap
        · rw [h3 hne hcap hs hsl]; simp
  · intro hnot
    simp only [namesRefused, not_or] at hnot
    obtain ⟨hne, hcap, hsnake⟩ := hnot
    have hw := wrapf_ne_check_errors
    simp only [Create, hwd, if_neg hne, if_neg hcap, if_neg hsnake, List.mem_cons,
      List.mem_singleton, List.not_mem_nil, or_false, not_or]
    split
    · simp [(hw _ _).1, (hw _ _).2.1, (hw _ _).2.2]
    · split
      · simp [(hw _ _).1, (hw _ _).2.1, (hw _ _).2.2]
      · split
        · simp [(hw _ _).1, (hw _ _).2.1, (hw _ _).2.2]
        · split
          · simp [(hw _ _).1, (hw _ _).2.1, (hw _ _).2.2]
          · split
            · simp [(hw _ _).1, (hw _ _).2.1, (hw _ _).2.2]
            · simp

/-- C19, at inputs: in the directory of `rds`, the names `dbinstance` (not capitalized)
and `DBInstance` with the snake name `DB_instance` are refused without a call on a file;
the name `DBInstance` alone is accepted and its three files are written; and so is the
name `École`, whose only upper-case letter is outside ASCII. -/
theorem Create_checks_names_witness :
    Create sampleSkaffEnv "dbinstance" "" true false = ([], some errNotCapitalized)
      ∧ Create sampleSkaffEnv "DBInstance" "DB_instance" true false
        = ([], some errSnakeNotLower)
      ∧ (Create sampleSkaffEnv "DBInstance" "" true false).2
        ∉ [some errNoNameGiven, some errNotCapitalized, some errSnakeNotLower]
      ∧ (Create sampleSkaffEnv "École" "" true false).2
        ∉ [some errNoNameGiven, some errNotCapitalized, some errSnakeNotLower] :=
  have h1 := Create_checks_names sampleSkaffEnv "dbinstance" "" true false
    "/src/internal/service/rds" rfl
  have h2 := Create_checks_names sampleSkaffEnv "DBInstance" "DB_instance" true false
    "/src/internal/service/rds" rfl
  have h3 := Create_checks_names sampleSkaffEnv "DBInstance" "" true false
    "/src/internal/service/rds" rfl
  have h4 := Create_checks_names sampleSkaffEnv "École" "" true false
    "/src/internal/service/rds" rfl
  ⟨h1.2.1 (by decide) (by decide),
   h2.2.2.1 (by decide) (by decide) (by decide) (by decide),
   h3.2.2.2.2 (by
     intro h
     rcases h with h | h | ⟨h, _⟩
     · exact absurd h (by decide)
     · exact absurd h (by decide)
     · exact h rfl),
   h4.2.2.2.2 (by
     intro h
     rcases h with h | h | ⟨h, _⟩
     · exact absurd h (by decide)
     · exact absurd h (by decide)
     · exact h rfl)⟩

/-! ## Snake case -/

/-- The upper-case letters by their code. -/
theorem isUpper_iff (c : Char) : c.isUpper = true ↔ 65 ≤ c.toNat ∧ c.toNat ≤ 90 := by
  simp only [Char.isUpper, Bool.and_eq_true, decide_eq_true_eq, Char.toNat, UInt32.le_def,
    BitVec.le_def, UInt32.toNat]
  rfl

/-- The lower-case letters by their code. -/
theorem isLower_iff (c : Char) : c.isLower = true ↔ 97 ≤ c.toNat ∧ c.toNat ≤ 122 := by
  simp only [Char.isLower, Bool.and_eq_true, decide_eq_true_eq, Char.toNat, UInt32.le_def,
    BitVec.le_def, UInt32.toNat]
  rfl

/-- The digits by their code. -/
theorem isDigit_iff (c : Char) : c.isDigit = true ↔ 48 ≤ c.toNat ∧ c.toNat ≤ 57 := by
  simp only [Char.isDigit, Bool.and_eq_true, decide_eq_true_eq, Char.toNat, UInt32.le_def,
    BitVec.le_def, UInt32.toNat]
  rfl

/-- The letters and digits are the upper-case letters, the lower-case letters and the
digits. -/
theorem isAlphanum_iff (c : Char) :
    c.isAlphanum = true ↔ c.isUpper = true ∨ c.isLower = true ∨ c.isDigit = true := by
  simp [Char.isAlphanum, Char.isAlpha, or_assoc]

/-- The code of `_`. -/
theorem underscore_toNat : '_'.toNat = 95 := by decide

/-- A property of the characters with a code below 128 can be checked code by code. -/
theorem ascii_forall (P : Char → Prop) (h : ∀ n, n < 128 → P (Char.ofNat n)) (c : Char)
    (hc : c.toNat < 128) : P c := by
  have := h c.toNat hc
  rwa [Char.ofNat_toNat] at this

/-- An upper-case letter is not a lower-case letter. -/
theorem isLower_of_isUpper (c : Char) (h : c.isUpper = true) : c.isLower = false := by
  cases hl : c.isLower with
  | false => rfl
  | true =>
    have h1 := (isUpper_iff c).1 h
    have h2 := (isLower_iff c).1 hl
    omega

/-- A lower-case letter is not an upper-case letter. -/
theorem isUpper_of_isLower (c : Char) (h : c.isLower = true) : c.isUpper = false := by
  cases hu : c.isUpper with
  | false => rfl
  | true => rw [isLower_of_isUpper c hu] at h; exact Bool.noConfusion h

/-- A letter or digit is not `_`, and `_` is neither an upper-case nor a lower-case
letter. -/
theorem underscore_not_alphanum :
    '_'.isUpper = false ∧ '_'.isLower = false ∧ '_'.isDigit = false
      ∧ '_'.isAlphanum = false := by
  decide

/-- The lower-cased form of an ASCII character is `_` only for `_`; the one of an
upper-case letter is a lower-case letter; the one of any other letter, digit or `_` is the
character itself. -/
theorem toLower_ascii (c : Char) (hc : c.toNat < 128) :
    (c.toLower = '_' ↔ c = '_')
      ∧ (c.isUpper = true → c.toLower.isLower = true)
      ∧ (c.isUpper = false → c.toLower = c) := by
  refine ascii_forall
    (fun c => (c.toLower = '_' ↔ c = '_') ∧ (c.isUpper = true → c.toLower.isLower = true)
      ∧ (c.isUpper = false → c.toLower = c)) ?_ c hc
  decide

/-- A letter, a digit and `_` have a code below 128. -/
theorem ascii_of_alphanum (c : Char) (h : c.isAlphanum = true ∨ c = '_') :
    c.toNat < 128 := by
  rcases h with h | h
  · rcases (isAlphanum_iff c).1 h with h | h | h
    · have := (isUpper_iff c).1 h; omega
    · have := (isLower_iff c).1 h; omega
    · have := (isDigit_iff c).1 h; omega
  · rw [h, underscore_toNat]; omega

/-- The characters still to skip are skipped. -/
theorem replaceAllFrom_skip (m : List Char → Option (List Char × Nat)) (l rest : List Char) :
    replaceAllFrom m l.length (l ++ rest) = replaceAllFrom m 0 rest := by
  induction l with
  | nil => rfl
  | cons x l ih => simpa [replaceAllFrom] using ih

/-- The run of upper-case letters at the start of a text has two letters or more exactly
when the text starts with two upper-case letters. -/
theorem two_le_takeWhile_isUpper (w : List Char) :
    decide (2 ≤ (w.takeWhile Char.isUpper).length) = startsWithTwoUppers w := by
  cases w with
  | nil => rfl
  | cons a w =>
    cases w with
    | nil => cases ha : a.isUpper <;> simp [startsWithTwoUppers, List.takeWhile, ha]
    | cons b w =>
      cases ha : a.isUpper <;> cases hb : b.isUpper <;>
        simp [startsWithTwoUppers, List.takeWhile, ha, hb]

/-- The first replacement copies a run of upper-case letters. -/
theorem underscoreAfterLower_uppers (run rest : List Char)
    (h : ∀ x, x ∈ run → x.isUpper = true) :
    underscoreAfterLower (run ++ rest) = run ++ underscoreAfterLower rest := by
  induction run with
  | nil => rfl
  | cons x run ih =>
    have hx := isLower_of_isUpper x (h x (List.mem_cons_self _ _))
    simp [underscoreAfterLower, hx, ih (fun y hy => h y (List.mem_cons_of_mem _ hy))]

/-- The first replacement of `toSnakeCase`, `ReplaceAllString` with the expression
`([a-z])([A-Z]{2,})` and the template `${1}_${2}`, puts `_` after every lower-case letter
that two upper-case letters follow. -/
theorem replaceAll_lower_uppers (w : List Char) :
    replaceAllFrom matchLowerThenUppers 0 w = underscoreAfterLower w := by
  suffices h : ∀ n, ∀ w : List Char, w.length = n →
      replaceAllFrom matchLowerThenUppers 0 w = underscoreAfterLower w from h _ w rfl
  intro n
  induction n using Nat.strong_induction_on with
  | _ n ih =>
    intro w hn
    cases w with
    | nil => rfl
    | cons c rest =>
      by_cases hcond : (c.isLower && startsWithTwoUppers rest) = true
      · obtain ⟨run, drop, hrun, hsplit, hup⟩ : ∃ run drop : List Char,
            rest.takeWhile Char.isUpper = run ∧ rest = run ++ drop
              ∧ ∀ x, x ∈ run → x.isUpper = true :=
          ⟨_, _, rfl, (List.takeWhile_append_dropWhile _ _).symm,
            fun x hx => List.mem_takeWhile_imp hx⟩
        have hm : matchLowerThenUppers (c :: rest)
            = some (c :: '_' :: run, 1 + run.length) := by
          have hc2 := hcond
          rw [← two_le_takeWhile_isUpper rest, hrun] at hc2
          simp only [matchLowerThenUppers, hrun, hc2, if_true]
        have hdrop : drop.length < n := by
          have := congrArg List.length hsplit
          simp only [List.length_append] at this
          simp only [List.length_cons] at hn
          omega
        rw [replaceAllFrom, hm]
        simp only [Nat.add_sub_cancel_left, underscoreAfterLower, hcond, if_true]
        rw [hsplit, replaceAllFrom_skip, ih _ hdrop drop rfl,
          underscoreAfterLower_uppers run drop hup]
        rfl
      · have hm : matchLowerThenUppers (c :: rest) = none := by
          simp only [matchLowerThenUppers, two_le_takeWhile_isUpper, hcond]
          rfl
        have hlt : rest.length < n := by
          simp only [List.length_cons] at hn; omega
        rw [replaceAllFrom, hm]
        simp only [ih _ hlt rest rfl, underscoreAfterLower, hcond]
        rfl

/-- The second replacement of `toSnakeCase`, `ReplaceAllString` with the expression
`([A-Z][a-z])` and the template `_$1`, puts `_` before every upper-case letter that a
lower-case letter follows. -/
theorem replaceAll_upper_lower (w : List Char) :
    replaceAllFrom matchUpperThenLower 0 w = underscoreBeforeUpper w := by
  suffices h : ∀ n, ∀ w : List Char, w.length = n →
      replaceAllFrom matchUpperThenLower 0 w = underscoreBeforeUpper w from h _ w rfl
  intro n
  induction n using Nat.strong_induction_on with
  | _ n ih =>
    intro w hn
    cases w with
    | nil => rfl
    | cons c rest =>
      cases rest with
      | nil =>
        simp [replaceAllFrom, matchUpperThenLower, underscoreBeforeUpper, startsWithLower]
      | cons d rest =>
        by_cases hcond : (c.isUpper && d.isLower) = true
        · have hd : d.isLower = true := by
            simp only [Bool.and_eq_true] at hcond; exact hcond.2
          have hdu := isUpper_of_isLower d hd
          have hlt : rest.length < n := by
            simp only [List.length_cons] at hn; omega
          rw [replaceAllFrom]
          simp only [matchUpperThenLower, hcond, if_true, Nat.add_one_sub_one, replaceAllFrom,
            ih _ hlt rest rfl, underscoreBeforeUpper, startsWithLower, hdu, Bool.false_and,
            List.cons_append, List.nil_append]
          rfl
        · have hlt : (d :: rest).length < n := by
            simp only [List.length_cons] at hn ⊢; omega
          rw [replaceAllFrom]
          simp only [matchUpperThenLower, hcond, ih _ hlt (d :: rest) rfl,
            underscoreBeforeUpper, startsWithLower]
          rfl

/-- The first replacement adds no character but `_`. -/
theorem mem_underscoreAfterLower (w : List Char) (x : Char)
    (h : x ∈ underscoreAfterLower w) : x ∈ w ∨ x = '_' := by
  induction w with
  | nil => simp [underscoreAfterLower] at h
  | cons c rest ih =>
    rw [underscoreAfterLower] at h
    split at h
    · simp only [List.mem_cons] at h ⊢
      rcases h with h | h | h
      · exact Or.inl (Or.inl h)
      · exact Or.inr h
      · rcases ih h with h | h
        · exact Or.inl (Or.inr h)
        · exact Or.inr h
    · simp only [List.mem_cons] at h ⊢
      rcases h with h | h
      · exact Or.inl (Or.inl h)
      · rcases ih h with h | h
        · exact Or.inl (Or.inr h)
        · exact Or.inr h

/-- The second replacement adds no character but `_`. -/
theorem mem_underscoreBeforeUpper (w : List Char) (x : Char)
    (h : x ∈ underscoreBeforeUpper w) : x ∈ w ∨ x = '_' := by
  induction w with
  | nil => simp [underscoreBeforeUpper] at h
  | cons c rest ih =>
    rw [underscoreBeforeUpper] at h
    split at h
    · simp only [List.mem_cons] at h ⊢
      rcases h with h | h | h
      · exact Or.inr h
      · exact Or.inl (Or.inl h)
      · rcases ih h with h | h
        · exact Or.inl (Or.inr h)
        · exact Or.inr h
    · simp only [List.mem_cons] at h ⊢
      rcases h with h | h
      · exact Or.inl (Or.inl h)
      · rcases ih h with h | h
        · exact Or.inl (Or.inr h)
        · exact Or.inr h

/-- After the first replacement of a text without `_`, every `_` is followed by two
upper-case letters. -/
theorem underscoreAfterLower_followed (w : List Char) (h : ∀ c, c ∈ w → c ≠ '_') :
    underscoresFollowedBy startsWithTwoUppers (underscoreAfterLower w) = true := by
  induction w with
  | nil => rfl
  | cons c rest ih =>
    have hc : (c != '_') = true := by simpa using h c (List.mem_cons_self _ _)
    have hrest := ih (fun x hx => h x (List.mem_cons_of_mem _ hx))
    by_cases hcond : (c.isLower && startsWithTwoUppers rest) = true
    · have htwo : startsWithTwoUppers (underscoreAfterLower rest) = true := by
        simp only [Bool.and_eq_true] at hcond
        have h2 := hcond.2
        cases rest with
        | nil => simp [startsWithTwoUppers] at h2
        | cons a rest =>
          cases rest with
          | nil => simp [startsWithTwoUppers] at h2
          | cons b rest =>
            simp only [startsWithTwoUppers, Bool.and_eq_true] at h2
            simp [underscoreAfterLower, isLower_of_isUpper a h2.1,
              isLower_of_isUpper b h2.2, startsWithTwoUppers, h2.1, h2.2]
      simp only [underscoreAfterLower, hcond, if_true, underscoresFollowedBy, hc,
        Bool.true_or, Bool.true_and, htwo, hrest, bne_self_eq_false, Bool.false_or]
    · simp only [underscoreAfterLower, hcond, underscoresFollowedBy, hc, Bool.true_or,
        Bool.true_and, hrest]

/-- After the second replacement of a text in which every `_` is followed by two
upper-case letters, every `_` is followed by an upper-case letter. -/
theorem underscoreBeforeUpper_followed (l : List Char)
    (h : underscoresFollowedBy startsWithTwoUppers l = true) :
    underscoresFollowedBy startsWithUpper (underscoreBeforeUpper l) = true := by
  induction l with
  | nil => rfl
  | cons c rest ih =>
    simp only [underscoresFollowedBy, Bool.and_eq_true, Bool.or_eq_true] at h
    have hrest := ih h.2
    by_cases hc : c = '_'
    · subst hc
      have h2 : startsWithTwoUppers rest = true := by
        rcases h.1 with h1 | h1
        · simp at h1
        · exact h1
      have hup : startsWithUpper (underscoreBeforeUpper rest) = true := by
        cases rest with
        | nil => simp [startsWithTwoUppers] at h2
        | cons a rest =>
          cases rest with
          | nil => simp [startsWithTwoUppers] at h2
          | cons b rest =>
            simp only [startsWithTwoUppers, Bool.and_eq_true] at h2
            simp [underscoreBeforeUpper, startsWithLower, isLower_of_isUpper b h2.2,
              startsWithUpper, h2.1]
      simp [underscoreBeforeUpper, underscore_not_alphanum.1, underscoresFollowedBy, hup,
        hrest]
    · have hne : (c != '_') = true := by simpa using hc
      by_cases hcond : (c.isUpper && startsWithLower rest) = true
      · have hcu : c.isUpper = true := by
          simp only [Bool.and_eq_true] at hcond; exact hcond.1
        have hsl : startsWithLower rest = true := by
          simp only [Bool.and_eq_true] at hcond; exact hcond.2
        simp [underscoreBeforeUpper, hsl, underscoresFollowedBy, startsWithUpper, hcu, hne,
          hrest]
      · simp only [underscoreBeforeUpper, hcond]
        simp [underscoresFollowedBy, hne, hrest]

/-- Lower-casing a text of ASCII characters in which every `_` is followed by an
upper-case letter gives a text in which every `_` is followed by a character that is not
`_`. -/
theorem toLower_followed (l : List Char) (hascii : ∀ c, c ∈ l → c.toNat < 128)
    (h : underscoresFollowedBy startsWithUpper l = true) :
    underscoresFollowedBy startsWithoutUnderscore (l.map Char.toLower) = true := by
  induction l with
  | nil => rfl
  | cons c rest ih =>
    simp only [underscoresFollowedBy, Bool.and_eq_true, Bool.or_eq_true] at h
    have hrest := ih (fun x hx => hascii x (List.mem_cons_of_mem _ hx)) h.2
    have hc := toLower_ascii c (hascii c (List.mem_cons_self _ _))
    simp only [List.map_cons, underscoresFollowedBy, Bool.and_eq_true, Bool.or_eq_true, hrest,
      and_true]
    by_cases hcu : c = '_'
    · right
      rcases h.1 with h1 | h1
      · simp [hcu] at h1
      · cases rest with
        | nil => simp [startsWithUpper] at h1
        | cons a rest =>
          simp only [startsWithUpper] at h1
          have ha := toLower_ascii a
            (hascii a (List.mem_cons_of_mem _ (List.mem_cons_self _ _)))
          have hane : a ≠ '_' := by
            intro e; rw [e] at h1; exact absurd h1 (by decide)
          simp only [List.map_cons, startsWithoutUnderscore, bne_iff_ne, ne_eq]
          exact fun e => hane (ha.1.1 e)
    · left
      simp only [bne_iff_ne, ne_eq]
      exact fun e => hcu (hc.1.1 e)

/-- Trimming a leading `_` leaves a part of the text. -/
theorem mem_trimUnderscorePrefix (l : List Char) (x : Char)
    (h : x ∈ trimUnderscorePrefix l) : x ∈ l := by
  unfold trimUnderscorePrefix at h
  split at h
  · exact List.mem_cons_of_mem _ h
  · exact h

/-- A text in which every `_` is followed by a character that is not `_` has no trailing
and no doubled `_`, and once a leading `_` is trimmed it has no leading `_` either. -/
theorem followed_no_bad_underscore (r : List Char)
    (h : underscoresFollowedBy startsWithoutUnderscore r = true) :
    (trimUnderscorePrefix r).head? ≠ some '_'
      ∧ (trimUnderscorePrefix r).getLast? ≠ some '_'
      ∧ ¬ ['_', '_'] <:+: trimUnderscorePrefix r := by
  have hlast : ∀ l : List Char, underscoresFollowedBy startsWithoutUnderscore l = true →
      l.getLast? ≠ some '_' := by
    intro l
    induction l with
    | nil => intro _; simp
    | cons c rest ih =>
      intro hl
      simp only [underscoresFollowedBy, Bool.and_eq_true, Bool.or_eq_true] at hl
      cases rest with
      | nil =>
        rcases hl.1 with h1 | h1
        · simpa using h1
        · simp [startsWithoutUnderscore] at h1
      | cons b rest =>
        rw [List.getLast?_cons_cons]
        exact ih hl.2
  have hdouble : ∀ l : List Char, underscoresFollowedBy startsWithoutUnderscore l = true →
      ¬ ['_', '_'] <:+: l := by
    intro l
    induction l with
    | nil => intro _ hin; simp at hin
    | cons c rest ih =>
      intro hl hin
      simp only [underscoresFollowedBy, Bool.and_eq_true, Bool.or_eq_true] at hl
      rcases List.infix_cons_iff.1 hin with hpre | hrest
      · cases rest with
        | nil => simp at hpre
        | cons b rest =>
          rw [List.cons_prefix_cons] at hpre
          obtain ⟨hc, hb⟩ := hpre
          rw [List.cons_prefix_cons] at hb
          rcases hl.1 with h1 | h1
          · simp [← hc] at h1
          · simp [startsWithoutUnderscore, ← hb.1] at h1
      · exact ih hl.2 hrest
  have htrim : underscoresFollowedBy startsWithoutUnderscore (trimUnderscorePrefix r) = true
      ∧ (trimUnderscorePrefix r).head? ≠ some '_' := by
    cases r with
    | nil => exact ⟨rfl, by simp [trimUnderscorePrefix]⟩
    | cons c rest =>
      simp only [underscoresFollowedBy, Bool.and_eq_true, Bool.or_eq_true] at h
      by_cases hc : c = '_'
      · subst hc
        have hs : startsWithoutUnderscore rest = true := by
          rcases h.1 with h1 | h1
          · simp at h1
          · exact h1
        refine ⟨h.2, ?_⟩
        cases rest with
        | nil => simp [trimUnderscorePrefix]
        | cons b rest =>
          simp only [startsWithoutUnderscore, bne_iff_ne, ne_eq] at hs
          simpa [trimUnderscorePrefix] using hs
      · have heq : trimUnderscorePrefix (c :: rest) = c :: rest := by
          unfold trimUnderscorePrefix
          split
          · rename_i heq2
            exact absurd (List.cons.inj heq2).1 hc
          · rfl
        rw [heq]
        refine ⟨?_, by simpa using hc⟩
        simp only [underscoresFollowedBy, Bool.and_eq_true, Bool.or_eq_true]
        exact h
  exact ⟨htrim.2, hlast _ htrim.1, hdouble _ htrim.1⟩

/-- On a text of ASCII characters `strings.ToLower` reads no case table: it lower-cases
the letters `A` to `Z`. -/
theorem map_unicodeToLower_ascii (caseTable : Char → Char) (l : List Char)
    (h : ∀ c, c ∈ l → c.toNat < 128) :
    l.map (unicodeToLower caseTable) = l.map Char.toLower := by
  apply List.map_congr_left
  intro c hc
  simp [unicodeToLower, h c hc]

/-- The characters of `toSnakeCase(name, "")`. -/
theorem toSnakeCase_data (caseTable : Char → Char) (name : String) :
    (toSnakeCase caseTable name "").data
      = trimUnderscorePrefix
          ((underscoreBeforeUpper (underscoreAfterLower name.data)).map
            (unicodeToLower caseTable)) := by
  simp [toSnakeCase, stringsToLower, replaceAll_lower_uppers, replaceAll_upper_lower]

/-- C20: for every name made of ASCII letters and digits only, and so for every non-empty
one, `toSnakeCase(name, "")` is all lower case with underscores: it has no upper-case
letter, only lower-case letters, digits and `_`, and no leading, trailing or doubled
`_`. -/
theorem toSnakeCase_isSnakeCase (caseTable : Char → Char) (name : String)
    (halnum : ∀ c, c ∈ name.data → c.isAlphanum = true) :
    isSnakeCase (toSnakeCase caseTable name "").data := by
  have hne : ∀ c, c ∈ name.data → c ≠ '_' := by
    intro c hc e
    have := halnum c hc
    rw [e] at this
    exact absurd this (by decide)
  have hmem : ∀ x, x ∈ underscoreBeforeUpper (underscoreAfterLower name.data) →
      x.isAlphanum = true ∨ x = '_' := by
    intro x hx
    rcases mem_underscoreBeforeUpper _ x hx with h | h
    · rcases mem_underscoreAfterLower _ x h with h | h
      · exact Or.inl (halnum x h)
      · exact Or.inr h
    · exact Or.inr h
  have hascii : ∀ x, x ∈ underscoreBeforeUpper (underscoreAfterLower name.data) →
      x.toNat < 128 := fun x hx => ascii_of_alphanum x (hmem x hx)
  have hfollowed := toLower_followed _ hascii
    (underscoreBeforeUpper_followed _ (underscoreAfterLower_followed name.data hne))
  have hclass : ∀ c, c ∈ (toSnakeCase caseTable name "").data →
      c.isLower = true ∨ c.isDigit = true ∨ c = '_' := by
    intro c hc
    rw [toSnakeCase_data, map_unicodeToLower_ascii caseTable _ hascii] at hc
    obtain ⟨x, hx, hxc⟩ := List.mem_map.1 (mem_trimUnderscorePrefix _ c hc)
    have hlow := toLower_ascii x (hascii x hx)
    rcases hmem x hx with h | h
    · cases hu : x.isUpper with
      | true => left; rw [← hxc]; exact hlow.2.1 hu
      | false =>
        rw [← hxc, hlow.2.2 hu]
        rcases (isAlphanum_iff x).1 h with h1 | h1 | h1
        · rw [hu] at h1; exact Bool.noConfusion h1
        · exact Or.inl h1
        · exact Or.inr (Or.inl h1)
    · right; right
      rw [← hxc, h]
      decide
  refine ⟨?_, hclass, ?_⟩
  · intro c hc
    rcases hclass c hc with h | h | h
    · exact isUpper_of_isLower c h
    · cases hu : c.isUpper with
      | false => rfl
      | true =>
        have h1 := (isUpper_iff c).1 hu
        have h2 := (isDigit_iff c).1 h
        omega
    · rw [h]; decide
  · rw [toSnakeCase_data, map_unicodeToLower_ascii caseTable _ hascii]
    exact followed_no_bad_underscore _ hfollowed

/-- C20, at the input of the error messages: `toSnakeCase("DBInstance", "")` is
`db_instance`, and it is all lower case with underscores. -/
theorem toSnakeCase_isSnakeCase_witness :
    toSnakeCase sampleCaseTable "DBInstance" "" = "db_instance"
      ∧ isSnakeCase (toSnakeCase sampleCaseTable "DBInstance" "").data :=
  ⟨by decide, toSnakeCase_isSnakeCase sampleCaseTable "DBInstance" (by decide)⟩

/-! ## The lookup of a lifecycle hook -/

/-- The hook that the loop of `getLifecycleHook` returns is the first entry of the
response that is a hook with the name asked for: the entries before it are nil or hooks of
another name. -/
theorem findLifecycleHook_some_first (name : String) (hooks : List (Option LifecycleHook))
    (hook : LifecycleHook) (h : findLifecycleHook name hooks = some hook) :
    ∃ before after, hooks = before ++ some hook :: after
      ∧ (∀ other, some other ∈ before → StringValue other.LifecycleHookName ≠ name)
      ∧ StringValue hook.LifecycleHookName = name := by
  induction hooks with
  | nil => simp [findLifecycleHook] at h
  | cons sp rest ih =>
    cases sp with
    | none =>
      obtain ⟨before, after, hsplit, hbefore, hname⟩ :=
        ih (by simpa [findLifecycleHook] using h)
      refine ⟨none :: before, after, by rw [hsplit]; rfl, ?_, hname⟩
      intro other hmem
      rcases List.mem_cons.1 hmem with h1 | h1
      · exact Option.noConfusion h1
      · exact hbefore other h1
    | some first =>
      by_cases hfirst : StringValue first.LifecycleHookName = name
      · have : first = hook := by simpa [findLifecycleHook, hfirst] using h
        subst this
        exact ⟨[], rest, rfl, fun other hmem => by simp at hmem, hfirst⟩
      · obtain ⟨before, after, hsplit, hbefore, hname⟩ :=
          ih (by simpa [findLifecycleHook, hfirst] using h)
        refine ⟨some first :: before, after, by rw [hsplit]; rfl, ?_, hname⟩
        intro other hmem
        rcases List.mem_cons.1 hmem with h1 | h1
        · rw [Option.some.inj h1]; exact hfirst
        · exact hbefore other h1

/-- C21: when `DescribeLifecycleHooks` succeeds, `getLifecycleHook` returns without a
panic and without an error; it returns (nil, nil) if and only if no non-nil hook of the
response has the requested name, and otherwise the first non-nil hook in the order of the
response whose name is the requested name, the entries before it being nil or hooks of
another name. When the describe call fails it returns no hook and a non-nil error, which
wraps the error of the call. -/
theorem getLifecycleHook_result (d : HookData) (conn : AutoScalingConn) :
    (∀ resp, conn.DescribeLifecycleHooks (describeLifecycleHooksParams d) = (some resp, none) →
        getLifecycleHook d conn
            = Run.done ((matchingHooks d.name resp.LifecycleHooks).head?, none)
          ∧ (getLifecycleHook d conn = Run.done (none, none)
              ↔ ∀ hook, some hook ∈ resp.LifecycleHooks →
                  StringValue hook.LifecycleHookName ≠ d.name)
          ∧ (∀ hook, getLifecycleHook d conn = Run.done (some hook, none) →
              ∃ before after, resp.LifecycleHooks = before ++ some hook :: after
                ∧ (∀ other, some other ∈ before →
                    StringValue other.LifecycleHookName ≠ d.name)
                ∧ StringValue hook.LifecycleHookName = d.name))
      ∧ (∀ output err,
        conn.DescribeLifecycleHooks (describeLifecycleHooksParams d) = (output, some err) →
        getLifecycleHook d conn
          = Run.done (none, some (GoError.wrapf "Error retrieving lifecycle hooks" err))) := by
  constructor
  · intro resp hcall
    have hres : getLifecycleHook d conn
        = Run.done (findLifecycleHook d.name resp.LifecycleHooks, none) := by
      simp [getLifecycleHook, hcall]
    refine ⟨by rw [hres, findLifecycleHook_eq_head], ?_, ?_⟩
    · rw [hres, ← findLifecycleHook_eq_none]
      simp
    · intro hook hhook
      rw [hres] at hhook
      have hfind : findLifecycleHook d.name resp.LifecycleHooks = some hook := by
        simpa using hhook
      exact findLifecycleHook_some_first d.name resp.LifecycleHooks hook hfind
  · intro output err hcall
    simp [getLifecycleHook, hcall]

/-- C21, at an input: the response holds a nil entry, a hook of another name and two hooks
of the requested name; the first of the two is returned. -/
theorem getLifecycleHook_result_witness :
    getLifecycleHook (sampleHookData false)
        (sampleDescribeConn [none, some { LifecycleHookName := some "other" },
          some (sampleHook "CONTINUE"), some (sampleHook "ABANDON")])
      = Run.done (some (sampleHook "CONTINUE"), none) :=
  ((getLifecycleHook_result (sampleHookData false)
    (sampleDescribeConn [none, some { LifecycleHookName := some "other" },
      some (sampleHook "CONTINUE"), some (sampleHook "ABANDON")])).1
    { LifecycleHooks := [none, some { LifecycleHookName := some "other" },
      some (sampleHook "CONTINUE"), some (sampleHook "ABANDON")] } rfl).1.trans (by decide)

/-! ## The classification of the failures of `PutLifecycleHook` -/

/-- The characters `sub` occur as a block in a list exactly when they are an infix of
it. -/
theorem containsChars_iff_infix (sub l : List Char) :
    containsChars sub l = true ↔ sub <:+: l := by
  induction l with
  | nil => simp [containsChars, List.isPrefixOf_iff_prefix]
  | cons c cs ih =>
    rw [containsChars, Bool.or_eq_true, List.isPrefixOf_iff_prefix, ih, List.infix_cons_iff]

/-- C23: the classification in `resourceLifecycleHookPutOp` is total and exclusive: a
failure of `PutLifecycleHook` is retryable if and only if it is itself an `awserr.Error`
whose message contains "Unable to publish test message to notification target", and the
closure then asks for a retry; every other failure is terminal, and the closure then stops
the loop; a success is neither, and the closure returns nil. -/
theorem put_failure_classification (conn : AutoScalingConn) (params : PutLifecycleHookInput)
    (calls : Nat) :
    (∀ err, conn.PutLifecycleHook calls params = some err →
        (retryablePutFailure err = true
            ↔ ∃ code message, err = GoError.aws code message
                ∧ retryableMessage.data <:+: message.data)
          ∧ (retryablePutFailure err = true →
              putLifecycleHookAttempt conn params calls = (calls + 1, some
                (RetryError.retryable
                  (GoError.wrapf "Retrying AWS AutoScaling Lifecycle Hook" err))))
          ∧ (retryablePutFailure err = false →
              putLifecycleHookAttempt conn params calls = (calls + 1, some
                (RetryError.nonRetryable (GoError.wrapf "Error putting lifecycle hook" err)))))
      ∧ (conn.PutLifecycleHook calls params = none →
          putLifecycleHookAttempt conn params calls = (calls + 1, none)
            ∧ failsRetryable (conn.PutLifecycleHook calls params) = false
            ∧ failsTerminal (conn.PutLifecycleHook calls params) = false) := by
  constructor
  · intro err hput
    refine ⟨?_, ?_, ?_⟩
    · cases err with
      | aws code message =>
        simp only [retryablePutFailure, stringsContains, containsChars_iff_infix]
        constructor
        · intro h; exact ⟨code, message, rfl, h⟩
        · rintro ⟨c, m, heq, h⟩
          cases heq
          exact h
      | _ => simp [retryablePutFailure]
    · intro h
      simp [putLifecycleHookAttempt, hput, h]
    · intro h
      simp [putLifecycleHookAttempt, hput, h]
  · intro hput
    simp [putLifecycleHookAttempt, hput, failsRetryable, failsTerminal]

/-- C23, at inputs: the notification target failure is retryable, an access denial is
terminal, and so is the notification target failure once it is wrapped in another
error. -/
theorem put_failure_classification_witness :
    putLifecycleHookAttempt (sampleConn 1 none) samplePutParams 0
        = (1, some (RetryError.retryable
            (GoError.wrapf "Retrying AWS AutoScaling Lifecycle Hook" sampleTargetFailure)))
      ∧ putLifecycleHookAttempt (sampleConn 0 (some sampleDenied)) samplePutParams 0
        = (1, some (RetryError.nonRetryable
            (GoError.wrapf "Error putting lifecycle hook" sampleDenied)))
      ∧ putLifecycleHookAttempt
          (sampleConn 0 (some (GoError.wrapf "request failed" sampleTargetFailure)))
          samplePutParams 0
        = (1, some (RetryError.nonRetryable
            (GoError.wrapf "Error putting lifecycle hook"
              (GoError.wrapf "request failed" sampleTargetFailure)))) :=
  ⟨((put_failure_classification (sampleConn 1 none) samplePutParams 0).1
      sampleTargetFailure rfl).2.1 (by decide),
   ((put_failure_classification (sampleConn 0 (some sampleDenied)) samplePutParams 0).1
      sampleDenied rfl).2.2 (by decide),
   ((put_failure_classification
      (sampleConn 0 (some (GoError.wrapf "request failed" sampleTargetFailure)))
      samplePutParams 0).1
      (GoError.wrapf "request failed" sampleTargetFailure) rfl).2.2 (by decide)⟩

/-! ## The lookup of a Redshift cluster -/

/-- C24: `FindClusterByID` returns a non-nil cluster with a nil error if and only if
`DescribeClusters` returned no error and a non-nil output with exactly one record, which
is not nil; the cluster returned is then that record. In every other case it returns a nil
cluster and a non-nil error: the not-found error that holds the remote error for the code
`ClusterNotFoundFault`, the remote error itself for another failure, the empty-result
error for a nil output, for no record and for a nil first record, and the
too-many-results error for more records after a first one that is not nil. It never
returns (nil, nil). -/
theorem FindClusterByID_result (conn : RedshiftConn) (id : String) :
    (∀ cluster, FindClusterByID conn id = (some cluster, none)
        ↔ conn.DescribeClusters { ClusterIdentifier := some id }
            = (some { Clusters := [some cluster] }, none))
      ∧ ((FindClusterByID conn id).1 ≠ none →
          ∃ cluster, FindClusterByID conn id = (some cluster, none))
      ∧ ((∀ cluster, conn.DescribeClusters { ClusterIdentifier := some id }
            ≠ (some { Clusters := [some cluster] }, none)) →
          (FindClusterByID conn id).1 = none ∧ (FindClusterByID conn id).2 ≠ none)
      ∧ (∀ output err, conn.DescribeClusters { ClusterIdentifier := some id }
            = (output, some err) →
          FindClusterByID conn id
            = (none, some (if ErrCodeEquals (some err) ErrCodeClusterNotFoundFault
                then GoError.notFound err else err)))
      ∧ (∀ output, conn.DescribeClusters { ClusterIdentifier := some id } = (output, none) →
          (output = none ∨ (∃ rest, output = some { Clusters := none :: rest })
              ∨ output = some { Clusters := [] }) →
          FindClusterByID conn id = (none, some GoError.emptyResult))
      ∧ FindClusterByID conn id ≠ (none, none) := by
  cases hcall : conn.DescribeClusters { ClusterIdentifier := some id } with
  | mk output err =>
    cases err with
    | some e =>
      by_cases hcode : ErrCodeEquals (some e) ErrCodeClusterNotFoundFault = true
      · simp [FindClusterByID, hcall, hcode]
      · simp [FindClusterByID, hcall, hcode]
    | none =>
      cases output with
      | none => simp [FindClusterByID, hcall]
      | some out =>
        obtain ⟨records⟩ := out
        cases records with
        | nil => simp [FindClusterByID, hcall]
        | cons first rest =>
          cases first with
          | none => simp [FindClusterByID, hcall]
          | some c =>
            cases rest with
            | nil => simp [FindClusterByID, hcall]
            | cons second rest => simp [FindClusterByID, hcall]

/-- C24, at inputs: one record is returned; no record gives the empty-result error. -/
theorem FindClusterByID_result_witness :
    FindClusterByID (sampleRedshiftConn [some (sampleCluster "c")] []) "c"
        = (some (sampleCluster "c"), none)
      ∧ FindClusterByID (sampleRedshiftConn [] []) "c" = (none, some GoError.emptyResult) :=
  ⟨((FindClusterByID_result (sampleRedshiftConn [some (sampleCluster "c")] []) "c").1
      (sampleCluster "c")).2 rfl,
   (FindClusterByID_result (sampleRedshiftConn [] []) "c").2.2.2.2.1
      (some { Clusters := [] }) rfl (Or.inr (Or.inr rfl))⟩

/-! ## The update of an OpsWorks RDS DB instance -/

/-- The update callback when `db_user` or `db_password` has changed. -/
theorem rdsUpdate_changed (prior d : RDSData) (client : OpsWorksConn)
    (h : prior.db_user ≠ d.db_user ∨ prior.db_password ≠ d.db_password) :
    resourceRDSDBInstanceUpdate prior d client
      = match client.UpdateRdsDbInstance (updateRdsDbInstanceReq prior d) with
        | some err =>
          { calls := [RDSCall.update (updateRdsDbInstanceReq prior d)]
            outcome := Run.done (d, some
              (GoError.errorf "Error updating Opsworks RDS DB instance" err)) }
        | none =>
          { calls := [RDSCall.update (updateRdsDbInstanceReq prior d), rdsReadCall d]
            outcome := resourceRDSDBInstanceRead d client } := by
  have hor : (decide (prior.db_user ≠ d.db_user)
      || decide (prior.db_password ≠ d.db_password)) = true := by simpa using h
  simp only [resourceRDSDBInstanceUpdate, hor, if_true]

/-- The update callback when neither `db_user` nor `db_password` has changed. -/
theorem rdsUpdate_unchanged (prior d : RDSData) (client : OpsWorksConn)
    (h : ¬ (prior.db_user ≠ d.db_user ∨ prior.db_password ≠ d.db_password)) :
    resourceRDSDBInstanceUpdate prior d client
      = { calls := [rdsReadCall d], outcome := resourceRDSDBInstanceRead d client } := by
  have hor : (decide (prior.db_user ≠ d.db_user)
      || decide (prior.db_password ≠ d.db_password)) = false := by
    simp only [not_or, not_not, ne_eq] at h
    simp [h.1, h.2]
  simp only [resourceRDSDBInstanceUpdate, hor]
  rfl

/-- C25: `resourceRDSDBInstanceUpdate` invokes `UpdateRdsDbInstance` if and only if
`db_user` or `db_password` has changed; the request carries the `rds_db_instance_arn` of
the state as `RdsDbInstanceArn`, carries `DbUser` if and only if `db_user` changed and
`DbPassword` if and only if `db_password` changed; and when the remote call fails the
callback returns an error after this one call, without the describe call of the
refresh. -/
theorem rdsUpdate_request (prior d : RDSData) (client : OpsWorksConn) :
    ((∃ input, RDSCall.update input ∈ (resourceRDSDBInstanceUpdate prior d client).calls)
        ↔ prior.db_user ≠ d.db_user ∨ prior.db_password ≠ d.db_password)
      ∧ (∀ input, RDSCall.update input ∈ (resourceRDSDBInstanceUpdate prior d client).calls →
          input.RdsDbInstanceArn = some d.rds_db_instance_arn
            ∧ (input.DbUser = some d.db_user ↔ prior.db_user ≠ d.db_user)
            ∧ (input.DbUser = none ↔ prior.db_user = d.db_user)
            ∧ (input.DbPassword = some d.db_password ↔ prior.db_password ≠ d.db_password)
            ∧ (input.DbPassword = none ↔ prior.db_password = d.db_password))
      ∧ (∀ err, prior.db_user ≠ d.db_user ∨ prior.db_password ≠ d.db_password →
          client.UpdateRdsDbInstance (updateRdsDbInstanceReq prior d) = some err →
          resourceRDSDBInstanceUpdate prior d client
            = { calls := [RDSCall.update (updateRdsDbInstanceReq prior d)]
                outcome := Run.done (d, some
                  (GoError.errorf "Error updating Opsworks RDS DB instance" err)) }) := by
  have hreq : ∀ input, RDSCall.update input ∈ (resourceRDSDBInstanceUpdate prior d client).calls →
      input = updateRdsDbInstanceReq prior d
        ∧ (prior.db_user ≠ d.db_user ∨ prior.db_password ≠ d.db_password) := by
    intro input hmem
    by_cases hchange : prior.db_user ≠ d.db_user ∨ prior.db_password ≠ d.db_password
    · rw [rdsUpdate_changed prior d client hchange] at hmem
      cases hupd : client.UpdateRdsDbInstance (updateRdsDbInstanceReq prior d) <;>
        simp [hupd, rdsReadCall] at hmem <;>
        exact ⟨hmem, hchange⟩
    · rw [rdsUpdate_unchanged prior d client hchange] at hmem
      simp [rdsReadCall] at hmem
  refine ⟨⟨?_, ?_⟩, ?_, ?_⟩
  · rintro ⟨input, hmem⟩
    exact (hreq input hmem).2
  · intro hchange
    refine ⟨updateRdsDbInstanceReq prior d, ?_⟩
    rw [rdsUpdate_changed prior d client hchange]
    cases hupd : client.UpdateRdsDbInstance (updateRdsDbInstanceReq prior d) <;> simp
  · intro input hmem
    rw [(hreq input hmem).1]
    refine ⟨rfl, ?_, ?_, ?_, ?_⟩
    · by_cases h : prior.db_user = d.db_user <;> simp [updateRdsDbInstanceReq, h]
    · by_cases h : prior.db_user = d.db_user <;> simp [updateRdsDbInstanceReq, h]
    · by_cases h : prior.db_password = d.db_password <;> simp [updateRdsDbInstanceReq, h]
    · by_cases h : prior.db_password = d.db_password <;> simp [updateRdsDbInstanceReq, h]
  · intro err hchange hupd
    rw [rdsUpdate_changed prior d client hchange, hupd]

/-- C25, at an input: the user changes from `admin` to `root`, the password stays; the
request carries the ARN and the new user, no password, and as the call is refused the
callback returns the error after this one call. -/
theorem rdsUpdate_request_witness :
    resourceRDSDBInstanceUpdate sampleRDSData { sampleRDSData with db_user := "root" }
        sampleOpsWorksUpdateRefused
      = { calls := [RDSCall.update
            { RdsDbInstanceArn := some "arn:db-1", DbUser := some "root", DbPassword := none }]
          outcome := Run.done ({ sampleRDSData with db_user := "root" }, some
            (GoError.errorf "Error updating Opsworks RDS DB instance" sampleThrottled)) } :=
  (rdsUpdate_request sampleRDSData { sampleRDSData with db_user := "root" }
    sampleOpsWorksUpdateRefused).2.2 sampleThrottled (Or.inl (by decide)) rfl

/-! ## What the read of an OpsWorks RDS DB instance writes -/

/-- Texts with the same ending are equal exactly when their beginnings are. -/
theorem String_append_right_cancel (a b s : String) : a ++ s = b ++ s ↔ a = b := by
  constructor
  · intro h
    have hd := congrArg String.data h
    simp only [String.data_append] at hd
    exact String.ext (List.append_cancel_right hd)
  · intro h; rw [h]

/-- The loop of `resourceRDSDBInstanceRead` never writes the password. -/
theorem readRdsDbInstances_password (instances : List (Option RdsDbInstance)) :
    ∀ (found : Bool) (d : RDSData) (found1 : Bool) (d1 : RDSData),
    readRdsDbInstances instances (found, d) = Run.done (found1, d1) →
    d1.db_password = d.db_password := by
  induction instances with
  | nil =>
    intro found d found1 d1 h
    simp only [readRdsDbInstances, Run.done.injEq, Prod.mk.injEq] at h
    rw [← h.2]
  | cons entry rest ih =>
    intro found d found1 d1 h
    cases entry with
    | none => simp [readRdsDbInstances] at h
    | some inst =>
      cases harn : inst.RdsDbInstanceArn with
      | none => simp [readRdsDbInstances, harn] at h
      | some arn =>
        cases hstack : inst.StackId with
        | none => simp [readRdsDbInstances, harn, hstack] at h
        | some stack =>
          rw [readRdsDbInstances] at h
          simp only [harn, hstack] at h
          split at h
          · have hpw := ih _ _ _ _ h
            exact hpw
          · exact ih found d found1 d1 h

/-- The loop of `resourceRDSDBInstanceRead` over instances of the stack of the resource
data: `found` becomes true exactly when an instance has the ARN of the resource data; the
ARN, the stack ID and the password stay; after a match the ID is
`rds_db_instance_arn ++ stack_id` and the user is the one of an instance with that ARN;
without a match nothing changes. -/
theorem readRdsDbInstances_same_stack (instances : List (Option RdsDbInstance)) :
    ∀ (found : Bool) (d : RDSData),
    (∀ entry, entry ∈ instances →
      ∃ inst arn, entry = some inst ∧ inst.RdsDbInstanceArn = some arn
        ∧ inst.StackId = some d.stack_id) →
    ∃ d1, readRdsDbInstances instances (found, d)
        = Run.done (found || instances.any
            (fun entry => entryArn entry == some d.rds_db_instance_arn), d1)
      ∧ d1.rds_db_instance_arn = d.rds_db_instance_arn ∧ d1.stack_id = d.stack_id
      ∧ (instances.any (fun entry => entryArn entry == some d.rds_db_instance_arn) = false →
          d1 = d)
      ∧ (instances.any (fun entry => entryArn entry == some d.rds_db_instance_arn) = true →
          d1.id = d.rds_db_instance_arn ++ d.stack_id
            ∧ ∃ inst, some inst ∈ instances
                ∧ inst.RdsDbInstanceArn = some d.rds_db_instance_arn
                ∧ d1.db_user = StringValue inst.DbUser) := by
  induction instances with
  | nil =>
    intro found d _
    exact ⟨d, by simp [readRdsDbInstances], rfl, rfl, fun _ => rfl, by simp⟩
  | cons entry rest ih =>
    intro found d hall
    obtain ⟨inst, arn, hentry, harn, hstack⟩ := hall entry (List.mem_cons_self _ _)
    subst hentry
    have hrest : ∀ e, e ∈ rest → ∃ i a, e = some i ∧ i.RdsDbInstanceArn = some a
        ∧ i.StackId = some d.stack_id := fun e he => hall e (List.mem_cons_of_mem _ he)
    have hentryArn : entryArn (some inst) = some arn := harn
    by_cases hmatch : d.rds_db_instance_arn = arn
    · subst hmatch
      obtain ⟨d1, hrun, h1, h2, hnone, hany⟩ := ih true
        { d with
            id := d.rds_db_instance_arn ++ d.stack_id
            stack_id := StringValue inst.StackId
            rds_db_instance_arn := StringValue inst.RdsDbInstanceArn
            db_user := StringValue inst.DbUser }
        (by
          intro e he
          simpa [StringValue, hstack] using hrest e he)
      simp only [StringValue, harn, hstack, Option.getD_some] at hrun h1 h2 hnone hany
      refine ⟨d1, ?_, h1, h2, ?_, ?_⟩
      · rw [readRdsDbInstances]
        simp only [harn, hstack, beq_self_eq_true, if_true, StringValue, Option.getD_some]
        rw [hrun]
        simp [List.any_cons, hentryArn]
      · intro hfalse
        simp [List.any_cons, hentryArn] at hfalse
      · intro _
        cases hr : rest.any (fun e => entryArn e == some d.rds_db_instance_arn) with
        | true =>
          obtain ⟨hid, i, hi, hia, hiu⟩ := hany hr
          exact ⟨hid, i, List.mem_cons_of_mem _ hi, hia, hiu⟩
        | false =>
          rw [hnone hr]
          exact ⟨rfl, inst, List.mem_cons_self _ _, harn, by simp [StringValue]⟩
    · obtain ⟨d1, hrun, h1, h2, hnone, hany⟩ := ih found d hrest
      have hne : (entryArn (some inst) == some d.rds_db_instance_arn) = false := by
        rw [hentryArn]
        simp only [beq_eq_false_iff_ne, ne_eq, Option.some.injEq]
        exact fun e => hmatch e.symm
      have hcond : ¬ (d.rds_db_instance_arn ++ d.stack_id = arn ++ d.stack_id) :=
        fun e => hmatch ((String_append_right_cancel _ _ _).1 e)
      refine ⟨d1, ?_, h1, h2, ?_, ?_⟩
      · rw [readRdsDbInstances]
        simp only [harn, hstack]
        rw [if_neg (by simpa using hcond), hrun]
        simp [List.any_cons, hne]
      · intro h
        rw [List.any_cons, hne, Bool.false_or] at h
        exact hnone h
      · intro h
        rw [List.any_cons, hne, Bool.false_or] at h
        obtain ⟨hid, i, hi, hia, hiu⟩ := hany h
        exact ⟨hid, i, List.mem_cons_of_mem _ hi, hia, hiu⟩

/-- C26: in `resourceRDSDBInstanceRead`, when every instance of the describe response has
the stack ID of the state, an instance is taken as the match (its ARN ++ StackId equals
the `rds_db_instance_arn ++ stack_id` of the state) if and only if its ARN equals the
`rds_db_instance_arn` of the state. So the read keeps the ARN and the stack ID of the
state; with an instance of that ARN it sets the ID and takes the user of such an instance,
and without one it only empties the ID. -/
theorem rdsRead_match_is_same_arn (d : RDSData) (client : OpsWorksConn)
    (resp : DescribeRdsDbInstancesOutput)
    (hcall : client.DescribeRdsDbInstances { StackId := some d.stack_id } = (some resp, none))
    (hstack : allOfStack d resp) :
    (∀ entry, entry ∈ resp.RdsDbInstances →
        (instanceKey entry = some (d.rds_db_instance_arn ++ d.stack_id)
          ↔ entryArn entry = some d.rds_db_instance_arn))
      ∧ ∃ d1, resourceRDSDBInstanceRead d client = Run.done (d1, none)
          ∧ d1.rds_db_instance_arn = d.rds_db_instance_arn ∧ d1.stack_id = d.stack_id
          ∧ ((∃ entry, entry ∈ resp.RdsDbInstances
                ∧ entryArn entry = some d.rds_db_instance_arn) →
              d1.id = d.rds_db_instance_arn ++ d.stack_id
                ∧ ∃ inst, some inst ∈ resp.RdsDbInstances
                    ∧ inst.RdsDbInstanceArn = some d.rds_db_instance_arn
                    ∧ d1.db_user = StringValue inst.DbUser)
          ∧ ((∀ entry, entry ∈ resp.RdsDbInstances →
                entryArn entry ≠ some d.rds_db_instance_arn) →
              d1 = { d with id := "" }) := by
  constructor
  · intro entry hmem
    obtain ⟨inst, arn, hentry, harn, hst⟩ := hstack entry hmem
    subst hentry
    simp only [instanceKey, entryArn, harn, hst, Option.some.injEq]
    rw [String_append_right_cancel]
  · obtain ⟨d1, hrun, h1, h2, hnone, hany⟩ :=
      readRdsDbInstances_same_stack resp.RdsDbInstances false d hstack
    cases hfound : resp.RdsDbInstances.any
        (fun entry => entryArn entry == some d.rds_db_instance_arn) with
    | true =>
      refine ⟨d1, ?_, h1, h2, fun _ => hany hfound, ?_⟩
      · simp [resourceRDSDBInstanceRead, hcall, hrun, hfound]
      · intro hno
        obtain ⟨entry, hmem, hbeq⟩ := List.any_eq_true.1 hfound
        exact absurd (by simpa using hbeq) (hno entry hmem)
    | false =>
      refine ⟨{ d with id := "" }, ?_, rfl, rfl, ?_, fun _ => rfl⟩
      · simp [resourceRDSDBInstanceRead, hcall, hrun, hfound, hnone hfound]
      · rintro ⟨entry, hmem, harn⟩
        have : resp.RdsDbInstances.any
            (fun entry => entryArn entry == some d.rds_db_instance_arn) = true :=
          List.any_eq_true.2 ⟨entry, hmem, by simp [harn]⟩
        rw [hfound] at this
        exact Bool.noConfusion this

/-- C26, at an input: the stack `stack-1` lists the instance `arn:db-1`, which the state
asks for, and the read keeps the ARN and the stack ID. -/
theorem rdsRead_match_is_same_arn_witness :
    ∃ d1, resourceRDSDBInstanceRead sampleRDSData
          (sampleOpsWorksConn (some { RdsDbInstances := [some sampleInstance] }) none)
        = Run.done (d1, none)
      ∧ d1.rds_db_instance_arn = "arn:db-1" ∧ d1.stack_id = "stack-1" :=
  have h := (rdsRead_match_is_same_arn sampleRDSData
    (sampleOpsWorksConn (some { RdsDbInstances := [some sampleInstance] }) none)
    { RdsDbInstances := [some sampleInstance] } rfl
    (fun entry hmem => by
      have hentry : entry = some sampleInstance := by simpa using hmem
      exact ⟨sampleInstance, "arn:db-1", hentry, rfl, rfl⟩)).2
  h.elim fun d1 hd => ⟨d1, hd.1, hd.2.1, hd.2.2.1⟩

/-- C27: `resourceRDSDBInstanceRead` leaves `db_password` as it was in every run that
returns. It returns on each of its paths: on the not-found error (only the ID is
emptied), on another error (nothing is written), and on a response whose entries all have
an ARN and a stack ID, with or without a match. -/
theorem rdsRead_keeps_password (d : RDSData) (client : OpsWorksConn) :
    (∀ d1 err, resourceRDSDBInstanceRead d client = Run.done (d1, err) →
        d1.db_password = d.db_password)
      ∧ (∀ output err, client.DescribeRdsDbInstances { StackId := some d.stack_id }
            = (output, some err) →
          ∃ d1 e, resourceRDSDBInstanceRead d client = Run.done (d1, e)
            ∧ d1.db_password = d.db_password)
      ∧ (∀ resp, client.DescribeRdsDbInstances { StackId := some d.stack_id }
            = (some resp, none) →
          (∀ entry, entry ∈ resp.RdsDbInstances → (instanceKey entry).isSome = true) →
          ∃ d1, resourceRDSDBInstanceRead d client = Run.done (d1, none)
            ∧ d1.db_password = d.db_password) := by
  have hall : ∀ d1 err, resourceRDSDBInstanceRead d client = Run.done (d1, err) →
      d1.db_password = d.db_password := by
    intro d1 err hout
    cases hcall : client.DescribeRdsDbInstances { StackId := some d.stack_id } with
    | mk output derr =>
      cases derr with
      | some e =>
        by_cases hcode : ErrCodeEquals (some e) ErrCodeResourceNotFoundException = true
        · simp [resourceRDSDBInstanceRead, hcall, hcode] at hout
          rw [← hout.1]
        · simp [resourceRDSDBInstanceRead, hcall, hcode] at hout
          rw [← hout.1]
      | none =>
        cases output with
        | none => simp [resourceRDSDBInstanceRead, hcall] at hout
        | some resp =>
          cases hrun : readRdsDbInstances resp.RdsDbInstances (false, d) with
          | nilDeref => simp [resourceRDSDBInstanceRead, hcall, hrun] at hout
          | done r =>
            obtain ⟨found1, d2⟩ := r
            have hpw := readRdsDbInstances_password _ _ _ _ _ hrun
            cases found1 with
            | true =>
              simp [resourceRDSDBInstanceRead, hcall, hrun] at hout
              rw [← hout.1, hpw]
            | false =>
              simp [resourceRDSDBInstanceRead, hcall, hrun] at hout
              rw [← hout.1]
              exact hpw
  refine ⟨hall, ?_, ?_⟩
  · intro output err hcall
    by_cases hcode : ErrCodeEquals (some err) ErrCodeResourceNotFoundException = true
    · exact ⟨{ d with id := "" }, none,
        by simp [resourceRDSDBInstanceRead, hcall, hcode], rfl⟩
    · exact ⟨d, some (GoError.wrapf
          ("while describing OpsWorks RDS DB Instance (" ++ d.stack_id ++ ")") err),
        by simp [resourceRDSDBInstanceRead, hcall, hcode], rfl⟩
  · intro resp hcall hwf
    obtain ⟨d1, hrun, _, hpw, _, _⟩ :=
      readRdsDbInstances_runs resp.RdsDbInstances false d hwf
    cases hany : resp.RdsDbInstances.any
        (fun entry => instanceKey entry == some (d.rds_db_instance_arn ++ d.stack_id)) with
    | true =>
      exact ⟨d1, by simp [resourceRDSDBInstanceRead, hcall, hrun, hany], hpw⟩
    | false =>
      exact ⟨{ d1 with id := "" }, by simp [resourceRDSDBInstanceRead, hcall, hrun, hany],
        hpw⟩

/-- C27, at an input: the read finds the instance with another user; the user is taken
over, the password `secret` stays. -/
theorem rdsRead_keeps_password_witness :
    ∃ d1, resourceRDSDBInstanceRead sampleRDSData
          (sampleOpsWorksConn
            (some { RdsDbInstances := [some { sampleInstance with DbUser := some "root" }] })
            none)
        = Run.done (d1, none)
      ∧ d1.db_password = "secret" :=
  (rdsRead_keeps_password sampleRDSData
    (sampleOpsWorksConn
      (some { RdsDbInstances := [some { sampleInstance with DbUser := some "root" }] })
      none)).2.2
    { RdsDbInstances := [some { sampleInstance with DbUser := some "root" }] } rfl
    (fun entry hmem => by
      have hentry : entry = some { sampleInstance with DbUser := some "root" } := by
        simpa using hmem
      subst hentry
      decide)

/-! ## The create request of a license configuration -/

/-- C28: in the `CreateLicenseConfiguration` request that
`resourceLicenseConfigurationCreate` builds and sends, `Name` and `LicenseCountingType`
are always present, and each optional field is present if and only if its configured
value is not the zero value: `Description` iff not empty, `LicenseCount` iff not 0,
`LicenseCountHardLimit` iff true (so that false is never sent), `LicenseRules` iff the
list is not empty, and `Tags` iff the merged set of tags is not empty. -/
theorem createLicenseConfigurationOpts_fields (d : LicenseData)
    (client : LicenseManagerClient) :
    (resourceLicenseConfigurationCreate d client).calls.head?
        = some (LicenseCall.create (createLicenseConfigurationOpts d client))
      ∧ (createLicenseConfigurationOpts d client).Name = some d.name
      ∧ (createLicenseConfigurationOpts d client).LicenseCountingType
        = some d.license_counting_type
      ∧ ((createLicenseConfigurationOpts d client).Description
          = if d.description ≠ "" then some d.description else none)
      ∧ ((createLicenseConfigurationOpts d client).Description.isSome = true
          ↔ d.description ≠ "")
      ∧ ((createLicenseConfigurationOpts d client).LicenseCount.isSome = true
          ↔ d.license_count ≠ 0)
      ∧ ((createLicenseConfigurationOpts d client).LicenseCountHardLimit.isSome = true
          ↔ d.license_count_hard_limit = true)
      ∧ (createLicenseConfigurationOpts d client).LicenseCountHardLimit ≠ some false
      ∧ ((createLicenseConfigurationOpts d client).LicenseRules.isSome = true
          ↔ d.license_rules ≠ [])
      ∧ ((createLicenseConfigurationOpts d client).Tags.isSome = true
          ↔ client.MergeTags d.tags ≠ []) := by
  refine ⟨?_, rfl, rfl, rfl, ?_, ?_, ?_, ?_, ?_, ?_⟩
  · simp only [resourceLicenseConfigurationCreate]
    split <;> rfl
  · by_cases h : d.description = "" <;> simp [createLicenseConfigurationOpts, h]
  · by_cases h : d.license_count = 0 <;> simp [createLicenseConfigurationOpts, h]
  · cases h : d.license_count_hard_limit <;> simp [createLicenseConfigurationOpts, h]
  · cases h : d.license_count_hard_limit <;> simp [createLicenseConfigurationOpts, h]
  · by_cases h : d.license_rules = [] <;> simp [createLicenseConfigurationOpts, h]
  · cases h : client.MergeTags d.tags <;> simp [createLicenseConfigurationOpts, h]

/-! ## Snake case only inserts underscores and lower-cases -/

/-- The first replacement changes nothing but underscores. -/
theorem withoutUnderscores_afterLower (w : List Char) :
    withoutUnderscores (underscoreAfterLower w) = withoutUnderscores w := by
  induction w with
  | nil => rfl
  | cons c rest ih =>
    rw [underscoreAfterLower]
    split
    · simp only [withoutUnderscores, List.filter_cons] at ih ⊢
      simp [ih]
    · simp only [withoutUnderscores, List.filter_cons] at ih ⊢
      simp [ih]

/-- The second replacement changes nothing but underscores. -/
theorem withoutUnderscores_beforeUpper (w : List Char) :
    withoutUnderscores (underscoreBeforeUpper w) = withoutUnderscores w := by
  induction w with
  | nil => rfl
  | cons c rest ih =>
    rw [underscoreBeforeUpper]
    split
    · simp only [withoutUnderscores, List.filter_cons] at ih ⊢
      simp [ih]
    · simp only [withoutUnderscores, List.filter_cons] at ih ⊢
      simp [ih]

/-- Trimming a leading `_` changes nothing but an underscore. -/
theorem withoutUnderscores_trim (l : List Char) :
    withoutUnderscores (trimUnderscorePrefix l) = withoutUnderscores l := by
  unfold trimUnderscorePrefix
  split
  · simp [withoutUnderscores]
  · rfl

/-- Lower-casing a text of ASCII characters and deleting the underscores can be done in
either order. -/
theorem withoutUnderscores_toLower (l : List Char) (h : ∀ c, c ∈ l → c.toNat < 128) :
    withoutUnderscores (l.map Char.toLower) = (withoutUnderscores l).map Char.toLower := by
  induction l with
  | nil => rfl
  | cons c rest ih =>
    have hrest := ih (fun x hx => h x (List.mem_cons_of_mem _ hx))
    have hc := (toLower_ascii c (h c (List.mem_cons_self _ _))).1
    simp only [withoutUnderscores, List.map_cons, List.filter_cons] at hrest ⊢
    by_cases hu : c = '_'
    · have : c.toLower = '_' := hc.2 hu
      simp [hu, this, hrest]
    · have : c.toLower ≠ '_' := fun e => hu (hc.1 e)
      simp [hu, this, hrest]

/-- C29: `toSnakeCase` only inserts underscores and lower-cases: for every name `u` of
ASCII characters, `toSnakeCase(u, "")` without its underscores is the lower-cased form of
`u` without its underscores; and for every snake name `s` that is not empty,
`toSnakeCase(u, s)` is `s`, whatever `u`. -/
theorem toSnakeCase_only_underscores (caseTable : Char → Char) (u s : String) :
    ((∀ c, c ∈ u.data → c.toNat < 128) →
        withoutUnderscores (toSnakeCase caseTable u "").data
          = withoutUnderscores (stringsToLower caseTable u).data)
      ∧ (s ≠ "" → toSnakeCase caseTable u s = s) := by
  constructor
  · intro hascii
    have hmem : ∀ x, x ∈ underscoreBeforeUpper (underscoreAfterLower u.data) →
        x.toNat < 128 := by
      intro x hx
      rcases mem_underscoreBeforeUpper _ x hx with h | h
      · rcases mem_underscoreAfterLower _ x h with h | h
        · exact hascii x h
        · rw [h, underscore_toNat]; omega
      · rw [h, underscore_toNat]; omega
    rw [toSnakeCase_data, map_unicodeToLower_ascii caseTable _ hmem, withoutUnderscores_trim,
      withoutUnderscores_toLower _ hmem, withoutUnderscores_beforeUpper,
      withoutUnderscores_afterLower]
    simp only [stringsToLower]
    rw [map_unicodeToLower_ascii caseTable _ hascii, withoutUnderscores_toLower _ hascii]
  · intro hs
    simp [toSnakeCase, hs]

/-- C29, at inputs: the name `my_VPCEndpoint`, with an underscore of its own, and the
snake name `vpc_endpoint` given for the name `VPCEndpoint`. -/
theorem toSnakeCase_only_underscores_witness :
    withoutUnderscores (toSnakeCase sampleCaseTable "my_VPCEndpoint" "").data
        = withoutUnderscores (stringsToLower sampleCaseTable "my_VPCEndpoint").data
      ∧ toSnakeCase sampleCaseTable "VPCEndpoint" "vpc_endpoint" = "vpc_endpoint" :=
  ⟨(toSnakeCase_only_underscores sampleCaseTable "my_VPCEndpoint" "").1 (by decide),
   (toSnakeCase_only_underscores sampleCaseTable "VPCEndpoint" "vpc_endpoint").2
     (by decide)⟩

/-! ## The status of a Connect instance -/

/-- C22, as stated, fails: for a describe call that succeeds with an output whose
`Instance` is nil, the refresh function yields no triple: it dereferences the nil
instance. -/
theorem statusInstance_nil_instance :
    (sampleConnectConn (some { Instance := none }) none).DescribeInstanceWithContext
        { InstanceId := some "i-1" } = (some { Instance := none }, none)
      ∧ statusInstance "ResourceNotFoundException"
          (sampleConnectConn (some { Instance := none }) none) "i-1" = Run.nilDeref := by
  decide

/-- C22, amended: the refresh function of `statusInstance` yields
(output, InstanceStatusStatusNotFound, nil) when the error code equals
`InstanceStatusStatusNotFound`; (nil, "", err) for every other non-nil error `err`, which
is returned as it is; and (output, output.Instance.InstanceStatus, nil) on success when
the output and its `Instance` are not nil. An error with the not-found code is never
among the values it returns. -/
theorem statusInstance_result (InstanceStatusStatusNotFound : String) (conn : ConnectConn)
    (instanceId : String) (output : Option DescribeInstanceOutput) (err : Option GoError)
    (hcall : conn.DescribeInstanceWithContext { InstanceId := some instanceId }
      = (output, err)) :
    (ErrCodeEquals err InstanceStatusStatusNotFound = true →
        statusInstance InstanceStatusStatusNotFound conn instanceId
          = Run.done (output, InstanceStatusStatusNotFound, none))
      ∧ (∀ e, err = some e → ErrCodeEquals err InstanceStatusStatusNotFound = false →
        statusInstance InstanceStatusStatusNotFound conn instanceId
          = Run.done (none, "", some e))
      ∧ (∀ out inst, err = none → output = some out → out.Instance = some inst →
        statusInstance InstanceStatusStatusNotFound conn instanceId
          = Run.done (some out, StringValue inst.InstanceStatus, none))
      ∧ (∀ o status e, statusInstance InstanceStatusStatusNotFound conn instanceId
          = Run.done (o, status, e) →
        ErrCodeEquals e InstanceStatusStatusNotFound = false) := by
  refine ⟨?_, ?_, ?_, ?_⟩
  · intro hcode
    simp [statusInstance, hcall, hcode]
  · intro e he hcode
    subst he
    simp [statusInstance, hcall, hcode]
  · intro out inst he hout hinst
    subst he hout
    simp [statusInstance, hcall, ErrCodeEquals, hinst]
  · intro o status e hres
    cases hcode : ErrCodeEquals err InstanceStatusStatusNotFound with
    | true =>
      simp [statusInstance, hcall, hcode] at hres
      rw [← hres.2.2]
      rfl
    | false =>
      cases err with
      | some e1 =>
        simp [statusInstance, hcall, hcode] at hres
        rw [← hres.2.2]
        exact hcode
      | none =>
        cases output with
        | none => simp [statusInstance, hcall, hcode] at hres
        | some out =>
          cases hinst : out.Instance with
          | none => simp [statusInstance, hcall, hcode, hinst] at hres
          | some inst =>
            simp [statusInstance, hcall, hcode, hinst] at hres
            rw [← hres.2.2]
            rfl

/-- C22, amended, at inputs: an instance that is reported as not found gives the status
`ResourceNotFoundException` and no error; a throttled call gives the error; an active
instance gives its status. -/
theorem statusInstance_result_witness :
    statusInstance "ResourceNotFoundException"
        (sampleConnectConn none (some sampleResourceNotFound)) "i-1"
        = Run.done (none, "ResourceNotFoundException", none)
      ∧ statusInstance "ResourceNotFoundException"
          (sampleConnectConn none (some sampleThrottled)) "i-1"
        = Run.done (none, "", some sampleThrottled)
      ∧ statusInstance "ResourceNotFoundException"
          (sampleConnectConn (some { Instance := some { InstanceStatus := some "ACTIVE" } })
            none) "i-1"
        = Run.done (some { Instance := some { InstanceStatus := some "ACTIVE" } },
            "ACTIVE", none) :=
  ⟨(statusInstance_result "ResourceNotFoundException"
      (sampleConnectConn none (some sampleResourceNotFound)) "i-1" none
      (some sampleResourceNotFound) rfl).1 (by decide),
   (statusInstance_result "ResourceNotFoundException"
      (sampleConnectConn none (some sampleThrottled)) "i-1" none
      (some sampleThrottled) rfl).2.1 sampleThrottled rfl (by decide),
   (statusInstance_result "ResourceNotFoundException"
      (sampleConnectConn (some { Instance := some { InstanceStatus := some "ACTIVE" } })
        none) "i-1" (some { Instance := some { InstanceStatus := some "ACTIVE" } }) none
      rfl).2.2.1 { Instance := some { InstanceStatus := some "ACTIVE" } }
      { InstanceStatus := some "ACTIVE" } rfl rfl rfl⟩

/-! ## The destroy check of VPC endpoints -/

/-- C30, at the failing input: the state holds the VPC endpoint `vpce-1`, which
`FindVPCEndpointByID` still finds, and `testAccCheckVpcEndpointDestroy` returns nil; on
the same kind of input, a host that is still found, `testAccCheckEc2HostDestroy` returns
its "still exists" error. -/
theorem vpcEndpointDestroy_passes_when_found :
    sampleEC2StillThere.FindVPCEndpointByID "vpce-1"
        = (some { VpcEndpointId := some "vpce-1" }, none)
      ∧ testAccCheckVpcEndpointDestroy sampleEC2StillThere
          [sampleResource "aws_vpc_endpoint" "vpce-1"] = Run.done none
      ∧ testAccCheckEc2HostDestroy sampleEC2StillThere
          [sampleResource "aws_ec2_host" "h-1"]
        = Run.done (some (GoError.formatted "EC2 Host %s still exists" ["h-1"])) := by
  decide

/-- The destroy check of VPC endpoints returns nil whenever no lookup fails, whether the
endpoints are found or not: for resources that all have a primary instance and lookups
that all return a nil error or a not-found error. -/
theorem vpcEndpointDestroy_nil_without_failure (conn : EC2Conn)
    (resources : List (Option ResourceState))
    (hwf : ∀ entry, entry ∈ resources → ∃ rs primary, entry = some rs
      ∧ rs.Primary = some primary
      ∧ ((conn.FindVPCEndpointByID primary.ID).2 = none
          ∨ NotFound (conn.FindVPCEndpointByID primary.ID).2 = true)) :
    testAccCheckVpcEndpointDestroy conn resources = Run.done none := by
  obtain ⟨find, findHost⟩ := conn
  induction resources with
  | nil => rfl
  | cons entry rest ih =>
    obtain ⟨rs, primary, hentry, hprimary, hfind⟩ := hwf entry (List.mem_cons_self _ _)
    have hrest := ih (fun e he => hwf e (List.mem_cons_of_mem _ he))
    subst hentry
    rw [testAccCheckVpcEndpointDestroy]
    split
    · exact hrest
    · rw [hprimary]
      dsimp only at hfind ⊢
      rcases hres : find primary.ID with ⟨out, err⟩
      rw [hres] at hfind
      rcases hfind with h | h
      · have h1 : err = none := h
        subst h1
        simpa [NotFound] using hrest
      · have h1 : NotFound err = true := h
        simpa [h1] using hrest

end Provider
